import Mathlib

/-!
Verification development for the XYLO-HOST deployment platform.

The repository is a TypeScript web application whose server (src/server/routes.ts,
together with the variant in src/unnamed/part_001) orchestrates GitHub REST calls
to fork a repository, create a branch, patch configuration files, push a workflow
file and dispatch it, while recording Deployment rows and append-only
DeploymentLog rows in an in-memory store (MemStorage).

This file gives a shallow embedding of:
  * the record store `MemStorage` (deployments / deployment logs) and its
    operations `createDeployment`, `updateDeployment`, `getDeployment`,
    `getDeploymentsByUser`, `createDeploymentLog`, `getDeploymentLogs`;
  * the GitHub REST wrapper `makeGitHubRequest` in both of its variants;
  * the POST /api/deploy orchestration of src/server/routes.ts (first variant,
    `deployBodyV1` / `deployHandlerV1`) and of src/unnamed/part_001
    (`deployBodyV2` / `deployHandlerV2`), as state-passing functions over an
    environment describing the outcome of every GitHub HTTP call;
  * the per-deployment log-relay loop (`streamIter`) and the socket
    subscribe/close handlers;
  * the GET /api/deployments/:id and GET /api/deployments/:id/logs endpoints.

Modelling conventions, used consistently below:
  * Generated identifiers (crypto.randomUUID) are modelled by a fresh-counter
    `nextId : Nat`; identifiers are Nat.  No claim depends on the shape of a
    UUID string, only on freshness.
  * `new Date()` timestamps are modelled by a logical clock `now : Nat` that
    ticks on every store operation.
  * JavaScript `x || y` on strings (empty string is falsy) is `jsOrDefault` /
    `jsStrOrNull`; optional values collapse null/undefined into `Option.none`.
  * Dereferencing a field of `null` (e.g. `user.login` when the GitHub call
    returned 404 and the wrapper returned null) throws a TypeError; it is
    modelled as a thrown error with the fixed message `typeErrorMsg`.
  * File contents written to GitHub are not modelled: no claim refers to the
    bytes of config.js / .env / workflow files, and the string-patching block
    in the source neither throws, nor logs, nor issues HTTP calls.
  * Fixed configuration uses the defaults from the source
    (REPO_OWNER = REPO_NAME = "XYLO-MD", MAIN_BRANCH = "main").
-/

namespace XyloHost

/-! ## Data model (shared/schema: deployments, deployment_logs tables) -/

/-- Deployment row (schema `deployments` table: id, sessionId, branchName,
githubUsername, repositoryName, githubToken (part_001 variant), status,
message, workflowUrl, createdAt, updatedAt). -/
structure Deployment where
  id : Nat
  sessionId : String
  branchName : Option String
  githubUsername : String
  repositoryName : String
  githubToken : Option String
  status : String
  message : Option String
  workflowUrl : Option String
  createdAt : Nat
  updatedAt : Nat
deriving Repr, DecidableEq

/-- DeploymentLog row (schema `deployment_logs` table). -/
structure DeploymentLog where
  id : Nat
  deploymentId : Nat
  step : String
  status : String
  message : String
  timestamp : Nat
deriving Repr, DecidableEq

/-- Fields accepted by `insertDeploymentSchema` (no id / createdAt / updatedAt). -/
structure InsertDeployment where
  sessionId : String
  branchName : Option String := none
  githubUsername : String
  repositoryName : String
  githubToken : Option String := none
  status : Option String := none
  message : Option String := none
  workflowUrl : Option String := none
deriving Repr, DecidableEq

/-- Fields accepted by `insertDeploymentLogSchema`. -/
structure InsertDeploymentLog where
  deploymentId : Nat
  step : String
  status : String
  message : String
deriving Repr, DecidableEq

/-- A `Partial<InsertDeployment>` updates object: the outer Option records
whether the field is present in the JavaScript object at all; spread semantics
apply a field only when present. -/
structure DeploymentUpdates where
  sessionId : Option String := none
  branchName : Option (Option String) := none
  githubUsername : Option String := none
  repositoryName : Option String := none
  githubToken : Option (Option String) := none
  status : Option String := none
  message : Option (Option String) := none
  workflowUrl : Option (Option String) := none
deriving Repr, DecidableEq

/-- JavaScript `s || dflt` where `s` is a possibly-absent string: the empty
string is falsy. -/
def jsOrDefault (s : Option String) (dflt : String) : String :=
  match s with
  | some v => if v = "" then dflt else v
  | none => dflt

/-- JavaScript `s || null` on a possibly-absent string. -/
def jsStrOrNull (s : Option String) : Option String :=
  match s with
  | some v => if v = "" then none else some v
  | none => none

/-! ## MemStorage (src/unnamed/part_001 lines 16-101) -/

/-- In-memory store: JavaScript `Map`s preserve insertion order, so each map is
a list in insertion order; `nextId` models randomUUID freshness and `now` the
wall clock. -/
structure StorageState where
  deployments : List Deployment
  deploymentLogs : List DeploymentLog
  nextId : Nat
  now : Nat
deriving Repr, DecidableEq

/-- MemStorage.getDeployment: `this.deployments.get(id)`. -/
def getDeployment (s : StorageState) (id : Nat) : Option Deployment :=
  s.deployments.find? (fun d => d.id == id)

/-- MemStorage.createDeployment: fresh id, `status || 'pending'`,
nullable fields normalised through `|| null`, createdAt = updatedAt = now. -/
def createDeployment (s : StorageState) (ins : InsertDeployment) :
    Deployment × StorageState :=
  let d : Deployment :=
    { id := s.nextId
      sessionId := ins.sessionId
      branchName := jsStrOrNull ins.branchName
      githubUsername := ins.githubUsername
      repositoryName := ins.repositoryName
      githubToken := jsStrOrNull ins.githubToken
      status := jsOrDefault ins.status "pending"
      message := jsStrOrNull ins.message
      workflowUrl := jsStrOrNull ins.workflowUrl
      createdAt := s.now
      updatedAt := s.now }
  (d, { s with deployments := s.deployments ++ [d],
                nextId := s.nextId + 1, now := s.now + 1 })

/-- Spread semantics of `{...deployment, ...updates, updatedAt: new Date()}`:
present update fields override, id and createdAt are not in
`Partial<InsertDeployment>` and therefore survive. -/
def applyUpdates (d : Deployment) (u : DeploymentUpdates) (now : Nat) :
    Deployment :=
  { id := d.id
    sessionId := u.sessionId.getD d.sessionId
    branchName := u.branchName.getD d.branchName
    githubUsername := u.githubUsername.getD d.githubUsername
    repositoryName := u.repositoryName.getD d.repositoryName
    githubToken := u.githubToken.getD d.githubToken
    status := u.status.getD d.status
    message := u.message.getD d.message
    workflowUrl := u.workflowUrl.getD d.workflowUrl
    createdAt := d.createdAt
    updatedAt := now }

/-- MemStorage.updateDeployment: absent id returns undefined and leaves the
store untouched; otherwise the entry is replaced in place (Map.set on an
existing key keeps insertion order). -/
def updateDeployment (s : StorageState) (id : Nat) (u : DeploymentUpdates) :
    Option Deployment × StorageState :=
  match s.deployments.find? (fun d => d.id == id) with
  | none => (none, s)
  | some d =>
      let d' := applyUpdates d u s.now
      let deps := s.deployments.map (fun e => if e.id == id then d' else e)
      (some d', { s with deployments := deps, now := s.now + 1 })

/-- MemStorage.getDeploymentsByUser. -/
def getDeploymentsByUser (s : StorageState) (githubUsername : String) :
    List Deployment :=
  s.deployments.filter (fun d => d.githubUsername == githubUsername)

/-- MemStorage.createDeploymentLog: fresh id, timestamp = now, appended. -/
def createDeploymentLog (s : StorageState) (ins : InsertDeploymentLog) :
    DeploymentLog × StorageState :=
  let log : DeploymentLog :=
    { id := s.nextId
      deploymentId := ins.deploymentId
      step := ins.step
      status := ins.status
      message := ins.message
      timestamp := s.now }
  (log, { s with deploymentLogs := s.deploymentLogs ++ [log],
                 nextId := s.nextId + 1, now := s.now + 1 })

/-- Comparator of `getDeploymentLogs`: `a.timestamp - b.timestamp`, i.e. sort
by non-decreasing timestamp. -/
def logLe (a b : DeploymentLog) : Bool := a.timestamp ≤ b.timestamp

/-- MemStorage.getDeploymentLogs: filter by deploymentId, then
`.sort((a, b) => a.timestamp.getTime() - b.timestamp.getTime())`. -/
def getDeploymentLogs (s : StorageState) (deploymentId : Nat) :
    List DeploymentLog :=
  (s.deploymentLogs.filter (fun log => log.deploymentId == deploymentId)).mergeSort logLe

/-! ## GitHub REST wrapper `makeGitHubRequest` -/

/-- Environment-provided outcome of one underlying axios HTTP request:
a 2xx body, a 404 failure, or another failure carrying the optional
`error.response.data.message` from GitHub plus `error.message` from the
transport error. -/
inductive GHResult (α : Type) where
  | ok (v : α)
  | notFound
  | err (ghMsg : Option String) (transportMsg : String)
deriving Repr, DecidableEq

/-- What a call to the wrapper does: return a body (null for 404) or throw. -/
inductive GHOutcome (α : Type) where
  | value (v : Option α)
  | thrown (msg : String)
deriving Repr, DecidableEq

/-- JavaScript `ghMsg || transportMsg` (an empty or absent GitHub message
falls back to the transport error's message). -/
def jsErrMsg (ghMsg : Option String) (transportMsg : String) : String :=
  match ghMsg with
  | some m => if m = "" then transportMsg else m
  | none => transportMsg

/-- makeGitHubRequest, src/server/routes.ts lines 210-228: 404 becomes a null
return, any other failure throws `error.response?.data?.message || error.message`. -/
def makeGitHubRequest (r : GHResult α) : GHOutcome α :=
  match r with
  | .ok v => .value (some v)
  | .notFound => .value none
  | .err gh tm => .thrown (jsErrMsg gh tm)

/-- Substring test, JavaScript `String.prototype.includes`. -/
def jsIncludes (s pat : String) : Bool :=
  go s.data pat.data
where
  go : List Char → List Char → Bool
    | [], pat => pat.isEmpty
    | l@(_ :: tl), pat => pat.isPrefixOf l || go tl pat

/-- makeGitHubRequest, src/unnamed/part_001 lines 327-362: like the first
variant, but a non-404 failure whose message contains "sha" is rethrown
wrapped in a remediation sentence. -/
def makeGitHubRequestV2 (r : GHResult α) : GHOutcome α :=
  match r with
  | .ok v => .value (some v)
  | .notFound => .value none
  | .err gh tm =>
      let errorMsg := jsErrMsg gh tm
      if jsIncludes errorMsg "sha" then
        .thrown ("File update failed: " ++ errorMsg ++
          ". This usually means the file was modified since we last checked it.")
      else
        .thrown errorMsg

/-! ## Deploy orchestration: environment -/

/-- Response body of GET /user. -/
structure GHUser where
  login : String
deriving Repr, DecidableEq

/-- Response body of GET repos/{login}/{repo}: the `fork` flag and
`parent.full_name` (a fork always carries its parent on the GitHub API). -/
structure RepoInfo where
  isFork : Bool
  parentFullName : String
deriving Repr, DecidableEq

/-- Response body of a git ref lookup (`object.sha`). -/
structure RefInfo where
  sha : String
deriving Repr, DecidableEq

/-- Response body of a repository-contents lookup. -/
structure FileData where
  sha : String
  content : String
deriving Repr, DecidableEq

/-- Response body of GET repos/{owner}/{repo}/actions/permissions. -/
structure ActionsPerms where
  enabled : Bool
deriving Repr, DecidableEq

/-- One field per GitHub HTTP call of the POST /api/deploy handlers; fields
only used by the part_001 variant are marked V2.  `randFrac` is the string
`Math.random().toString(36)` evaluated to a character list. -/
structure DeployEnv where
  userResp : GHResult GHUser
  forkGet : GHResult RepoInfo
  forkPost : GHResult RepoInfo
  actionsGet1 : GHResult ActionsPerms  -- V2 pre-check on an existing fork
  actionsGet2 : GHResult ActionsPerms  -- V2 verify/auto-enable check
  actionsPut : GHResult Unit           -- V2 auto-enable PUT
  branchGet : GHResult RefInfo
  mainRefGet : GHResult RefInfo
  refsPost : GHResult Unit
  configGet : GHResult FileData
  configPut : GHResult Unit
  envGet : GHResult FileData
  envPut : GHResult Unit
  workflowShaGet : GHResult FileData   -- V2 existing-workflow sha lookup
  workflowPut : GHResult Unit
  repoInfoGet : GHResult RepoInfo      -- V2 diagnostic repo lookup
  actionsGet3 : GHResult ActionsPerms  -- V2 diagnostic permissions lookup
  dispatchPost : GHResult Unit
  workflowCheckGet : GHResult FileData -- V1 retry-path / V2 pre-dispatch check
  dispatchRetryPost : GHResult Unit    -- V1 retry dispatch
  randFrac : List Char
deriving Repr, DecidableEq

/-- Tag recording which GitHub endpoint a call hit. -/
inductive GHCall where
  | getUser | getFork | postFork
  | getActionsPerms1 | getActionsPerms2 | putActionsPerms
  | getBranchRef | getMainRef | postRefs
  | getConfig | putConfig | getEnvFile | putEnvFile
  | getWorkflowSha | putWorkflow
  | getRepoInfo | getActionsPerms3
  | postDispatch | getWorkflowCheck | postDispatchRetry
deriving Repr, DecidableEq

/-- The GitHub-mutating call kinds enumerated by the branch-collision claim:
branch creation, file writes, workflow-file write, workflow dispatch. -/
def branchFileWorkflowMutations : List GHCall :=
  [.postRefs, .putConfig, .putEnvFile, .putWorkflow, .postDispatch, .postDispatchRetry]

/-! ## Deploy orchestration: step plumbing -/

/-- State threaded through the handler: the record store plus the ordered
trace of GitHub calls issued so far. -/
structure St where
  store : StorageState
  trace : List GHCall
deriving Repr, DecidableEq

/-- Result of a fragment of the handler body: normal completion or a thrown
JavaScript error (both carry the state at that point, since the catch block
sees all effects performed before the throw). -/
inductive StepOut (α : Type) where
  | ok (v : α) (st : St)
  | thrown (msg : String) (st : St)
deriving Repr, DecidableEq

/-- State component of a step result. -/
def StepOut.st : StepOut α → St
  | .ok _ s => s
  | .thrown _ s => s

@[simp] theorem StepOut.st_ok {α : Type} (v : α) (s : St) :
    (StepOut.ok v s).st = s := rfl

@[simp] theorem StepOut.st_thrown {α : Type} (m : String) (s : St) :
    (StepOut.thrown (α := α) m s).st = s := rfl

/-- Message of the Error thrown by dereferencing a field of `null`. -/
def typeErrorMsg : String := "Cannot read properties of null"

/-- Perform one wrapper call (first-variant wrapper), recording the call tag. -/
def ghCallV1 (tag : GHCall) (r : GHResult α) (st : St) : StepOut (Option α) :=
  let st' : St := { st with trace := st.trace ++ [tag] }
  match makeGitHubRequest r with
  | .value v => .ok v st'
  | .thrown m => .thrown m st'

/-- Perform one wrapper call (part_001 wrapper), recording the call tag. -/
def ghCallV2 (tag : GHCall) (r : GHResult α) (st : St) : StepOut (Option α) :=
  let st' : St := { st with trace := st.trace ++ [tag] }
  match makeGitHubRequestV2 r with
  | .value v => .ok v st'
  | .thrown m => .thrown m st'

/-- The handler's `logStep` helper (routes.ts lines 338-346): append a log row
for the current deployment. -/
def addLog (depId : Nat) (step status message : String) (st : St) : St :=
  { st with store := (createDeploymentLog st.store
      { deploymentId := depId, step := step, status := status, message := message }).2 }

/-- Apply `storage.updateDeployment` inside the handler. -/
def updDep (depId : Nat) (u : DeploymentUpdates) (st : St) : St :=
  { st with store := (updateDeployment st.store depId u).2 }

/-- Fixed upstream repository (`REPO_OWNER`/`REPO_NAME` defaults). -/
def REPO_NAME : String := "XYLO-MD"

/-- `${REPO_OWNER}/${REPO_NAME}` against which `fork.parent.full_name` is compared. -/
def upstreamFullName : String := "XYLO-MD/XYLO-MD"

/-- Generated branch name: `xylo-` ++ `Math.random().toString(36).substring(2, 8)`. -/
def jsGenBranch (randFrac : List Char) : String :=
  String.mk ('x' :: 'y' :: 'l' :: 'o' :: '-' :: (randFrac.drop 2).take 6)

/-- `branchName && branchName.trim() ? branchName.trim() : generated`
(absent, empty or whitespace-only input falls back to the generated name). -/
def finalBranch (branchName : Option String) (randFrac : List Char) : String :=
  match branchName with
  | some b => if b.trim = "" then jsGenBranch randFrac else b.trim
  | none => jsGenBranch randFrac

/-! ## Deploy orchestration, first variant (src/server/routes.ts 316-753) -/

/-- Step 1 (init): GET /user, log running/success; `user.login` on a 404 null
body throws a TypeError before the success log. -/
def stepInit (env : DeployEnv) (depId : Nat) (st : St) : StepOut GHUser :=
  let st := addLog depId "init" "running" "Getting user information..." st
  match ghCallV1 .getUser env.userResp st with
  | .thrown m st => .thrown m st
  | .ok none st => .thrown typeErrorMsg st
  | .ok (some u) st =>
      .ok u (addLog depId "init" "success" ("Connected as " ++ u.login) st)

/-- The fork-lookup try block: any throw (HTTP error, or the TypeError from
`fork.fork` on a null body) is swallowed leaving `fork` null, and a repo that
is not a fork of the upstream is reset to null. -/
def lookupFork (env : DeployEnv) (st : St) : Option RepoInfo × St :=
  match ghCallV1 .getFork env.forkGet st with
  | .thrown _ st => (none, st)
  | .ok none st => (none, st)
  | .ok (some f) st =>
      if !f.isFork || f.parentFullName != upstreamFullName then (none, st)
      else (some f, st)

/-- Step 2 (fork): check the fork, create it when absent (the 2-second
propagation delay is untimed here). -/
def stepFork (env : DeployEnv) (depId : Nat) (st : St) : StepOut (Option RepoInfo) :=
  let st := addLog depId "fork" "running" "Checking repository fork..." st
  match lookupFork env st with
  | (some f, st) =>
      .ok (some f) (addLog depId "fork" "success" "Using existing repository fork" st)
  | (none, st) =>
      let st := addLog depId "fork" "running" "Creating repository fork..." st
      match ghCallV1 .postFork env.forkPost st with
      | .thrown m st => .thrown m st
      | .ok forkRes st =>
          .ok forkRes (addLog depId "fork" "success" "Repository fork created successfully" st)

/-- Step 3 (branch): fail on a name collision before creating the branch;
`mainRef.object.sha` on a 404 null body throws a TypeError. -/
def stepBranch (env : DeployEnv) (depId : Nat) (branch : String) (st : St) :
    StepOut Unit :=
  let st := addLog depId "branch" "running" ("Creating branch: " ++ branch ++ "...") st
  match ghCallV1 .getBranchRef env.branchGet st with
  | .thrown m st => .thrown m st
  | .ok (some _) st =>
      let st := addLog depId "branch" "failed" ("Branch '" ++ branch ++ "' already exists") st
      .thrown ("Branch '" ++ branch ++ "' already exists. Please choose a different name.") st
  | .ok none st =>
      match ghCallV1 .getMainRef env.mainRefGet st with
      | .thrown m st => .thrown m st
      | .ok none st => .thrown typeErrorMsg st
      | .ok (some _) st =>
          match ghCallV1 .postRefs env.refsPost st with
          | .thrown m st => .thrown m st
          | .ok _ st =>
              .ok () (addLog depId "branch" "success"
                ("Branch '" ++ branch ++ "' created successfully") st)

/-- Step 4 (config): read config.js (404 or failure fall back to a default
template via the catch), write it back, then best-effort read and write .env
(both wrapped in try/catch so their failures are swallowed).  The
string-patching of contents cannot throw and is content-only, hence elided. -/
def stepConfig (env : DeployEnv) (depId : Nat) (st : St) : StepOut Unit :=
  let st := addLog depId "config" "running" "Updating configuration file..." st
  let st := (ghCallV1 .getConfig env.configGet st).st
  match ghCallV1 .putConfig env.configPut st with
  | .thrown m st => .thrown m st
  | .ok _ st =>
      let st := (ghCallV1 .getEnvFile env.envGet st).st
      let st := (ghCallV1 .putEnvFile env.envPut st).st
      .ok () (addLog depId "config" "success"
        "Configuration file updated with session ID" st)

/-- Step 5 (workflow): write the workflow file. -/
def stepWorkflow (env : DeployEnv) (depId : Nat) (st : St) : StepOut Unit :=
  let st := addLog depId "workflow" "running" "Creating GitHub Actions workflow..." st
  match ghCallV1 .putWorkflow env.workflowPut st with
  | .thrown m st => .thrown m st
  | .ok _ st =>
      .ok () (addLog depId "workflow" "success" "GitHub Actions workflow created" st)

/-- Updates written after a successful dispatch. -/
def updRunning : DeploymentUpdates :=
  { status := some "running",
    message := some (some "Bot deployment workflow is now running") }

/-- Updates written after a successful retry dispatch. -/
def updRunningRetry : DeploymentUpdates :=
  { status := some "running",
    message := some (some "Bot deployment workflow is now running (retry successful)") }

/-- Step 6 (deploy): dispatch the workflow; on a thrown dispatch the handler
logs a failure, re-checks the workflow file and retries once, rethrowing the
original error if the retry path itself throws.  A null (404) workflow
re-check silently falls through with no further dispatch. -/
def stepDispatch (env : DeployEnv) (depId : Nat) (st : St) : StepOut Unit :=
  let st := addLog depId "deploy" "running" "Triggering deployment workflow..." st
  match ghCallV1 .postDispatch env.dispatchPost st with
  | .ok _ st =>
      let st := updDep depId updRunning st
      .ok () (addLog depId "deploy" "success"
        "Deployment workflow triggered successfully" st)
  | .thrown dm st =>
      let st := addLog depId "deploy" "failed" ("Failed to trigger workflow: " ++ dm) st
      match ghCallV1 .getWorkflowCheck env.workflowCheckGet st with
      | .thrown _ st => .thrown dm st
      | .ok none st => .ok () st
      | .ok (some _) st =>
          match ghCallV1 .postDispatchRetry env.dispatchRetryPost st with
          | .thrown _ st => .thrown dm st
          | .ok _ st =>
              let st := updDep depId updRunningRetry st
              .ok () (addLog depId "deploy" "success"
                "Deployment workflow triggered successfully (after retry)" st)

/-- Deploy response observable by the HTTP client. -/
inductive DeployResponse where
  | unauthorized
  | success (deploymentId : Nat) (branch : String) (workflowUrl : String)
  | failure (errMsg : String)
deriving Repr, DecidableEq

/-- Final update: record branch name and workflow URL of the deployment. -/
def updFinal (branch workflowUrl : String) : DeploymentUpdates :=
  { branchName := some (some branch), workflowUrl := some (some workflowUrl) }

/-- Body of the first-variant deploy handler after the Deployment row was
created: — the sequence init, fork, branch, config, workflow, dispatch; any
throw propagates to the handler's catch. -/
def deployBodyV1 (env : DeployEnv) (branchReq : Option String) (depId : Nat)
    (st : St) : StepOut DeployResponse :=
  match stepInit env depId st with
  | .thrown m st => .thrown m st
  | .ok user st =>
  match stepFork env depId st with
  | .thrown m st => .thrown m st
  | .ok _fork st =>
  let branch := finalBranch branchReq env.randFrac
  match stepBranch env depId branch st with
  | .thrown m st => .thrown m st
  | .ok _ st =>
  match stepConfig env depId st with
  | .thrown m st => .thrown m st
  | .ok _ st =>
  match stepWorkflow env depId st with
  | .thrown m st => .thrown m st
  | .ok _ st =>
  match stepDispatch env depId st with
  | .thrown m st => .thrown m st
  | .ok _ st =>
      let workflowUrl := "https://github.com/" ++ user.login ++ "/" ++ REPO_NAME ++ "/actions"
      let st := updDep depId (updFinal branch workflowUrl) st
      .ok (.success depId branch workflowUrl) st

/-! ## Deploy orchestration, part_001 variant (src/unnamed/part_001 571-1149)

All wrapper calls go through `makeGitHubRequestV2`.  Catch blocks that branch
on `error.response?.status` are unreachable in their 404/403 arms, because the
wrapper rethrows `new Error(message)` which carries no `response` property. -/

/-- Fork-lookup try block of the part_001 variant. -/
def lookupForkV2 (env : DeployEnv) (st : St) : Option RepoInfo × St :=
  match ghCallV2 .getFork env.forkGet st with
  | .thrown _ st => (none, st)
  | .ok none st => (none, st)
  | .ok (some f) st =>
      if !f.isFork || f.parentFullName != upstreamFullName then (none, st)
      else (some f, st)

/-- part_001 step 1 (init), identical to the first variant up to the wrapper. -/
def stepInitV2 (env : DeployEnv) (depId : Nat) (st : St) : StepOut GHUser :=
  let st := addLog depId "init" "running" "Getting user information..." st
  match ghCallV2 .getUser env.userResp st with
  | .thrown m st => .thrown m st
  | .ok none st => .thrown typeErrorMsg st
  | .ok (some u) st =>
      .ok u (addLog depId "init" "success" ("Connected as " ++ u.login) st)

/-- part_001 step 2 (fork): lookup, then on an existing fork a best-effort
Actions pre-check (its catch cannot see a 404 status, so it always logs the
generic warning), then creation when absent; a fresh fork logs a
`fork-info`/`warning` note and an existing fork logs a `fork-info`/`info`
note (the fork variable is non-null only when `fork.fork` held). -/
def stepForkV2 (env : DeployEnv) (depId : Nat) (st : St) : StepOut (Option RepoInfo) :=
  let st := addLog depId "fork" "running" "Checking repository fork..." st
  let (fork, st) := lookupForkV2 env st
  let st :=
    match fork with
    | some _ =>
        let st := addLog depId "actions-check" "running"
          "Checking GitHub Actions compatibility..." st
        (match ghCallV2 .getActionsPerms1 env.actionsGet1 st with
         | .ok _ st =>
             addLog depId "actions-check" "success"
               "GitHub Actions are enabled and accessible" st
         | .thrown _ st =>
             addLog depId "actions-check" "warning"
               "Could not verify GitHub Actions status - proceeding with deployment" st)
    | none => st
  match fork with
  | none =>
      let st := addLog depId "fork" "running" "Creating repository fork..." st
      match ghCallV2 .postFork env.forkPost st with
      | .thrown m st => .thrown m st
      | .ok forkRes st =>
          let st := addLog depId "fork" "success" "Repository fork created successfully" st
          .ok forkRes (addLog depId "fork-info" "warning"
            "New fork created. GitHub disables workflows on forks by default for security. You'll need to enable them manually one time." st)
  | some f =>
      let st := addLog depId "fork" "success" "Using existing repository fork" st
      .ok (some f) (addLog depId "fork-info" "info"
        "Working with forked repository. If this is your first deployment, you may need to enable workflows manually." st)

/-- part_001 Actions verify/auto-enable block (lines 655-691): a permissions
body with `enabled === false` triggers an auto-enabling PUT; a null (404)
body or `enabled: true` logs success; any throw inside the try is handled by
the catch whose 404 arm is unreachable, leaving the generic warning
(`actionsError.response?.status` prints as "undefined"). -/
def stepActionsV2 (env : DeployEnv) (depId : Nat) (st : St) : StepOut Unit :=
  let st := addLog depId "actions-check" "running"
    "Verifying GitHub Actions are enabled on your fork..." st
  let warn := fun (st : St) =>
    addLog depId "actions-check" "warning"
      "Could not verify Actions status (undefined). Proceeding with deployment..." st
  match ghCallV2 .getActionsPerms2 env.actionsGet2 st with
  | .thrown _ st => .ok () (warn st)
  | .ok (some perms) st =>
      if perms.enabled = false then
        let st := addLog depId "actions-enable" "running"
          "GitHub Actions are disabled. Auto-enabling them now..." st
        match ghCallV2 .putActionsPerms env.actionsPut st with
        | .thrown _ st => .ok () (warn st)
        | .ok _ st =>
            .ok () (addLog depId "actions-enable" "success"
              "GitHub Actions have been automatically enabled!" st)
      else
        .ok () (addLog depId "actions-check" "success"
          "GitHub Actions are already enabled and ready" st)
  | .ok none st =>
      .ok () (addLog depId "actions-check" "success"
        "GitHub Actions are already enabled and ready" st)

/-- part_001 step 3 (branch), identical to the first variant up to the wrapper. -/
def stepBranchV2 (env : DeployEnv) (depId : Nat) (branch : String) (st : St) :
    StepOut Unit :=
  let st := addLog depId "branch" "running" ("Creating branch: " ++ branch ++ "...") st
  match ghCallV2 .getBranchRef env.branchGet st with
  | .thrown m st => .thrown m st
  | .ok (some _) st =>
      let st := addLog depId "branch" "failed" ("Branch '" ++ branch ++ "' already exists") st
      .thrown ("Branch '" ++ branch ++ "' already exists. Please choose a different name.") st
  | .ok none st =>
      match ghCallV2 .getMainRef env.mainRefGet st with
      | .thrown m st => .thrown m st
      | .ok none st => .thrown typeErrorMsg st
      | .ok (some _) st =>
          match ghCallV2 .postRefs env.refsPost st with
          | .thrown m st => .thrown m st
          | .ok _ st =>
              .ok () (addLog depId "branch" "success"
                ("Branch '" ++ branch ++ "' created successfully") st)

/-- part_001 step 4 (config): as in the first variant; the conditional
presence of `sha` in the PUT payload does not change which calls are made. -/
def stepConfigV2 (env : DeployEnv) (depId : Nat) (st : St) : StepOut Unit :=
  let st := addLog depId "config" "running" "Updating configuration file..." st
  let st := (ghCallV2 .getConfig env.configGet st).st
  match ghCallV2 .putConfig env.configPut st with
  | .thrown m st => .thrown m st
  | .ok _ st =>
      let st := (ghCallV2 .getEnvFile env.envGet st).st
      let st := (ghCallV2 .putEnvFile env.envPut st).st
      .ok () (addLog depId "config" "success"
        "Configuration file updated with session ID" st)

/-- part_001 step 5 (workflow): a try-guarded sha lookup of the existing
workflow file (optional chaining, so a null body is harmless), then the PUT. -/
def stepWorkflowV2 (env : DeployEnv) (depId : Nat) (st : St) : StepOut Unit :=
  let st := addLog depId "workflow" "running" "Creating GitHub Actions workflow..." st
  let st := (ghCallV2 .getWorkflowSha env.workflowShaGet st).st
  match ghCallV2 .putWorkflow env.workflowPut st with
  | .thrown m st => .thrown m st
  | .ok _ st =>
      .ok () (addLog depId "workflow" "success" "GitHub Actions workflow created" st)

/-- Failure update of the part_001 dispatch catch. -/
def updFailedDispatch (errorMessage instructions : String) : DeploymentUpdates :=
  { status := some "failed",
    message := some (some (errorMessage ++ "\n\n" ++ instructions)) }

/-- part_001 step 6 (deploy): verify the workflow file exists (a null body
throws an explanatory Error), run two best-effort diagnostic lookups, then
dispatch; the catch logs/records `Workflow dispatch failed: <msg>` plus
manual-trigger instructions and rethrows (its 404/403 arms are unreachable
because wrapper errors carry no `response`). -/
def stepDispatchV2 (env : DeployEnv) (depId : Nat) (login branch : String)
    (st : St) : StepOut Unit :=
  let st := addLog depId "deploy" "running" "Triggering deployment workflow..." st
  let catchBlock := fun (dm : String) (st : St) =>
    let errorMessage := "Workflow dispatch failed: " ++ dm
    let instructions :=
      "Please manually trigger the workflow:\n1. Go to https://github.com/" ++ login ++
      "/" ++ REPO_NAME ++ "/actions\n2. Click on \"XYLO-MD-DEPLOY\" workflow\n3. Click \"Run workflow\" and select branch: " ++ branch
    let st := addLog depId "deploy" "failed" (errorMessage ++ ". " ++ instructions) st
    let st := updDep depId (updFailedDispatch errorMessage instructions) st
    StepOut.thrown errorMessage st
  match ghCallV2 .getWorkflowCheck env.workflowCheckGet st with
  | .thrown m st => catchBlock m st
  | .ok none st =>
      catchBlock "Workflow file was not created successfully. Please add the workflow file manually to your repository." st
  | .ok (some _) st =>
      let st := (match ghCallV2 .getRepoInfo env.repoInfoGet st with
        | .thrown _ st => st
        | .ok _ st => (ghCallV2 .getActionsPerms3 env.actionsGet3 st).st)
      match ghCallV2 .postDispatch env.dispatchPost st with
      | .thrown m st => catchBlock m st
      | .ok _ st =>
          let st := updDep depId updRunning st
          .ok () (addLog depId "deploy" "success"
            "Deployment workflow triggered successfully! Check GitHub Actions tab to see progress." st)

/-- Body of the part_001 deploy handler after the Deployment row was created. -/
def deployBodyV2 (env : DeployEnv) (branchReq : Option String) (depId : Nat)
    (st : St) : StepOut DeployResponse :=
  match stepInitV2 env depId st with
  | .thrown m st => .thrown m st
  | .ok user st =>
  match stepForkV2 env depId st with
  | .thrown m st => .thrown m st
  | .ok _fork st =>
  match stepActionsV2 env depId st with
  | .thrown m st => .thrown m st
  | .ok _ st =>
  let branch := finalBranch branchReq env.randFrac
  match stepBranchV2 env depId branch st with
  | .thrown m st => .thrown m st
  | .ok _ st =>
  match stepConfigV2 env depId st with
  | .thrown m st => .thrown m st
  | .ok _ st =>
  match stepWorkflowV2 env depId st with
  | .thrown m st => .thrown m st
  | .ok _ st =>
  match stepDispatchV2 env depId user.login branch st with
  | .thrown m st => .thrown m st
  | .ok _ st =>
      let workflowUrl := "https://github.com/" ++ user.login ++ "/" ++ REPO_NAME ++ "/actions"
      let st := updDep depId (updFinal branch workflowUrl) st
      .ok (.success depId branch workflowUrl) st

/-! ## Deploy handlers: request parsing, auth, the created row, the catch -/

/-- Parsed request body fields. -/
structure DeployRequest where
  sessionId : String
  branchName : Option String
deriving Repr, DecidableEq

/-- Session data available to a request. -/
structure SessionData where
  githubToken : Option String
  githubUsername : Option String
deriving Repr, DecidableEq

/-- Message of the ZodError raised by `deploymentRequestSchema.parse` on an
empty sessionId (the issue text of `z.string().min(1, ...)`). -/
def zodErrorMessage : String := "Session ID is required"

/-- Observable outcome of a POST /api/deploy request. -/
structure HandlerOut where
  store : StorageState
  ghTrace : List GHCall
  response : DeployResponse
deriving Repr, DecidableEq

/-- Shared catch block (routes.ts 731-752 / part_001 1127-1148): mark the
deployment failed with the error message, append an `error`/`failed` log row,
answer 500 `success: false`. -/
def deployCatch (depId : Nat) (m : String) (st : St) : HandlerOut :=
  let s' := (updateDeployment st.store depId
    { status := some "failed", message := some (some m) }).2
  let s'' := (createDeploymentLog s'
    { deploymentId := depId, step := "error", status := "failed", message := m }).2
  { store := s'', ghTrace := st.trace, response := .failure m }

/-- POST /api/deploy, first variant (routes.ts 316-753): parse, authenticate,
create the `running` Deployment row, run the body, catch.  The truthiness
test `if (!token || !username)` also rejects empty strings, hence the
`jsStrOrNull` normalisation. -/
def deployHandlerV1 (env : DeployEnv) (req : DeployRequest) (sess : SessionData)
    (s₀ : StorageState) : HandlerOut :=
  if req.sessionId = "" then
    { store := s₀, ghTrace := [], response := .failure zodErrorMessage }
  else
    match jsStrOrNull sess.githubToken, jsStrOrNull sess.githubUsername with
    | some _token, some username =>
        let (dep, s₁) := createDeployment s₀
          { sessionId := req.sessionId, branchName := req.branchName,
            githubUsername := username, repositoryName := REPO_NAME,
            status := some "running", message := some "Deployment started" }
        match deployBodyV1 env req.branchName dep.id { store := s₁, trace := [] } with
        | .ok resp st => { store := st.store, ghTrace := st.trace, response := resp }
        | .thrown m st => deployCatch dep.id m st
    | _, _ => { store := s₀, ghTrace := [], response := .unauthorized }

/-- POST /api/deploy, part_001 variant: additionally stores the user's GitHub
token on the Deployment row. -/
def deployHandlerV2 (env : DeployEnv) (req : DeployRequest) (sess : SessionData)
    (s₀ : StorageState) : HandlerOut :=
  if req.sessionId = "" then
    { store := s₀, ghTrace := [], response := .failure zodErrorMessage }
  else
    match jsStrOrNull sess.githubToken, jsStrOrNull sess.githubUsername with
    | some token, some username =>
        let (dep, s₁) := createDeployment s₀
          { sessionId := req.sessionId, branchName := req.branchName,
            githubUsername := username, repositoryName := REPO_NAME,
            githubToken := some token,
            status := some "running", message := some "Deployment started" }
        match deployBodyV2 env req.branchName dep.id { store := s₁, trace := [] } with
        | .ok resp st => { store := st.store, ghTrace := st.trace, response := resp }
        | .thrown m st => deployCatch dep.id m st
    | _, _ => { store := s₀, ghTrace := [], response := .unauthorized }

/-! ## Log relay (routes.ts 42-194) and socket subscription bookkeeping -/

/-- The `activeStreams` map: deployment id to the set of subscribed sockets
(sockets named by Nat), in insertion order. -/
abbrev Streams := List (Nat × List Nat)

/-- Subscribe handler (routes.ts 45-58): create the entry on first use, then
add the socket to the set (a Set ignores duplicates). -/
def subscribeSocket (streams : Streams) (deploymentId ws : Nat) : Streams :=
  if (streams.find? (fun e => e.1 == deploymentId)).isSome then
    streams.map (fun e =>
      if e.1 == deploymentId then
        (e.1, if e.2.contains ws then e.2 else e.2 ++ [ws])
      else e)
  else
    streams ++ [(deploymentId, [ws])]

/-- Close handler (routes.ts 64-73): remove the socket from every deployment's
subscriber set and delete any set that becomes empty. -/
def closeSocket (streams : Streams) (ws : Nat) : Streams :=
  (streams.map (fun e => (e.1, e.2.filter (fun w => w != ws)))).filter
    (fun e => !e.2.isEmpty)

/-- JavaScript `activeStreams.get(id)?.size > 0` where the entry may be absent. -/
def subsNonempty (subs : Option (List Nat)) : Bool :=
  match subs with
  | none => false
  | some l => !l.isEmpty

/-- Rescheduling decision of one `streamLogs` invocation. -/
inductive Resched where
  | stop
  | after3000
  | after5000
deriving Repr, DecidableEq

/-- One invocation of the self-rescheduling `streamLogs` closure
(routes.ts 145-190): a vanished deployment stops the loop; a throw while
fetching or broadcasting takes the catch, which re-arms after 5000 ms whenever
any subscriber remains, without consulting the deployment status; the normal
path re-arms after 3000 ms iff the status is running/pending and a subscriber
remains. -/
def streamIter (dep : Option Deployment) (bodyThrows : Bool)
    (subs : Option (List Nat)) : Resched :=
  match dep with
  | none => .stop
  | some d =>
      if bodyThrows then
        if subsNonempty subs then .after5000 else .stop
      else
        if (d.status == "running" || d.status == "pending") && subsNonempty subs then
          .after3000
        else .stop

/-! ## Read endpoints (routes.ts 770-804) -/

/-- Response of the two per-deployment GET endpoints. -/
inductive ApiResponse (α : Type) where
  | unauthorized
  | notFoundErr
  | okResp (v : α)
deriving Repr, DecidableEq

/-- GET /api/deployments/:id (routes.ts 789-804): 401 without a (truthy)
session username; the same 404 for a missing deployment and for one owned by a
different user. -/
def getDeploymentEndpoint (s : StorageState) (sessionUser : Option String)
    (id : Nat) : ApiResponse Deployment :=
  match jsStrOrNull sessionUser with
  | none => .unauthorized
  | some u =>
      match getDeployment s id with
      | none => .notFoundErr
      | some d => if d.githubUsername ≠ u then .notFoundErr else .okResp d

/-- GET /api/deployments/:id/logs (routes.ts 770-786): same guard, then the
sorted logs of the deployment. -/
def getDeploymentLogsEndpoint (s : StorageState) (sessionUser : Option String)
    (id : Nat) : ApiResponse (List DeploymentLog) :=
  match jsStrOrNull sessionUser with
  | none => .unauthorized
  | some u =>
      match getDeployment s id with
      | none => .notFoundErr
      | some d =>
          if d.githubUsername ≠ u then .notFoundErr
          else .okResp (getDeploymentLogs s id)

/-! ## Proof infrastructure: trace / log extension predicates -/

/-- Predicates on GitHub-call results used as hypotheses below. -/
def GHResult.isErr : GHResult α → Bool
  | .err _ _ => true
  | _ => false

/-- A result that is a 2xx success. -/
def GHResult.isOk : GHResult α → Bool
  | .ok _ => true
  | _ => false

/-- Transport error messages are non-empty (axios always sets one). -/
def GHResult.goodMsg : GHResult α → Bool
  | .err _ tm => !(tm == "")
  | _ => true

/-- The trace only grows, and every new call satisfies Q. -/
def TraceExtend (st st' : St) (Q : GHCall → Prop) : Prop :=
  ∃ δ, st'.trace = st.trace ++ δ ∧ ∀ t ∈ δ, Q t

/-- The log list only grows, and every new row satisfies P. -/
def LogsExtend (st st' : St) (P : DeploymentLog → Prop) : Prop :=
  ∃ δ, st'.store.deploymentLogs = st.store.deploymentLogs ++ δ ∧ ∀ e ∈ δ, P e

theorem traceExtend_refl (st : St) (Q : GHCall → Prop) : TraceExtend st st Q :=
  ⟨[], by simp⟩

theorem traceExtend_trans {st st' st'' : St} {Q : GHCall → Prop}
    (h₁ : TraceExtend st st' Q) (h₂ : TraceExtend st' st'' Q) :
    TraceExtend st st'' Q := by
  obtain ⟨δ₁, e₁, p₁⟩ := h₁
  obtain ⟨δ₂, e₂, p₂⟩ := h₂
  refine ⟨δ₁ ++ δ₂, by rw [e₂, e₁, List.append_assoc], ?_⟩
  intro t ht
  rcases List.mem_append.mp ht with h | h
  · exact p₁ t h
  · exact p₂ t h

theorem traceExtend_mono {st st' : St} {Q R : GHCall → Prop}
    (h : TraceExtend st st' Q) (hqr : ∀ t, Q t → R t) : TraceExtend st st' R := by
  obtain ⟨δ, e, p⟩ := h
  exact ⟨δ, e, fun t ht => hqr t (p t ht)⟩

theorem logsExtend_refl (st : St) (P : DeploymentLog → Prop) : LogsExtend st st P :=
  ⟨[], by simp⟩

theorem logsExtend_trans {st st' st'' : St} {P : DeploymentLog → Prop}
    (h₁ : LogsExtend st st' P) (h₂ : LogsExtend st' st'' P) :
    LogsExtend st st'' P := by
  obtain ⟨δ₁, e₁, p₁⟩ := h₁
  obtain ⟨δ₂, e₂, p₂⟩ := h₂
  refine ⟨δ₁ ++ δ₂, by rw [e₂, e₁, List.append_assoc], ?_⟩
  intro t ht
  rcases List.mem_append.mp ht with h | h
  · exact p₁ t h
  · exact p₂ t h

theorem logsExtend_mono {st st' : St} {P R : DeploymentLog → Prop}
    (h : LogsExtend st st' P) (hpr : ∀ e, P e → R e) : LogsExtend st st' R := by
  obtain ⟨δ, e, p⟩ := h
  exact ⟨δ, e, fun t ht => hpr t (p t ht)⟩

/-- The single row appended by `addLog`. -/
def addLogEntry (depId : Nat) (step status message : String) (st : St) :
    DeploymentLog :=
  { id := st.store.nextId, deploymentId := depId, step := step,
    status := status, message := message, timestamp := st.store.now }

theorem addLog_logsExtend {P : DeploymentLog → Prop} (depId : Nat)
    (step status message : String) (st : St)
    (hp : ∀ idv ts, P ⟨idv, depId, step, status, message, ts⟩) :
    LogsExtend st (addLog depId step status message st) P :=
  ⟨[addLogEntry depId step status message st], rfl, by
    intro e he
    rw [List.mem_singleton] at he
    subst he
    exact hp _ _⟩

theorem addLog_traceExtend (depId : Nat) (step status message : String)
    (st : St) (Q : GHCall → Prop) :
    TraceExtend st (addLog depId step status message st) Q :=
  ⟨[], by simp [addLog], by simp⟩

@[simp] theorem addLog_trace (depId : Nat) (step status message : String)
    (st : St) : (addLog depId step status message st).trace = st.trace := rfl

@[simp] theorem addLog_deployments (depId : Nat) (step status message : String)
    (st : St) :
    (addLog depId step status message st).store.deployments =
      st.store.deployments := rfl

@[simp] theorem ghCallV1_st_trace (tag : GHCall) (r : GHResult α) (st : St) :
    (ghCallV1 tag r st).st.trace = st.trace ++ [tag] := by
  cases r <;> simp [ghCallV1, makeGitHubRequest, StepOut.st]

@[simp] theorem ghCallV1_st_store (tag : GHCall) (r : GHResult α) (st : St) :
    (ghCallV1 tag r st).st.store = st.store := by
  cases r <;> simp [ghCallV1, makeGitHubRequest, StepOut.st]

@[simp] theorem ghCallV2_st_trace (tag : GHCall) (r : GHResult α) (st : St) :
    (ghCallV2 tag r st).st.trace = st.trace ++ [tag] := by
  cases r with
  | ok v => rfl
  | notFound => rfl
  | err gh tm =>
      by_cases h : jsIncludes (jsErrMsg gh tm) "sha" = true
      · simp [ghCallV2, makeGitHubRequestV2, h, StepOut.st]
      · simp [ghCallV2, makeGitHubRequestV2, h, StepOut.st]

@[simp] theorem ghCallV2_st_store (tag : GHCall) (r : GHResult α) (st : St) :
    (ghCallV2 tag r st).st.store = st.store := by
  cases r with
  | ok v => rfl
  | notFound => rfl
  | err gh tm =>
      by_cases h : jsIncludes (jsErrMsg gh tm) "sha" = true
      · simp [ghCallV2, makeGitHubRequestV2, h, StepOut.st]
      · simp [ghCallV2, makeGitHubRequestV2, h, StepOut.st]

theorem ghCallV1_traceExtend {Q : GHCall → Prop} (tag : GHCall)
    (r : GHResult α) (st : St) (hq : Q tag) :
    TraceExtend st (ghCallV1 tag r st).st Q :=
  ⟨[tag], by simp, by simpa using hq⟩

theorem ghCallV2_traceExtend {Q : GHCall → Prop} (tag : GHCall)
    (r : GHResult α) (st : St) (hq : Q tag) :
    TraceExtend st (ghCallV2 tag r st).st Q :=
  ⟨[tag], by simp, by simpa using hq⟩

theorem ghCallV1_logsExtend (tag : GHCall) (r : GHResult α) (st : St)
    (P : DeploymentLog → Prop) : LogsExtend st (ghCallV1 tag r st).st P :=
  ⟨[], by simp, by simp⟩

theorem ghCallV2_logsExtend (tag : GHCall) (r : GHResult α) (st : St)
    (P : DeploymentLog → Prop) : LogsExtend st (ghCallV2 tag r st).st P :=
  ⟨[], by simp, by simp⟩

/-! ## Per-step frame lemmas -/

/-- Statuses written by the routes.ts orchestrator's `logStep` calls. -/
def statusesV1 : List String := ["running", "success", "failed"]

/-- Statuses written by the part_001 orchestrator's `logStep` calls. -/
def statusesV2 : List String := ["running", "success", "failed", "warning", "info"]

/-- Property of every log row a handler step may append. -/
def LogP (depId : Nat) (stats : List String) : DeploymentLog → Prop :=
  fun e => e.deploymentId = depId ∧ e.status ∈ stats

/-- Frame of a non-dispatch step: calls within `tags`, appended logs for this
deployment within `stats`, deployments untouched. -/
def StepFrame (depId : Nat) (tags : List GHCall) (stats : List String)
    (st : St) (out : StepOut α) : Prop :=
  TraceExtend st out.st (fun t => t ∈ tags) ∧
  LogsExtend st out.st (LogP depId stats) ∧
  out.st.store.deployments = st.store.deployments

/-- Frame of a dispatch-like step: as `StepFrame` but the deployment list may
be updated in place (the id list is preserved). -/
def StepFrameD (depId : Nat) (tags : List GHCall) (stats : List String)
    (st : St) (out : StepOut α) : Prop :=
  TraceExtend st out.st (fun t => t ∈ tags) ∧
  LogsExtend st out.st (LogP depId stats) ∧
  out.st.store.deployments.map (fun d => d.id) =
    st.store.deployments.map (fun d => d.id)

theorem addLog_frame {Q : GHCall → Prop} {P : DeploymentLog → Prop}
    (depId : Nat) (step status message : String) (st : St)
    (hp : ∀ idv ts, P ⟨idv, depId, step, status, message, ts⟩) :
    TraceExtend st (addLog depId step status message st) Q ∧
    LogsExtend st (addLog depId step status message st) P :=
  ⟨addLog_traceExtend depId step status message st Q,
   addLog_logsExtend depId step status message st hp⟩

theorem ghCallV1_out_st {tag : GHCall} {r : GHResult α} {st : St}
    {out : StepOut (Option α)} (h : ghCallV1 tag r st = out) :
    out.st.trace = st.trace ++ [tag] ∧ out.st.store = st.store := by
  subst h
  exact ⟨ghCallV1_st_trace tag r st, ghCallV1_st_store tag r st⟩

theorem ghCallV2_out_st {tag : GHCall} {r : GHResult α} {st : St}
    {out : StepOut (Option α)} (h : ghCallV2 tag r st = out) :
    out.st.trace = st.trace ++ [tag] ∧ out.st.store = st.store := by
  subst h
  exact ⟨ghCallV2_st_trace tag r st, ghCallV2_st_store tag r st⟩

/-- Chained frame for `addLog` then a wrapper call. -/
theorem stepFrame_call_of_st {depId : Nat} {tags : List GHCall}
    {stats : List String} {st mid : St} {out : StepOut α}
    (htr : TraceExtend st mid (fun t => t ∈ tags))
    (hlg : LogsExtend st mid (LogP depId stats))
    (hdep : mid.store.deployments = st.store.deployments)
    (htr2 : TraceExtend mid out.st (fun t => t ∈ tags))
    (hlg2 : LogsExtend mid out.st (LogP depId stats))
    (hdep2 : out.st.store.deployments = mid.store.deployments) :
    StepFrame depId tags stats st out :=
  ⟨traceExtend_trans htr htr2, logsExtend_trans hlg hlg2, by rw [hdep2, hdep]⟩

/-! Simp lemmas for `updDep`. -/

theorem find?_id_eq {l : List Deployment} {id : Nat} {d : Deployment}
    (h : l.find? (fun e => e.id == id) = some d) : d.id = id := by
  have := List.find?_some h
  simpa using this

@[simp] theorem updDep_trace (depId : Nat) (u : DeploymentUpdates) (st : St) :
    (updDep depId u st).trace = st.trace := by
  unfold updDep updateDeployment
  cases st.store.deployments.find? (fun e => e.id == depId) <;> rfl

@[simp] theorem updDep_logs (depId : Nat) (u : DeploymentUpdates) (st : St) :
    (updDep depId u st).store.deploymentLogs = st.store.deploymentLogs := by
  unfold updDep updateDeployment
  cases st.store.deployments.find? (fun e => e.id == depId) <;> rfl

theorem map_id_replace (l : List Deployment) (id : Nat) (d' : Deployment)
    (hd : d'.id = id) :
    (l.map (fun e => if e.id == id then d' else e)).map (fun d => d.id) =
      l.map (fun d => d.id) := by
  rw [List.map_map]
  refine List.map_congr_left ?_
  intro e _
  by_cases h : e.id = id
  · simp [Function.comp, h, hd]
  · simp [Function.comp, h]

theorem updDep_ids (depId : Nat) (u : DeploymentUpdates) (st : St) :
    (updDep depId u st).store.deployments.map (fun d => d.id) =
      st.store.deployments.map (fun d => d.id) := by
  unfold updDep updateDeployment
  cases hf : st.store.deployments.find? (fun e => e.id == depId) with
  | none => rfl
  | some d =>
      have hid : d.id = depId := find?_id_eq hf
      simpa using map_id_replace st.store.deployments depId
        (applyUpdates d u st.store.now) (by simp [applyUpdates, hid])

/-- Step 1 frame (both variants share the shape; this is the V1 lemma). -/
theorem stepInit_frame (env : DeployEnv) (depId : Nat) (st : St) :
    StepFrame depId [.getUser] ["running", "success"] st (stepInit env depId st) := by
  unfold stepInit
  have h₁ := addLog_frame (Q := fun t => t ∈ [GHCall.getUser])
    (P := LogP depId ["running", "success"])
    depId "init" "running" "Getting user information..." st
    (by intro idv ts; exact ⟨rfl, by simp⟩)
  dsimp only
  set s1 := addLog depId "init" "running" "Getting user information..." st with hs1
  split
  next m s2 heq =>
    have h2 := ghCallV1_out_st heq
    have h2s : s2.store = s1.store := h2.2
    exact stepFrame_call_of_st h₁.1 h₁.2 rfl
      ⟨[.getUser], h2.1, by simp⟩ ⟨[], by simp [h2s], by simp⟩ (by simp [h2s])
  next s2 heq =>
    have h2 := ghCallV1_out_st heq
    have h2s : s2.store = s1.store := h2.2
    exact stepFrame_call_of_st h₁.1 h₁.2 rfl
      ⟨[.getUser], h2.1, by simp⟩ ⟨[], by simp [h2s], by simp⟩ (by simp [h2s])
  next u s2 heq =>
    have h2 := ghCallV1_out_st heq
    have h2s : s2.store = s1.store := h2.2
    have h₃ := addLog_frame (Q := fun t => t ∈ [GHCall.getUser])
      (P := LogP depId ["running", "success"])
      depId "init" "success" ("Connected as " ++ u.login) s2
      (by intro idv ts; exact ⟨rfl, by simp⟩)
    refine ⟨traceExtend_trans h₁.1 (traceExtend_trans ⟨[.getUser], h2.1, by simp⟩ h₃.1), ?_, ?_⟩
    · exact logsExtend_trans h₁.2 (logsExtend_trans ⟨[], by simp [h2s], by simp⟩ h₃.2)
    · show (addLog _ _ _ _ s2).store.deployments = st.store.deployments
      simp [h2s, hs1]

/-! ## Parametric per-step lemmas

Each step function only transforms the state through `addLog`, wrapper calls
and `updDep`.  For any relation R closed under the combinators a step uses,
R relates its input state to its output state; the per-claim relations
(frames, log monotonicity, deployment preservation) are instances. -/

theorem stepInit_rel {R : St → St → Prop} {depId : Nat}
    (htr : Transitive R)
    (hlog : ∀ st step status msg, status ∈ ["running", "success"] →
      R st (addLog depId step status msg st))
    (hgh : ∀ (α : Type) (r : GHResult α) st,
      R st (ghCallV1 GHCall.getUser r st).st)
    (env : DeployEnv) (st : St) : R st (stepInit env depId st).st := by
  unfold stepInit
  dsimp only
  split
  next m s2 heq =>
    exact htr (hlog st _ _ _ (by simp)) (heq ▸ hgh _ env.userResp _)
  next s2 heq =>
    exact htr (hlog st _ _ _ (by simp)) (heq ▸ hgh _ env.userResp _)
  next u s2 heq =>
    exact htr (htr (hlog st _ _ _ (by simp)) (heq ▸ hgh _ env.userResp _))
      (hlog s2 _ _ _ (by simp))

/-- Transport an R-step over a wrapper call along a match equation. -/
theorem ghV1_rel_of_eq {R : St → St → Prop} {α : Type} {tag : GHCall}
    {r : GHResult α} {st : St} {out : StepOut (Option α)}
    (hgh : R st (ghCallV1 tag r st).st) (heq : ghCallV1 tag r st = out) :
    R st out.st := heq ▸ hgh

theorem ghV2_rel_of_eq {R : St → St → Prop} {α : Type} {tag : GHCall}
    {r : GHResult α} {st : St} {out : StepOut (Option α)}
    (hgh : R st (ghCallV2 tag r st).st) (heq : ghCallV2 tag r st = out) :
    R st out.st := heq ▸ hgh

theorem lookupFork_snd (env : DeployEnv) (st : St) :
    (lookupFork env st).2 = (ghCallV1 .getFork env.forkGet st).st := by
  unfold lookupFork
  split
  next st' heq => rw [heq]; rfl
  next st' heq => rw [heq]; rfl
  next f st' heq =>
    rw [heq]
    split <;> rfl

theorem stepFork_rel {R : St → St → Prop} {depId : Nat}
    (htr : Transitive R)
    (hlog : ∀ st step status msg, status ∈ ["running", "success"] →
      R st (addLog depId step status msg st))
    (hgh : ∀ (α : Type) (tag : GHCall) (r : GHResult α) st,
      tag ∈ [GHCall.getFork, GHCall.postFork] → R st (ghCallV1 tag r st).st)
    (env : DeployEnv) (st : St) : R st (stepFork env depId st).st := by
  unfold stepFork
  dsimp only
  have hlk : ∀ s, R s (lookupFork env s).2 := fun s =>
    lookupFork_snd env s ▸ hgh _ .getFork env.forkGet s (by simp)
  split
  next f s2 heq =>
    have h2 : R _ s2 := congrArg Prod.snd heq ▸ hlk _
    exact htr (htr (hlog st "fork" "running" _ (by simp)) h2)
      (hlog s2 "fork" "success" _ (by simp))
  next s2 heq =>
    have h2 : R _ s2 := congrArg Prod.snd heq ▸ hlk _
    have hbase : R st (addLog depId "fork" "running"
        "Creating repository fork..." s2) :=
      htr (htr (hlog st "fork" "running" _ (by simp)) h2)
        (hlog s2 "fork" "running" _ (by simp))
    split
    next m s3 heq2 =>
      exact htr hbase (ghV1_rel_of_eq (hgh _ .postFork env.forkPost _ (by simp)) heq2)
    next v s3 heq2 =>
      exact htr (htr hbase
        (ghV1_rel_of_eq (hgh _ .postFork env.forkPost _ (by simp)) heq2))
        (hlog s3 "fork" "success" _ (by simp))

theorem stepBranch_rel {R : St → St → Prop} {depId : Nat}
    (htr : Transitive R)
    (hlog : ∀ st step status msg, status ∈ ["running", "success", "failed"] →
      R st (addLog depId step status msg st))
    (hgh : ∀ (α : Type) (tag : GHCall) (r : GHResult α) st,
      tag ∈ [GHCall.getBranchRef, GHCall.getMainRef, GHCall.postRefs] →
      R st (ghCallV1 tag r st).st)
    (env : DeployEnv) (branch : String) (st : St) :
    R st (stepBranch env depId branch st).st := by
  unfold stepBranch
  dsimp only
  split
  next m s2 heq =>
    exact htr (hlog st "branch" "running" _ (by simp))
      (ghV1_rel_of_eq (hgh _ .getBranchRef env.branchGet _ (by simp)) heq)
  next r s2 heq =>
    exact htr (htr (hlog st "branch" "running" _ (by simp))
      (ghV1_rel_of_eq (hgh _ .getBranchRef env.branchGet _ (by simp)) heq))
      (hlog s2 "branch" "failed" _ (by simp))
  next s2 heq =>
    have hbase : R st s2 := htr (hlog st "branch" "running" _ (by simp))
      (ghV1_rel_of_eq (hgh _ .getBranchRef env.branchGet _ (by simp)) heq)
    split
    next m s3 heq2 =>
      exact htr hbase
        (ghV1_rel_of_eq (hgh _ .getMainRef env.mainRefGet _ (by simp)) heq2)
    next s3 heq2 =>
      exact htr hbase
        (ghV1_rel_of_eq (hgh _ .getMainRef env.mainRefGet _ (by simp)) heq2)
    next r s3 heq2 =>
      have hbase2 : R st s3 := htr hbase
        (ghV1_rel_of_eq (hgh _ .getMainRef env.mainRefGet _ (by simp)) heq2)
      split
      next m s4 heq3 =>
        exact htr hbase2
          (ghV1_rel_of_eq (hgh _ .postRefs env.refsPost _ (by simp)) heq3)
      next v s4 heq3 =>
        exact htr (htr hbase2
          (ghV1_rel_of_eq (hgh _ .postRefs env.refsPost _ (by simp)) heq3))
          (hlog s4 "branch" "success" _ (by simp))

theorem stepConfig_rel {R : St → St → Prop} {depId : Nat}
    (htr : Transitive R)
    (hlog : ∀ st step status msg, status ∈ ["running", "success"] →
      R st (addLog depId step status msg st))
    (hgh : ∀ (α : Type) (tag : GHCall) (r : GHResult α) st,
      tag ∈ [GHCall.getConfig, GHCall.putConfig, GHCall.getEnvFile,
        GHCall.putEnvFile] → R st (ghCallV1 tag r st).st)
    (env : DeployEnv) (st : St) : R st (stepConfig env depId st).st := by
  unfold stepConfig
  dsimp only
  have hbase : R st (ghCallV1 .getConfig env.configGet
      (addLog depId "config" "running" "Updating configuration file..." st)).st :=
    htr (hlog st "config" "running" _ (by simp))
      (hgh _ .getConfig env.configGet _ (by simp))
  split
  next m s3 heq =>
    exact htr hbase
      (ghV1_rel_of_eq (hgh _ .putConfig env.configPut _ (by simp)) heq)
  next v s3 heq =>
    have h3 : R st s3 := htr hbase
      (ghV1_rel_of_eq (hgh _ .putConfig env.configPut _ (by simp)) heq)
    have h4 := htr h3 (hgh _ .getEnvFile env.envGet s3 (by simp))
    have h5 := htr h4 (hgh _ .putEnvFile env.envPut _ (by simp))
    exact htr h5 (hlog _ "config" "success" _ (by simp))

theorem stepWorkflow_rel {R : St → St → Prop} {depId : Nat}
    (htr : Transitive R)
    (hlog : ∀ st step status msg, status ∈ ["running", "success"] →
      R st (addLog depId step status msg st))
    (hgh : ∀ (α : Type) (r : GHResult α) st,
      R st (ghCallV1 GHCall.putWorkflow r st).st)
    (env : DeployEnv) (st : St) : R st (stepWorkflow env depId st).st := by
  unfold stepWorkflow
  dsimp only
  split
  next m s2 heq =>
    exact htr (hlog st "workflow" "running" _ (by simp))
      (ghV1_rel_of_eq (hgh _ env.workflowPut _) heq)
  next v s2 heq =>
    exact htr (htr (hlog st "workflow" "running" _ (by simp))
      (ghV1_rel_of_eq (hgh _ env.workflowPut _) heq))
      (hlog s2 "workflow" "success" _ (by simp))

theorem stepDispatch_rel {R : St → St → Prop} {depId : Nat}
    (htr : Transitive R)
    (hlog : ∀ st step status msg, status ∈ ["running", "success", "failed"] →
      R st (addLog depId step status msg st))
    (hgh : ∀ (α : Type) (tag : GHCall) (r : GHResult α) st,
      tag ∈ [GHCall.postDispatch, GHCall.getWorkflowCheck,
        GHCall.postDispatchRetry] → R st (ghCallV1 tag r st).st)
    (hupd : ∀ u st, R st (updDep depId u st))
    (env : DeployEnv) (st : St) : R st (stepDispatch env depId st).st := by
  unfold stepDispatch
  dsimp only
  split
  next v s2 heq =>
    have h2 : R st s2 := htr (hlog st "deploy" "running" _ (by simp))
      (ghV1_rel_of_eq (hgh _ .postDispatch env.dispatchPost _ (by simp)) heq)
    exact htr (htr h2 (hupd updRunning s2)) (hlog _ "deploy" "success" _ (by simp))
  next dm s2 heq =>
    have h2 : R st s2 := htr (hlog st "deploy" "running" _ (by simp))
      (ghV1_rel_of_eq (hgh _ .postDispatch env.dispatchPost _ (by simp)) heq)
    have h3 : R st (addLog depId "deploy" "failed"
        ("Failed to trigger workflow: " ++ dm) s2) :=
      htr h2 (hlog s2 "deploy" "failed" _ (by simp))
    split
    next m s4 heq2 =>
      exact htr h3 (ghV1_rel_of_eq
        (hgh _ .getWorkflowCheck env.workflowCheckGet _ (by simp)) heq2)
    next s4 heq2 =>
      exact htr h3 (ghV1_rel_of_eq
        (hgh _ .getWorkflowCheck env.workflowCheckGet _ (by simp)) heq2)
    next r s4 heq2 =>
      have h4 : R st s4 := htr h3 (ghV1_rel_of_eq
        (hgh _ .getWorkflowCheck env.workflowCheckGet _ (by simp)) heq2)
      split
      next m s5 heq3 =>
        exact htr h4 (ghV1_rel_of_eq
          (hgh _ .postDispatchRetry env.dispatchRetryPost _ (by simp)) heq3)
      next v s5 heq3 =>
        have h5 : R st s5 := htr h4 (ghV1_rel_of_eq
          (hgh _ .postDispatchRetry env.dispatchRetryPost _ (by simp)) heq3)
        exact htr (htr h5 (hupd updRunningRetry s5))
          (hlog _ "deploy" "success" _ (by simp))

theorem lookupForkV2_snd (env : DeployEnv) (st : St) :
    (lookupForkV2 env st).2 = (ghCallV2 .getFork env.forkGet st).st := by
  unfold lookupForkV2
  split
  next st' heq => rw [heq]; rfl
  next st' heq => rw [heq]; rfl
  next f st' heq =>
    rw [heq]
    split <;> rfl

theorem stepInitV2_rel {R : St → St → Prop} {depId : Nat}
    (htr : Transitive R)
    (hlog : ∀ st step status msg, status ∈ ["running", "success"] →
      R st (addLog depId step status msg st))
    (hgh : ∀ (α : Type) (r : GHResult α) st,
      R st (ghCallV2 GHCall.getUser r st).st)
    (env : DeployEnv) (st : St) : R st (stepInitV2 env depId st).st := by
  unfold stepInitV2
  dsimp only
  split
  next m s2 heq =>
    exact htr (hlog st "init" "running" _ (by simp))
      (ghV2_rel_of_eq (hgh _ env.userResp _) heq)
  next s2 heq =>
    exact htr (hlog st "init" "running" _ (by simp))
      (ghV2_rel_of_eq (hgh _ env.userResp _) heq)
  next u s2 heq =>
    exact htr (htr (hlog st "init" "running" _ (by simp))
      (ghV2_rel_of_eq (hgh _ env.userResp _) heq))
      (hlog s2 "init" "success" _ (by simp))

theorem stepForkV2_rel {R : St → St → Prop} {depId : Nat}
    (htr : Transitive R)
    (hlog : ∀ st step status msg,
      status ∈ ["running", "success", "warning", "info"] →
      R st (addLog depId step status msg st))
    (hgh : ∀ (α : Type) (tag : GHCall) (r : GHResult α) st,
      tag ∈ [GHCall.getFork, GHCall.getActionsPerms1, GHCall.postFork] →
      R st (ghCallV2 tag r st).st)
    (env : DeployEnv) (st : St) : R st (stepForkV2 env depId st).st := by
  unfold stepForkV2
  dsimp only
  have hlk : ∀ s, R s (lookupForkV2 env s).2 := fun s =>
    lookupForkV2_snd env s ▸ hgh _ .getFork env.forkGet s (by simp)
  set s1 := addLog depId "fork" "running" "Checking repository fork..." st with hs1
  have h2 : R st (lookupForkV2 env s1).2 :=
    htr (hs1 ▸ hlog st "fork" "running" _ (by simp)) (hlk s1)
  split
  next heq =>
    simp only [heq]
    have h3 : R st (addLog depId "fork" "running"
        "Creating repository fork..." (lookupForkV2 env s1).2) :=
      htr h2 (hlog _ "fork" "running" _ (by simp))
    split
    next m s4 heq2 =>
      exact htr h3 (ghV2_rel_of_eq (hgh _ .postFork env.forkPost _ (by simp)) heq2)
    next v s4 heq2 =>
      have h4 : R st s4 :=
        htr h3 (ghV2_rel_of_eq (hgh _ .postFork env.forkPost _ (by simp)) heq2)
      exact htr (htr h4 (hlog s4 "fork" "success" _ (by simp)))
        (hlog _ "fork-info" "warning" _ (by simp))
  next f heq =>
    simp only [heq]
    have h3 : R st (addLog depId "actions-check" "running"
        "Checking GitHub Actions compatibility..." (lookupForkV2 env s1).2) :=
      htr h2 (hlog _ "actions-check" "running" _ (by simp))
    split
    next v s4 heq2 =>
      have h4 : R st (addLog depId "actions-check" "success"
          "GitHub Actions are enabled and accessible" s4) :=
        htr (htr h3 (ghV2_rel_of_eq
          (hgh _ .getActionsPerms1 env.actionsGet1 _ (by simp)) heq2))
          (hlog s4 "actions-check" "success" _ (by simp))
      exact htr (htr h4 (hlog _ "fork" "success" _ (by simp)))
        (hlog _ "fork-info" "info" _ (by simp))
    next m s4 heq2 =>
      have h4 : R st (addLog depId "actions-check" "warning"
          "Could not verify GitHub Actions status - proceeding with deployment" s4) :=
        htr (htr h3 (ghV2_rel_of_eq
          (hgh _ .getActionsPerms1 env.actionsGet1 _ (by simp)) heq2))
          (hlog s4 "actions-check" "warning" _ (by simp))
      exact htr (htr h4 (hlog _ "fork" "success" _ (by simp)))
        (hlog _ "fork-info" "info" _ (by simp))

theorem stepActionsV2_rel {R : St → St → Prop} {depId : Nat}
    (htr : Transitive R)
    (hlog : ∀ st step status msg,
      status ∈ ["running", "success", "warning"] →
      R st (addLog depId step status msg st))
    (hgh : ∀ (α : Type) (tag : GHCall) (r : GHResult α) st,
      tag ∈ [GHCall.getActionsPerms2, GHCall.putActionsPerms] →
      R st (ghCallV2 tag r st).st)
    (env : DeployEnv) (st : St) : R st (stepActionsV2 env depId st).st := by
  unfold stepActionsV2
  dsimp only
  have h1 : R st (addLog depId "actions-check" "running"
      "Verifying GitHub Actions are enabled on your fork..." st) :=
    hlog st "actions-check" "running" _ (by simp)
  split
  next m s2 heq =>
    exact htr (htr h1 (ghV2_rel_of_eq
      (hgh _ .getActionsPerms2 env.actionsGet2 _ (by simp)) heq))
      (hlog s2 "actions-check" "warning" _ (by simp))
  next perms s2 heq =>
    have h2 : R st s2 := htr h1 (ghV2_rel_of_eq
      (hgh _ .getActionsPerms2 env.actionsGet2 _ (by simp)) heq)
    split
    · have h3 : R st (addLog depId "actions-enable" "running"
          "GitHub Actions are disabled. Auto-enabling them now..." s2) :=
        htr h2 (hlog s2 "actions-enable" "running" _ (by simp))
      split
      next m s4 heq2 =>
        exact htr (htr h3 (ghV2_rel_of_eq
          (hgh _ .putActionsPerms env.actionsPut _ (by simp)) heq2))
          (hlog s4 "actions-check" "warning" _ (by simp))
      next v s4 heq2 =>
        exact htr (htr h3 (ghV2_rel_of_eq
          (hgh _ .putActionsPerms env.actionsPut _ (by simp)) heq2))
          (hlog s4 "actions-enable" "success" _ (by simp))
    · exact htr h2 (hlog s2 "actions-check" "success" _ (by simp))
  next s2 heq =>
    exact htr (htr h1 (ghV2_rel_of_eq
      (hgh _ .getActionsPerms2 env.actionsGet2 _ (by simp)) heq))
      (hlog s2 "actions-check" "success" _ (by simp))

theorem stepBranchV2_rel {R : St → St → Prop} {depId : Nat}
    (htr : Transitive R)
    (hlog : ∀ st step status msg, status ∈ ["running", "success", "failed"] →
      R st (addLog depId step status msg st))
    (hgh : ∀ (α : Type) (tag : GHCall) (r : GHResult α) st,
      tag ∈ [GHCall.getBranchRef, GHCall.getMainRef, GHCall.postRefs] →
      R st (ghCallV2 tag r st).st)
    (env : DeployEnv) (branch : String) (st : St) :
    R st (stepBranchV2 env depId branch st).st := by
  unfold stepBranchV2
  dsimp only
  split
  next m s2 heq =>
    exact htr (hlog st "branch" "running" _ (by simp))
      (ghV2_rel_of_eq (hgh _ .getBranchRef env.branchGet _ (by simp)) heq)
  next r s2 heq =>
    exact htr (htr (hlog st "branch" "running" _ (by simp))
      (ghV2_rel_of_eq (hgh _ .getBranchRef env.branchGet _ (by simp)) heq))
      (hlog s2 "branch" "failed" _ (by simp))
  next s2 heq =>
    have hbase : R st s2 := htr (hlog st "branch" "running" _ (by simp))
      (ghV2_rel_of_eq (hgh _ .getBranchRef env.branchGet _ (by simp)) heq)
    split
    next m s3 heq2 =>
      exact htr hbase
        (ghV2_rel_of_eq (hgh _ .getMainRef env.mainRefGet _ (by simp)) heq2)
    next s3 heq2 =>
      exact htr hbase
        (ghV2_rel_of_eq (hgh _ .getMainRef env.mainRefGet _ (by simp)) heq2)
    next r s3 heq2 =>
      have hbase2 : R st s3 := htr hbase
        (ghV2_rel_of_eq (hgh _ .getMainRef env.mainRefGet _ (by simp)) heq2)
      split
      next m s4 heq3 =>
        exact htr hbase2
          (ghV2_rel_of_eq (hgh _ .postRefs env.refsPost _ (by simp)) heq3)
      next v s4 heq3 =>
        exact htr (htr hbase2
          (ghV2_rel_of_eq (hgh _ .postRefs env.refsPost _ (by simp)) heq3))
          (hlog s4 "branch" "success" _ (by simp))

theorem stepConfigV2_rel {R : St → St → Prop} {depId : Nat}
    (htr : Transitive R)
    (hlog : ∀ st step status msg, status ∈ ["running", "success"] →
      R st (addLog depId step status msg st))
    (hgh : ∀ (α : Type) (tag : GHCall) (r : GHResult α) st,
      tag ∈ [GHCall.getConfig, GHCall.putConfig, GHCall.getEnvFile,
        GHCall.putEnvFile] → R st (ghCallV2 tag r st).st)
    (env : DeployEnv) (st : St) : R st (stepConfigV2 env depId st).st := by
  unfold stepConfigV2
  dsimp only
  have hbase : R st (ghCallV2 .getConfig env.configGet
      (addLog depId "config" "running" "Updating configuration file..." st)).st :=
    htr (hlog st "config" "running" _ (by simp))
      (hgh _ .getConfig env.configGet _ (by simp))
  split
  next m s3 heq =>
    exact htr hbase
      (ghV2_rel_of_eq (hgh _ .putConfig env.configPut _ (by simp)) heq)
  next v s3 heq =>
    have h3 : R st s3 := htr hbase
      (ghV2_rel_of_eq (hgh _ .putConfig env.configPut _ (by simp)) heq)
    have h4 := htr h3 (hgh _ .getEnvFile env.envGet s3 (by simp))
    have h5 := htr h4 (hgh _ .putEnvFile env.envPut _ (by simp))
    exact htr h5 (hlog _ "config" "success" _ (by simp))

theorem stepWorkflowV2_rel {R : St → St → Prop} {depId : Nat}
    (htr : Transitive R)
    (hlog : ∀ st step status msg, status ∈ ["running", "success"] →
      R st (addLog depId step status msg st))
    (hgh : ∀ (α : Type) (tag : GHCall) (r : GHResult α) st,
      tag ∈ [GHCall.getWorkflowSha, GHCall.putWorkflow] →
      R st (ghCallV2 tag r st).st)
    (env : DeployEnv) (st : St) : R st (stepWorkflowV2 env depId st).st := by
  unfold stepWorkflowV2
  dsimp only
  have hbase : R st (ghCallV2 .getWorkflowSha env.workflowShaGet
      (addLog depId "workflow" "running" "Creating GitHub Actions workflow..." st)).st :=
    htr (hlog st "workflow" "running" _ (by simp))
      (hgh _ .getWorkflowSha env.workflowShaGet _ (by simp))
  split
  next m s2 heq =>
    exact htr hbase
      (ghV2_rel_of_eq (hgh _ .putWorkflow env.workflowPut _ (by simp)) heq)
  next v s2 heq =>
    exact htr (htr hbase
      (ghV2_rel_of_eq (hgh _ .putWorkflow env.workflowPut _ (by simp)) heq))
      (hlog s2 "workflow" "success" _ (by simp))

theorem stepDispatchV2_rel {R : St → St → Prop} {depId : Nat}
    (htr : Transitive R)
    (hlog : ∀ st step status msg, status ∈ ["running", "success", "failed"] →
      R st (addLog depId step status msg st))
    (hgh : ∀ (α : Type) (tag : GHCall) (r : GHResult α) st,
      tag ∈ [GHCall.getWorkflowCheck, GHCall.getRepoInfo,
        GHCall.getActionsPerms3, GHCall.postDispatch] →
      R st (ghCallV2 tag r st).st)
    (hupd : ∀ u st, R st (updDep depId u st))
    (env : DeployEnv) (login branch : String) (st : St) :
    R st (stepDispatchV2 env depId login branch st).st := by
  unfold stepDispatchV2
  dsimp only
  have h1 : R st (addLog depId "deploy" "running"
      "Triggering deployment workflow..." st) :=
    hlog st "deploy" "running" _ (by simp)
  split
  next m s2 heq =>
    have h2 : R st s2 := htr h1 (ghV2_rel_of_eq
      (hgh _ .getWorkflowCheck env.workflowCheckGet _ (by simp)) heq)
    exact htr (htr h2 (hlog s2 "deploy" "failed" _ (by simp))) (hupd _ _)
  next s2 heq =>
    have h2 : R st s2 := htr h1 (ghV2_rel_of_eq
      (hgh _ .getWorkflowCheck env.workflowCheckGet _ (by simp)) heq)
    exact htr (htr h2 (hlog s2 "deploy" "failed" _ (by simp))) (hupd _ _)
  next r s2 heq =>
    have h2 : R st s2 := htr h1 (ghV2_rel_of_eq
      (hgh _ .getWorkflowCheck env.workflowCheckGet _ (by simp)) heq)
    have h3 : R st ((match ghCallV2 .getRepoInfo env.repoInfoGet s2 with
      | .thrown _ st => st
      | .ok _ st => (ghCallV2 .getActionsPerms3 env.actionsGet3 st).st)) := by
      split
      next m s3 heq2 =>
        exact htr h2 (ghV2_rel_of_eq
          (hgh _ .getRepoInfo env.repoInfoGet _ (by simp)) heq2)
      next v s3 heq2 =>
        exact htr (htr h2 (ghV2_rel_of_eq
          (hgh _ .getRepoInfo env.repoInfoGet _ (by simp)) heq2))
          (hgh _ .getActionsPerms3 env.actionsGet3 s3 (by simp))
    split
    next m s4 heq3 =>
      have h4 : R st s4 := htr h3 (ghV2_rel_of_eq
        (hgh _ .postDispatch env.dispatchPost _ (by simp)) heq3)
      exact htr (htr h4 (hlog s4 "deploy" "failed" _ (by simp))) (hupd _ _)
    next v s4 heq3 =>
      have h4 : R st s4 := htr h3 (ghV2_rel_of_eq
        (hgh _ .postDispatch env.dispatchPost _ (by simp)) heq3)
      exact htr (htr h4 (hupd updRunning s4)) (hlog _ "deploy" "success" _ (by simp))

/-- Transport R over a match equation on a step result; the step application
is passed explicitly to anchor elaboration. -/
theorem rel_cast {R : St → St → Prop} {st : St} {α : Type}
    (out : StepOut α) {out' : StepOut α}
    (h : R st out.st) (heq : out = out') : R st out'.st := heq ▸ h

theorem mem_weaken {s : String} {l₁ l₂ : List String}
    (hsub : ∀ x ∈ l₁, x ∈ l₂) (h : s ∈ l₁) : s ∈ l₂ := hsub _ h

/-- Relation closure through the whole first-variant body. -/
theorem deployBodyV1_rel {R : St → St → Prop} {depId : Nat}
    (htr : Transitive R)
    (hlog : ∀ st step status msg, status ∈ statusesV1 →
      R st (addLog depId step status msg st))
    (hgh : ∀ (α : Type) (tag : GHCall) (r : GHResult α) st,
      R st (ghCallV1 tag r st).st)
    (hupd : ∀ u st, R st (updDep depId u st))
    (env : DeployEnv) (branchReq : Option String) (st : St) :
    R st (deployBodyV1 env branchReq depId st).st := by
  have hlog2 : ∀ st step status msg, status ∈ ["running", "success"] →
      R st (addLog depId step status msg st) :=
    fun st step status msg hm =>
      hlog st step status msg (mem_weaken (by decide) hm)
  have hlog3 : ∀ st step status msg, status ∈ ["running", "success", "failed"] →
      R st (addLog depId step status msg st) :=
    fun st step status msg hm =>
      hlog st step status msg (mem_weaken (by decide) hm)
  unfold deployBodyV1
  dsimp only
  split
  next m s2 heq =>
    exact rel_cast (stepInit env depId st)
      (stepInit_rel htr hlog2 (fun α r s => hgh α .getUser r s) env st) heq
  next user s2 heq =>
    have h2 : R st s2 := rel_cast (stepInit env depId st)
      (stepInit_rel htr hlog2 (fun α r s => hgh α .getUser r s) env st) heq
    split
    next m s3 heq2 =>
      exact htr h2 (rel_cast (stepFork env depId s2)
        (stepFork_rel htr hlog2 (fun α tag r s _ => hgh α tag r s) env s2) heq2)
    next fork s3 heq2 =>
      have h3 : R st s3 := htr h2 (rel_cast (stepFork env depId s2)
        (stepFork_rel htr hlog2 (fun α tag r s _ => hgh α tag r s) env s2) heq2)
      split
      next m s4 heq3 =>
        exact htr h3 (rel_cast (stepBranch env depId _ s3)
          (stepBranch_rel htr hlog3 (fun α tag r s _ => hgh α tag r s) env _ s3) heq3)
      next v s4 heq3 =>
        have h4 : R st s4 := htr h3 (rel_cast (stepBranch env depId _ s3)
          (stepBranch_rel htr hlog3 (fun α tag r s _ => hgh α tag r s) env _ s3) heq3)
        split
        next m s5 heq4 =>
          exact htr h4 (rel_cast (stepConfig env depId s4)
            (stepConfig_rel htr hlog2 (fun α tag r s _ => hgh α tag r s) env s4) heq4)
        next v s5 heq4 =>
          have h5 : R st s5 := htr h4 (rel_cast (stepConfig env depId s4)
            (stepConfig_rel htr hlog2 (fun α tag r s _ => hgh α tag r s) env s4) heq4)
          split
          next m s6 heq5 =>
            exact htr h5 (rel_cast (stepWorkflow env depId s5)
              (stepWorkflow_rel htr hlog2 (fun α r s => hgh α .putWorkflow r s) env s5) heq5)
          next v s6 heq5 =>
            have h6 : R st s6 := htr h5 (rel_cast (stepWorkflow env depId s5)
              (stepWorkflow_rel htr hlog2 (fun α r s => hgh α .putWorkflow r s) env s5) heq5)
            split
            next m s7 heq6 =>
              exact htr h6 (rel_cast (stepDispatch env depId s6)
                (stepDispatch_rel htr hlog3 (fun α tag r s _ => hgh α tag r s)
                  hupd env s6) heq6)
            next v s7 heq6 =>
              have h7 : R st s7 := htr h6 (rel_cast (stepDispatch env depId s6)
                (stepDispatch_rel htr hlog3 (fun α tag r s _ => hgh α tag r s)
                  hupd env s6) heq6)
              exact htr h7 (hupd _ s7)

/-- Relation closure through the whole part_001-variant body. -/
theorem deployBodyV2_rel {R : St → St → Prop} {depId : Nat}
    (htr : Transitive R)
    (hlog : ∀ st step status msg, status ∈ statusesV2 →
      R st (addLog depId step status msg st))
    (hgh : ∀ (α : Type) (tag : GHCall) (r : GHResult α) st,
      R st (ghCallV2 tag r st).st)
    (hupd : ∀ u st, R st (updDep depId u st))
    (env : DeployEnv) (branchReq : Option String) (st : St) :
    R st (deployBodyV2 env branchReq depId st).st := by
  have hlog2 : ∀ st step status msg, status ∈ ["running", "success"] →
      R st (addLog depId step status msg st) :=
    fun st step status msg hm =>
      hlog st step status msg (mem_weaken (by decide) hm)
  have hlog3 : ∀ st step status msg, status ∈ ["running", "success", "failed"] →
      R st (addLog depId step status msg st) :=
    fun st step status msg hm =>
      hlog st step status msg (mem_weaken (by decide) hm)
  have hlog4 : ∀ st step status msg,
      status ∈ ["running", "success", "warning", "info"] →
      R st (addLog depId step status msg st) :=
    fun st step status msg hm =>
      hlog st step status msg (mem_weaken (by decide) hm)
  have hlog5 : ∀ st step status msg,
      status ∈ ["running", "success", "warning"] →
      R st (addLog depId step status msg st) :=
    fun st step status msg hm =>
      hlog st step status msg (mem_weaken (by decide) hm)
  unfold deployBodyV2
  dsimp only
  split
  next m s2 heq =>
    exact rel_cast (stepInitV2 env depId st)
      (stepInitV2_rel htr hlog2 (fun α r s => hgh α .getUser r s) env st) heq
  next user s2 heq =>
    have h2 : R st s2 := rel_cast (stepInitV2 env depId st)
      (stepInitV2_rel htr hlog2 (fun α r s => hgh α .getUser r s) env st) heq
    split
    next m s3 heq2 =>
      exact htr h2 (rel_cast (stepForkV2 env depId s2)
        (stepForkV2_rel htr hlog4 (fun α tag r s _ => hgh α tag r s) env s2) heq2)
    next fork s3 heq2 =>
      have h3 : R st s3 := htr h2 (rel_cast (stepForkV2 env depId s2)
        (stepForkV2_rel htr hlog4 (fun α tag r s _ => hgh α tag r s) env s2) heq2)
      split
      next m s3' heq2' =>
        exact htr h3 (rel_cast (stepActionsV2 env depId s3)
          (stepActionsV2_rel htr hlog5 (fun α tag r s _ => hgh α tag r s) env s3) heq2')
      next v s3' heq2' =>
        have h3' : R st s3' := htr h3 (rel_cast (stepActionsV2 env depId s3)
          (stepActionsV2_rel htr hlog5 (fun α tag r s _ => hgh α tag r s) env s3) heq2')
        split
        next m s4 heq3 =>
          exact htr h3' (rel_cast (stepBranchV2 env depId _ s3')
            (stepBranchV2_rel htr hlog3 (fun α tag r s _ => hgh α tag r s) env _ s3') heq3)
        next v s4 heq3 =>
          have h4 : R st s4 := htr h3' (rel_cast (stepBranchV2 env depId _ s3')
            (stepBranchV2_rel htr hlog3 (fun α tag r s _ => hgh α tag r s) env _ s3') heq3)
          split
          next m s5 heq4 =>
            exact htr h4 (rel_cast (stepConfigV2 env depId s4)
              (stepConfigV2_rel htr hlog2 (fun α tag r s _ => hgh α tag r s) env s4) heq4)
          next v s5 heq4 =>
            have h5 : R st s5 := htr h4 (rel_cast (stepConfigV2 env depId s4)
              (stepConfigV2_rel htr hlog2 (fun α tag r s _ => hgh α tag r s) env s4) heq4)
            split
            next m s6 heq5 =>
              exact htr h5 (rel_cast (stepWorkflowV2 env depId s5)
                (stepWorkflowV2_rel htr hlog2 (fun α tag r s _ => hgh α tag r s) env s5) heq5)
            next v s6 heq5 =>
              have h6 : R st s6 := htr h5 (rel_cast (stepWorkflowV2 env depId s5)
                (stepWorkflowV2_rel htr hlog2 (fun α tag r s _ => hgh α tag r s) env s5) heq5)
              split
              next m s7 heq6 =>
                exact htr h6 (rel_cast (stepDispatchV2 env depId _ _ s6)
                  (stepDispatchV2_rel htr hlog3 (fun α tag r s _ => hgh α tag r s)
                    hupd env _ _ s6) heq6)
              next v s7 heq6 =>
                have h7 : R st s7 := htr h6 (rel_cast (stepDispatchV2 env depId _ _ s6)
                  (stepDispatchV2_rel htr hlog3 (fun α tag r s _ => hgh α tag r s)
                    hupd env _ _ s6) heq6)
                exact htr h7 (hupd _ s7)

/-! ## Frame relation instance: appended logs and preserved deployment ids -/

/-- Between two handler states: logs only appended (with this deployment's id
and a status in `stats`), deployment ids untouched. -/
def FrameRel (depId : Nat) (stats : List String) : St → St → Prop :=
  fun st st' =>
    LogsExtend st st' (LogP depId stats) ∧
    st'.store.deployments.map (fun d => d.id) =
      st.store.deployments.map (fun d => d.id)

theorem frameRel_trans {depId : Nat} {stats : List String} :
    Transitive (FrameRel depId stats) := by
  intro a b c hab hbc
  exact ⟨logsExtend_trans hab.1 hbc.1, by rw [hbc.2, hab.2]⟩

theorem frameRel_addLog {depId : Nat} {stats : List String}
    (st : St) (step status msg : String) (hs : status ∈ stats) :
    FrameRel depId stats st (addLog depId step status msg st) :=
  ⟨addLog_logsExtend depId step status msg st
    (fun idv ts => ⟨rfl, hs⟩), by simp⟩

theorem frameRel_ghV1 {depId : Nat} {stats : List String}
    (α : Type) (tag : GHCall) (r : GHResult α) (st : St) :
    FrameRel depId stats st (ghCallV1 tag r st).st :=
  ⟨⟨[], by simp, by simp⟩, by simp⟩

theorem frameRel_ghV2 {depId : Nat} {stats : List String}
    (α : Type) (tag : GHCall) (r : GHResult α) (st : St) :
    FrameRel depId stats st (ghCallV2 tag r st).st :=
  ⟨⟨[], by simp, by simp⟩, by simp⟩

theorem frameRel_updDep {depId : Nat} {stats : List String}
    (u : DeploymentUpdates) (st : St) :
    FrameRel depId stats st (updDep depId u st) :=
  ⟨⟨[], by simp, by simp⟩, updDep_ids depId u st⟩

/-- Frame of the whole first-variant body. -/
theorem deployBodyV1_frame (env : DeployEnv) (branchReq : Option String)
    (depId : Nat) (st : St) :
    FrameRel depId statusesV1 st (deployBodyV1 env branchReq depId st).st :=
  deployBodyV1_rel frameRel_trans
    (fun st step status msg hs => frameRel_addLog st step status msg hs)
    (fun α tag r st => frameRel_ghV1 α tag r st)
    (fun u st => frameRel_updDep u st)
    env branchReq st

/-- Frame of the whole part_001-variant body. -/
theorem deployBodyV2_frame (env : DeployEnv) (branchReq : Option String)
    (depId : Nat) (st : St) :
    FrameRel depId statusesV2 st (deployBodyV2 env branchReq depId st).st :=
  deployBodyV2_rel frameRel_trans
    (fun st step status msg hs => frameRel_addLog st step status msg hs)
    (fun α tag r st => frameRel_ghV2 α tag r st)
    (fun u st => frameRel_updDep u st)
    env branchReq st

/-! ## Storage-operation frame facts -/

theorem updateDeployment_logs (s : StorageState) (id : Nat)
    (u : DeploymentUpdates) :
    (updateDeployment s id u).2.deploymentLogs = s.deploymentLogs := by
  unfold updateDeployment
  cases s.deployments.find? (fun e => e.id == id) <;> rfl

theorem updateDeployment_ids (s : StorageState) (id : Nat)
    (u : DeploymentUpdates) :
    (updateDeployment s id u).2.deployments.map (fun d => d.id) =
      s.deployments.map (fun d => d.id) := by
  have := updDep_ids id u { store := s, trace := [] }
  simpa [updDep] using this

@[simp] theorem createDeploymentLog_deployments (s : StorageState)
    (ins : InsertDeploymentLog) :
    (createDeploymentLog s ins).2.deployments = s.deployments := rfl

@[simp] theorem createDeploymentLog_logs (s : StorageState)
    (ins : InsertDeploymentLog) :
    (createDeploymentLog s ins).2.deploymentLogs =
      s.deploymentLogs ++ [(createDeploymentLog s ins).1] := rfl

@[simp] theorem createDeployment_logs (s : StorageState) (ins : InsertDeployment) :
    (createDeployment s ins).2.deploymentLogs = s.deploymentLogs := rfl

@[simp] theorem createDeployment_deployments (s : StorageState)
    (ins : InsertDeployment) :
    (createDeployment s ins).2.deployments =
      s.deployments ++ [(createDeployment s ins).1] := rfl

/-- Frame facts shared by the catch block. -/
theorem deployCatch_frame (depId : Nat) (m : String) (st : St) (s₀ : StorageState)
    (δ : List DeploymentLog)
    (hlogs : st.store.deploymentLogs = s₀.deploymentLogs ++ δ) :
    (deployCatch depId m st).store.deploymentLogs =
      s₀.deploymentLogs ++ (δ ++ [(createDeploymentLog
        (updateDeployment st.store depId
          { status := some "failed", message := some (some m) }).2
        ⟨depId, "error", "failed", m⟩).1]) ∧
    (deployCatch depId m st).store.deployments.map (fun d => d.id) =
      st.store.deployments.map (fun d => d.id) := by
  unfold deployCatch
  constructor
  · rw [createDeploymentLog_logs, updateDeployment_logs, hlogs, List.append_assoc]
  · rw [createDeploymentLog_deployments, updateDeployment_ids]

@[simp] theorem createDeployment_fst_id (s : StorageState) (ins : InsertDeployment) :
    (createDeployment s ins).1.id = s.nextId := rfl

/-- Frame of a whole POST /api/deploy request, first variant: log rows are
only appended, all for the fresh deployment, with statuses from the variant's
set (the catch block's row has status `failed`, which is in the set);
previous deployment ids survive, with the fresh id appended on the
authenticated path. -/
theorem deployHandlerV1_frame (env : DeployEnv) (req : DeployRequest)
    (sess : SessionData) (s₀ : StorageState) :
    (∃ δ, (deployHandlerV1 env req sess s₀).store.deploymentLogs =
        s₀.deploymentLogs ++ δ ∧
      ∀ e ∈ δ, e.deploymentId = s₀.nextId ∧ e.status ∈ statusesV1) ∧
    ((deployHandlerV1 env req sess s₀).store.deployments.map (fun d => d.id) =
        s₀.deployments.map (fun d => d.id) ∨
     (deployHandlerV1 env req sess s₀).store.deployments.map (fun d => d.id) =
        s₀.deployments.map (fun d => d.id) ++ [s₀.nextId]) := by
  unfold deployHandlerV1
  by_cases hsid : req.sessionId = ""
  · rw [if_pos hsid]
    exact ⟨⟨[], by simp, by simp⟩, Or.inl rfl⟩
  · rw [if_neg hsid]
    cases htok : jsStrOrNull sess.githubToken with
    | none => exact ⟨⟨[], by simp, by simp⟩, Or.inl rfl⟩
    | some tok =>
      cases husr : jsStrOrNull sess.githubUsername with
      | none => exact ⟨⟨[], by simp, by simp⟩, Or.inl rfl⟩
      | some usr =>
        dsimp only
        split
        next resp stf heq =>
          have hb' := rel_cast _ (deployBodyV1_frame env req.branchName _ _) heq
          obtain ⟨δ, h1, h2⟩ := hb'.1
          have hbI := hb'.2
          simp only [StepOut.st_ok, createDeployment_logs,
            createDeployment_deployments, createDeployment_fst_id,
            List.map_append, List.map_cons, List.map_nil] at h1 hbI h2
          exact ⟨⟨δ, h1, h2⟩, Or.inr hbI⟩
        next m stf heq =>
          have hb' := rel_cast _ (deployBodyV1_frame env req.branchName _ _) heq
          obtain ⟨δ, h1, h2⟩ := hb'.1
          have hbI := hb'.2
          simp only [StepOut.st_thrown, createDeployment_logs,
            createDeployment_deployments, createDeployment_fst_id,
            List.map_append, List.map_cons, List.map_nil] at h1 hbI h2
          have hc := deployCatch_frame s₀.nextId m stf s₀ δ h1
          refine ⟨⟨δ ++ [_], hc.1, ?_⟩,
            Or.inr (by simp only [createDeployment_fst_id]; rw [hc.2, hbI])⟩
          intro e he
          rcases List.mem_append.mp he with h | h
          · exact ⟨(h2 e h).1, (h2 e h).2⟩
          · rw [List.mem_singleton] at h
            subst h
            exact ⟨rfl, by simp [statusesV1, createDeploymentLog]⟩

/-- Frame of a whole POST /api/deploy request, part_001 variant. -/
theorem deployHandlerV2_frame (env : DeployEnv) (req : DeployRequest)
    (sess : SessionData) (s₀ : StorageState) :
    (∃ δ, (deployHandlerV2 env req sess s₀).store.deploymentLogs =
        s₀.deploymentLogs ++ δ ∧
      ∀ e ∈ δ, e.deploymentId = s₀.nextId ∧ e.status ∈ statusesV2) ∧
    ((deployHandlerV2 env req sess s₀).store.deployments.map (fun d => d.id) =
        s₀.deployments.map (fun d => d.id) ∨
     (deployHandlerV2 env req sess s₀).store.deployments.map (fun d => d.id) =
        s₀.deployments.map (fun d => d.id) ++ [s₀.nextId]) := by
  unfold deployHandlerV2
  by_cases hsid : req.sessionId = ""
  · rw [if_pos hsid]
    exact ⟨⟨[], by simp, by simp⟩, Or.inl rfl⟩
  · rw [if_neg hsid]
    cases htok : jsStrOrNull sess.githubToken with
    | none => exact ⟨⟨[], by simp, by simp⟩, Or.inl rfl⟩
    | some tok =>
      cases husr : jsStrOrNull sess.githubUsername with
      | none => exact ⟨⟨[], by simp, by simp⟩, Or.inl rfl⟩
      | some usr =>
        dsimp only
        split
        next resp stf heq =>
          have hb' := rel_cast _ (deployBodyV2_frame env req.branchName _ _) heq
          obtain ⟨δ, h1, h2⟩ := hb'.1
          have hbI := hb'.2
          simp only [StepOut.st_ok, createDeployment_logs,
            createDeployment_deployments, createDeployment_fst_id,
            List.map_append, List.map_cons, List.map_nil] at h1 hbI h2
          exact ⟨⟨δ, h1, h2⟩, Or.inr hbI⟩
        next m stf heq =>
          have hb' := rel_cast _ (deployBodyV2_frame env req.branchName _ _) heq
          obtain ⟨δ, h1, h2⟩ := hb'.1
          have hbI := hb'.2
          simp only [StepOut.st_thrown, createDeployment_logs,
            createDeployment_deployments, createDeployment_fst_id,
            List.map_append, List.map_cons, List.map_nil] at h1 hbI h2
          have hc := deployCatch_frame s₀.nextId m stf s₀ δ h1
          refine ⟨⟨δ ++ [_], hc.1, ?_⟩,
            Or.inr (by simp only [createDeployment_fst_id]; rw [hc.2, hbI])⟩
          intro e he
          rcases List.mem_append.mp he with h | h
          · exact ⟨(h2 e h).1, (h2 e h).2⟩
          · rw [List.mem_singleton] at h
            subst h
            exact ⟨rfl, by simp [statusesV2, createDeploymentLog]⟩

/-! ## Thrown-message non-emptiness (error-handling claims) -/

theorem append_ne_empty_left (a b : String) (ha : a ≠ "") : a ++ b ≠ "" := by
  intro h
  apply ha
  have hd := congrArg String.data h
  rw [String.data_append] at hd
  have h1 : a.data = [] := (List.append_eq_nil.mp hd).1
  cases a with
  | mk l =>
      cases h1
      rfl

theorem typeErrorMsg_ne : typeErrorMsg ≠ "" := by decide

theorem jsErrMsg_ne (gh : Option String) (tm : String) (htm : tm ≠ "") :
    jsErrMsg gh tm ≠ "" := by
  unfold jsErrMsg
  cases gh with
  | none => exact htm
  | some s =>
      by_cases hs : s = ""
      · simp [hs, htm]
      · simp [hs]

theorem ghCallV1_thrown_ne {α : Type} {tag : GHCall} {r : GHResult α}
    {st : St} {m : String} {st' : St}
    (heq : ghCallV1 tag r st = .thrown m st') (hg : r.goodMsg = true) :
    m ≠ "" := by
  cases r with
  | ok v => simp [ghCallV1, makeGitHubRequest] at heq
  | notFound => simp [ghCallV1, makeGitHubRequest] at heq
  | err gh tm =>
      simp [ghCallV1, makeGitHubRequest] at heq
      have htm : tm ≠ "" := by simpa [GHResult.goodMsg] using hg
      rw [← heq.1]
      exact jsErrMsg_ne gh tm htm

theorem ghCallV2_thrown_ne {α : Type} {tag : GHCall} {r : GHResult α}
    {st : St} {m : String} {st' : St}
    (heq : ghCallV2 tag r st = .thrown m st') (hg : r.goodMsg = true) :
    m ≠ "" := by
  cases r with
  | ok v => simp [ghCallV2, makeGitHubRequestV2] at heq
  | notFound => simp [ghCallV2, makeGitHubRequestV2] at heq
  | err gh tm =>
      have htm : tm ≠ "" := by simpa [GHResult.goodMsg] using hg
      by_cases hsha : jsIncludes (jsErrMsg gh tm) "sha" = true
      · simp [ghCallV2, makeGitHubRequestV2, hsha] at heq
        rw [← heq.1]
        exact append_ne_empty_left _ _ (append_ne_empty_left _ _ (by decide))
      · simp [ghCallV2, makeGitHubRequestV2, hsha] at heq
        rw [← heq.1]
        exact jsErrMsg_ne gh tm htm

/-- Transport messages of the calls whose failure the deploy orchestration
rethrows are non-empty (axios always sets `error.message`). -/
structure EnvGoodMsgs (env : DeployEnv) : Prop where
  userResp : env.userResp.goodMsg = true
  forkPost : env.forkPost.goodMsg = true
  branchGet : env.branchGet.goodMsg = true
  mainRefGet : env.mainRefGet.goodMsg = true
  refsPost : env.refsPost.goodMsg = true
  configPut : env.configPut.goodMsg = true
  workflowPut : env.workflowPut.goodMsg = true
  dispatchPost : env.dispatchPost.goodMsg = true

theorem stepInit_thrown_ne {env : DeployEnv} {depId : Nat} {st : St}
    {m : String} {st' : St} (heq : stepInit env depId st = .thrown m st')
    (hg : EnvGoodMsgs env) : m ≠ "" := by
  unfold stepInit at heq
  dsimp only at heq
  split at heq
  next m2 s2 heq2 =>
    cases heq
    exact ghCallV1_thrown_ne heq2 hg.userResp
  next s2 heq2 =>
    cases heq
    exact typeErrorMsg_ne
  next u s2 heq2 => cases heq

theorem stepFork_thrown_ne {env : DeployEnv} {depId : Nat} {st : St}
    {m : String} {st' : St} (heq : stepFork env depId st = .thrown m st')
    (hg : EnvGoodMsgs env) : m ≠ "" := by
  unfold stepFork at heq
  dsimp only at heq
  split at heq
  next f s2 heq2 => cases heq
  next s2 heq2 =>
    split at heq
    next m2 s3 heq3 =>
      cases heq
      exact ghCallV1_thrown_ne heq3 hg.forkPost
    next v s3 heq3 => cases heq

theorem stepBranch_thrown_ne {env : DeployEnv} {depId : Nat} {branch : String}
    {st : St} {m : String} {st' : St}
    (heq : stepBranch env depId branch st = .thrown m st')
    (hg : EnvGoodMsgs env) : m ≠ "" := by
  unfold stepBranch at heq
  dsimp only at heq
  split at heq
  next m2 s2 heq2 =>
    cases heq
    exact ghCallV1_thrown_ne heq2 hg.branchGet
  next r s2 heq2 =>
    cases heq
    exact append_ne_empty_left _ _ (append_ne_empty_left _ _ (by decide))
  next s2 heq2 =>
    split at heq
    next m2 s3 heq3 =>
      cases heq
      exact ghCallV1_thrown_ne heq3 hg.mainRefGet
    next s3 heq3 =>
      cases heq
      exact typeErrorMsg_ne
    next r s3 heq3 =>
      split at heq
      next m2 s4 heq4 =>
        cases heq
        exact ghCallV1_thrown_ne heq4 hg.refsPost
      next v s4 heq4 => cases heq

theorem stepConfig_thrown_ne {env : DeployEnv} {depId : Nat} {st : St}
    {m : String} {st' : St} (heq : stepConfig env depId st = .thrown m st')
    (hg : EnvGoodMsgs env) : m ≠ "" := by
  unfold stepConfig at heq
  dsimp only at heq
  split at heq
  next m2 s3 heq2 =>
    cases heq
    exact ghCallV1_thrown_ne heq2 hg.configPut
  next v s3 heq2 => cases heq

theorem stepWorkflow_thrown_ne {env : DeployEnv} {depId : Nat} {st : St}
    {m : String} {st' : St} (heq : stepWorkflow env depId st = .thrown m st')
    (hg : EnvGoodMsgs env) : m ≠ "" := by
  unfold stepWorkflow at heq
  dsimp only at heq
  split at heq
  next m2 s2 heq2 =>
    cases heq
    exact ghCallV1_thrown_ne heq2 hg.workflowPut
  next v s2 heq2 => cases heq

theorem stepDispatch_thrown_ne {env : DeployEnv} {depId : Nat} {st : St}
    {m : String} {st' : St} (heq : stepDispatch env depId st = .thrown m st')
    (hg : EnvGoodMsgs env) : m ≠ "" := by
  unfold stepDispatch at heq
  dsimp only at heq
  split at heq
  next v s2 heq2 => cases heq
  next dm s2 heq2 =>
    have hdm : dm ≠ "" := ghCallV1_thrown_ne heq2 hg.dispatchPost
    split at heq
    next m2 s4 heq3 =>
      cases heq
      exact hdm
    next s4 heq3 => cases heq
    next r s4 heq3 =>
      split at heq
      next m2 s5 heq4 =>
        cases heq
        exact hdm
      next v s5 heq4 => cases heq

/-- First-variant body: any thrown error carries a non-empty message. -/
theorem deployBodyV1_thrown_ne {env : DeployEnv} {branchReq : Option String}
    {depId : Nat} {st : St} {m : String} {st' : St}
    (heq : deployBodyV1 env branchReq depId st = .thrown m st')
    (hg : EnvGoodMsgs env) : m ≠ "" := by
  unfold deployBodyV1 at heq
  dsimp only at heq
  split at heq
  next m2 s2 heq2 =>
    cases heq
    exact stepInit_thrown_ne heq2 hg
  next user s2 heq2 =>
    split at heq
    next m2 s3 heq3 =>
      cases heq
      exact stepFork_thrown_ne heq3 hg
    next fork s3 heq3 =>
      split at heq
      next m2 s4 heq4 =>
        cases heq
        exact stepBranch_thrown_ne heq4 hg
      next v s4 heq4 =>
        split at heq
        next m2 s5 heq5 =>
          cases heq
          exact stepConfig_thrown_ne heq5 hg
        next v s5 heq5 =>
          split at heq
          next m2 s6 heq6 =>
            cases heq
            exact stepWorkflow_thrown_ne heq6 hg
          next v s6 heq6 =>
            split at heq
            next m2 s7 heq7 =>
              cases heq
              exact stepDispatch_thrown_ne heq7 hg
            next v s7 heq7 => cases heq

theorem stepInitV2_thrown_ne {env : DeployEnv} {depId : Nat} {st : St}
    {m : String} {st' : St} (heq : stepInitV2 env depId st = .thrown m st')
    (hg : EnvGoodMsgs env) : m ≠ "" := by
  unfold stepInitV2 at heq
  dsimp only at heq
  split at heq
  next m2 s2 heq2 =>
    cases heq
    exact ghCallV2_thrown_ne heq2 hg.userResp
  next s2 heq2 =>
    cases heq
    exact typeErrorMsg_ne
  next u s2 heq2 => cases heq

theorem stepForkV2_thrown_ne {env : DeployEnv} {depId : Nat} {st : St}
    {m : String} {st' : St} (heq : stepForkV2 env depId st = .thrown m st')
    (hg : EnvGoodMsgs env) : m ≠ "" := by
  unfold stepForkV2 at heq
  dsimp only at heq
  split at heq
  next heq2 =>
    split at heq
    next m2 s3 heq3 =>
      cases heq
      exact ghCallV2_thrown_ne heq3 hg.forkPost
    next v s3 heq3 => cases heq
  next f heq2 => cases heq

theorem stepActionsV2_thrown_ne {env : DeployEnv} {depId : Nat} {st : St}
    {m : String} {st' : St} (heq : stepActionsV2 env depId st = .thrown m st') :
    m ≠ "" := by
  unfold stepActionsV2 at heq
  dsimp only at heq
  split at heq
  next m2 s2 heq2 => cases heq
  next perms s2 heq2 =>
    split at heq
    · split at heq
      next m2 s4 heq3 => cases heq
      next v s4 heq3 => cases heq
    · cases heq
  next s2 heq2 => cases heq

theorem stepBranchV2_thrown_ne {env : DeployEnv} {depId : Nat} {branch : String}
    {st : St} {m : String} {st' : St}
    (heq : stepBranchV2 env depId branch st = .thrown m st')
    (hg : EnvGoodMsgs env) : m ≠ "" := by
  unfold stepBranchV2 at heq
  dsimp only at heq
  split at heq
  next m2 s2 heq2 =>
    cases heq
    exact ghCallV2_thrown_ne heq2 hg.branchGet
  next r s2 heq2 =>
    cases heq
    exact append_ne_empty_left _ _ (append_ne_empty_left _ _ (by decide))
  next s2 heq2 =>
    split at heq
    next m2 s3 heq3 =>
      cases heq
      exact ghCallV2_thrown_ne heq3 hg.mainRefGet
    next s3 heq3 =>
      cases heq
      exact typeErrorMsg_ne
    next r s3 heq3 =>
      split at heq
      next m2 s4 heq4 =>
        cases heq
        exact ghCallV2_thrown_ne heq4 hg.refsPost
      next v s4 heq4 => cases heq

theorem stepConfigV2_thrown_ne {env : DeployEnv} {depId : Nat} {st : St}
    {m : String} {st' : St} (heq : stepConfigV2 env depId st = .thrown m st')
    (hg : EnvGoodMsgs env) : m ≠ "" := by
  unfold stepConfigV2 at heq
  dsimp only at heq
  split at heq
  next m2 s3 heq2 =>
    cases heq
    exact ghCallV2_thrown_ne heq2 hg.configPut
  next v s3 heq2 => cases heq

theorem stepWorkflowV2_thrown_ne {env : DeployEnv} {depId : Nat} {st : St}
    {m : String} {st' : St} (heq : stepWorkflowV2 env depId st = .thrown m st')
    (hg : EnvGoodMsgs env) : m ≠ "" := by
  unfold stepWorkflowV2 at heq
  dsimp only at heq
  split at heq
  next m2 s2 heq2 =>
    cases heq
    exact ghCallV2_thrown_ne heq2 hg.workflowPut
  next v s2 heq2 => cases heq

theorem stepDispatchV2_thrown_ne {env : DeployEnv} {depId : Nat}
    {login branch : String} {st : St} {m : String} {st' : St}
    (heq : stepDispatchV2 env depId login branch st = .thrown m st') :
    m ≠ "" := by
  unfold stepDispatchV2 at heq
  dsimp only at heq
  split at heq
  next m2 s2 heq2 =>
    cases heq
    exact append_ne_empty_left _ _ (by decide)
  next s2 heq2 =>
    cases heq
    exact append_ne_empty_left _ _ (by decide)
  next r s2 heq2 =>
    split at heq
    next m2 s4 heq3 =>
      cases heq
      exact append_ne_empty_left _ _ (by decide)
    next v s4 heq3 => cases heq

/-- part_001 body: any thrown error carries a non-empty message. -/
theorem deployBodyV2_thrown_ne {env : DeployEnv} {branchReq : Option String}
    {depId : Nat} {st : St} {m : String} {st' : St}
    (heq : deployBodyV2 env branchReq depId st = .thrown m st')
    (hg : EnvGoodMsgs env) : m ≠ "" := by
  unfold deployBodyV2 at heq
  dsimp only at heq
  split at heq
  next m2 s2 heq2 =>
    cases heq
    exact stepInitV2_thrown_ne heq2 hg
  next user s2 heq2 =>
    split at heq
    next m2 s3 heq3 =>
      cases heq
      exact stepForkV2_thrown_ne heq3 hg
    next fork s3 heq3 =>
      split at heq
      next m2 s3' heq3' =>
        cases heq
        exact stepActionsV2_thrown_ne heq3'
      next v s3' heq3' =>
        split at heq
        next m2 s4 heq4 =>
          cases heq
          exact stepBranchV2_thrown_ne heq4 hg
        next v s4 heq4 =>
          split at heq
          next m2 s5 heq5 =>
            cases heq
            exact stepConfigV2_thrown_ne heq5 hg
          next v s5 heq5 =>
            split at heq
            next m2 s6 heq6 =>
              cases heq
              exact stepWorkflowV2_thrown_ne heq6 hg
            next v s6 heq6 =>
              split at heq
              next m2 s7 heq7 =>
                cases heq
                exact stepDispatchV2_thrown_ne heq7
              next v s7 heq7 => cases heq

/-! ## Tracking a deployment through updateDeployment -/

theorem find?_replace (l : List Deployment) (id : Nat) (d' : Deployment)
    (hd : d'.id = id) :
    (l.map (fun e => if e.id == id then d' else e)).find? (fun e => e.id == id) =
      (l.find? (fun e => e.id == id)).map (fun _ => d') := by
  induction l with
  | nil => rfl
  | cons e tl ih =>
      by_cases h : e.id = id
      · rw [List.map_cons, if_pos (by simpa using h)]
        rw [List.find?_cons_of_pos _ (by simp [hd])]
        rw [List.find?_cons_of_pos _ (by simp [h])]
        rfl
      · rw [List.map_cons, if_neg (by simpa using h)]
        rw [List.find?_cons_of_neg _ (by simp [h])]
        rw [List.find?_cons_of_neg _ (by simp [h])]
        exact ih

theorem getDeployment_update (s : StorageState) (id : Nat)
    (u : DeploymentUpdates) (d : Deployment)
    (hf : getDeployment s id = some d) :
    (updateDeployment s id u).1 = some (applyUpdates d u s.now) ∧
    getDeployment (updateDeployment s id u).2 id =
      some (applyUpdates d u s.now) := by
  unfold getDeployment at hf
  unfold updateDeployment getDeployment
  rw [hf]
  dsimp only
  have hid : (applyUpdates d u s.now).id = id := by
    simp [applyUpdates, find?_id_eq hf]
  constructor
  · rfl
  · rw [find?_replace _ _ _ hid, hf]
    rfl

theorem getDeployment_of_mem_ids {s : StorageState} {id : Nat}
    (h : id ∈ s.deployments.map (fun d => d.id)) :
    ∃ d, getDeployment s id = some d := by
  unfold getDeployment
  obtain ⟨d, hd, hid⟩ := List.mem_map.mp h
  have hs : (s.deployments.find? (fun e => e.id == id)).isSome := by
    rw [List.find?_isSome]
    exact ⟨d, hd, by simp [hid]⟩
  obtain ⟨d', hd'⟩ := Option.isSome_iff_exists.mp hs
  exact ⟨d', hd'⟩

/-- Conclusions of the shared catch block, given the deployment exists. -/
theorem deployCatch_marks_failed (depId : Nat) (m : String) (stf : St)
    (d : Deployment) (hd : getDeployment stf.store depId = some d) :
    (deployCatch depId m stf).response = .failure m ∧
    (∃ d', getDeployment (deployCatch depId m stf).store depId = some d' ∧
      d'.status = "failed" ∧ d'.message = some m ∧ d'.id = d.id ∧
      d'.createdAt = d.createdAt) ∧
    (∃ e, (deployCatch depId m stf).store.deploymentLogs.getLast? = some e ∧
      e.deploymentId = depId ∧ e.step = "error" ∧ e.status = "failed" ∧
      e.message = m) := by
  obtain ⟨hfst, hsnd⟩ := getDeployment_update stf.store depId
    { status := some "failed", message := some (some m) } d hd
  have h1 : getDeployment (deployCatch depId m stf).store depId =
      some (applyUpdates d
        { status := some "failed", message := some (some m) } stf.store.now) := hsnd
  have h2 : (deployCatch depId m stf).store.deploymentLogs.getLast? =
      some ((createDeploymentLog (updateDeployment stf.store depId
        { status := some "failed", message := some (some m) }).2
        ⟨depId, "error", "failed", m⟩).1) := by
    show (_ ++ [_]).getLast? = _
    rw [List.getLast?_concat]
    rfl
  exact ⟨rfl, ⟨_, h1, rfl, rfl, rfl, rfl⟩, ⟨_, h2, rfl, rfl, rfl, rfl⟩⟩

/-- The InsertDeployment the first-variant handler passes to createDeployment. -/
def insertOfReqV1 (req : DeployRequest) (usr : String) : InsertDeployment :=
  { sessionId := req.sessionId, branchName := req.branchName,
    githubUsername := usr, repositoryName := REPO_NAME,
    status := some "running", message := some "Deployment started" }

/-- The InsertDeployment the part_001 handler passes to createDeployment. -/
def insertOfReqV2 (req : DeployRequest) (tok usr : String) : InsertDeployment :=
  { sessionId := req.sessionId, branchName := req.branchName,
    githubUsername := usr, repositoryName := REPO_NAME,
    githubToken := some tok,
    status := some "running", message := some "Deployment started" }

/-- Handler state right after the Deployment row is created. -/
def initialSt (s₀ : StorageState) (ins : InsertDeployment) : St :=
  { store := (createDeployment s₀ ins).2, trace := [] }

theorem deployHandlerV1_eq (env : DeployEnv) (req : DeployRequest)
    (sess : SessionData) (s₀ : StorageState) (tok usr : String)
    (hsid : ¬req.sessionId = "")
    (htok : jsStrOrNull sess.githubToken = some tok)
    (husr : jsStrOrNull sess.githubUsername = some usr) :
    deployHandlerV1 env req sess s₀ =
      (match deployBodyV1 env req.branchName s₀.nextId
          (initialSt s₀ (insertOfReqV1 req usr)) with
       | .ok resp st => { store := st.store, ghTrace := st.trace, response := resp }
       | .thrown m st => deployCatch s₀.nextId m st) := by
  unfold deployHandlerV1 initialSt insertOfReqV1
  rw [if_neg hsid, htok, husr]
  rfl

theorem deployHandlerV2_eq (env : DeployEnv) (req : DeployRequest)
    (sess : SessionData) (s₀ : StorageState) (tok usr : String)
    (hsid : ¬req.sessionId = "")
    (htok : jsStrOrNull sess.githubToken = some tok)
    (husr : jsStrOrNull sess.githubUsername = some usr) :
    deployHandlerV2 env req sess s₀ =
      (match deployBodyV2 env req.branchName s₀.nextId
          (initialSt s₀ (insertOfReqV2 req tok usr)) with
       | .ok resp st => { store := st.store, ghTrace := st.trace, response := resp }
       | .thrown m st => deployCatch s₀.nextId m st) := by
  unfold deployHandlerV2 initialSt insertOfReqV2
  rw [if_neg hsid, htok, husr]
  rfl

/-- C2: if the orchestration throws after the Deployment row is created, the
deployment ends `failed` with the (non-empty) error message, an
`error`/`failed` log row is appended last, and the HTTP response is the 500
`success: false` failure — for both handler variants. -/
theorem deploy_throw_marks_failed (env : DeployEnv) (req : DeployRequest)
    (sess : SessionData) (s₀ : StorageState) (tok usr : String)
    (hsid : req.sessionId ≠ "")
    (htok : jsStrOrNull sess.githubToken = some tok)
    (husr : jsStrOrNull sess.githubUsername = some usr)
    (hg : EnvGoodMsgs env) :
    (∀ m stf, deployBodyV1 env req.branchName s₀.nextId
        (initialSt s₀ (insertOfReqV1 req usr)) = .thrown m stf →
      m ≠ "" ∧
      (deployHandlerV1 env req sess s₀).response = .failure m ∧
      (∃ d', getDeployment (deployHandlerV1 env req sess s₀).store s₀.nextId =
          some d' ∧ d'.status = "failed" ∧ d'.message = some m) ∧
      (∃ e, (deployHandlerV1 env req sess s₀).store.deploymentLogs.getLast? =
          some e ∧ e.deploymentId = s₀.nextId ∧ e.step = "error" ∧
          e.status = "failed" ∧ e.message = m)) ∧
    (∀ m stf, deployBodyV2 env req.branchName s₀.nextId
        (initialSt s₀ (insertOfReqV2 req tok usr)) = .thrown m stf →
      m ≠ "" ∧
      (deployHandlerV2 env req sess s₀).response = .failure m ∧
      (∃ d', getDeployment (deployHandlerV2 env req sess s₀).store s₀.nextId =
          some d' ∧ d'.status = "failed" ∧ d'.message = some m) ∧
      (∃ e, (deployHandlerV2 env req sess s₀).store.deploymentLogs.getLast? =
          some e ∧ e.deploymentId = s₀.nextId ∧ e.step = "error" ∧
          e.status = "failed" ∧ e.message = m)) := by
  constructor
  · intro m stf hth
    have hne := deployBodyV1_thrown_ne hth hg
    have hrw := deployHandlerV1_eq env req sess s₀ tok usr hsid htok husr
    rw [hth] at hrw
    have hfr := rel_cast _ (deployBodyV1_frame env req.branchName s₀.nextId
      (initialSt s₀ (insertOfReqV1 req usr))) hth
    have hids : stf.store.deployments.map (fun d => d.id) =
        (initialSt s₀ (insertOfReqV1 req usr)).store.deployments.map
          (fun d => d.id) := hfr.2
    have hmem : s₀.nextId ∈ stf.store.deployments.map (fun d => d.id) := by
      rw [hids]
      simp [initialSt, createDeployment]
    obtain ⟨d, hd⟩ := getDeployment_of_mem_ids hmem
    obtain ⟨hresp, ⟨d', hd', hs', hm', _, _⟩, ⟨e, he, he1, he2, he3, he4⟩⟩ :=
      deployCatch_marks_failed s₀.nextId m stf d hd
    rw [hrw]
    exact ⟨hne, hresp, ⟨d', hd', hs', hm'⟩, ⟨e, he, he1, he2, he3, he4⟩⟩
  · intro m stf hth
    have hne := deployBodyV2_thrown_ne hth hg
    have hrw := deployHandlerV2_eq env req sess s₀ tok usr hsid htok husr
    rw [hth] at hrw
    have hfr := rel_cast _ (deployBodyV2_frame env req.branchName s₀.nextId
      (initialSt s₀ (insertOfReqV2 req tok usr))) hth
    have hids : stf.store.deployments.map (fun d => d.id) =
        (initialSt s₀ (insertOfReqV2 req tok usr)).store.deployments.map
          (fun d => d.id) := hfr.2
    have hmem : s₀.nextId ∈ stf.store.deployments.map (fun d => d.id) := by
      rw [hids]
      simp [initialSt, createDeployment]
    obtain ⟨d, hd⟩ := getDeployment_of_mem_ids hmem
    obtain ⟨hresp, ⟨d', hd', hs', hm', _, _⟩, ⟨e, he, he1, he2, he3, he4⟩⟩ :=
      deployCatch_marks_failed s₀.nextId m stf d hd
    rw [hrw]
    exact ⟨hne, hresp, ⟨d', hd', hs', hm'⟩, ⟨e, he, he1, he2, he3, he4⟩⟩

/-! ## Branch collision: no branch/file/workflow mutations -/

/-- No call from the mutation set is added to the trace. -/
def NoMutRel : St → St → Prop := fun st st' =>
  ∃ δ, st'.trace = st.trace ++ δ ∧ ∀ t ∈ δ, t ∉ branchFileWorkflowMutations

theorem noMutRel_trans : Transitive NoMutRel := by
  intro a b c hab hbc
  obtain ⟨δ₁, e₁, p₁⟩ := hab
  obtain ⟨δ₂, e₂, p₂⟩ := hbc
  refine ⟨δ₁ ++ δ₂, by rw [e₂, e₁, List.append_assoc], ?_⟩
  intro t ht
  rcases List.mem_append.mp ht with h | h
  · exact p₁ t h
  · exact p₂ t h

theorem noMutRel_addLog (depId : Nat) (step status msg : String) (st : St) :
    NoMutRel st (addLog depId step status msg st) := ⟨[], by simp, by simp⟩

theorem noMutRel_updDep (depId : Nat) (u : DeploymentUpdates) (st : St) :
    NoMutRel st (updDep depId u st) := ⟨[], by simp, by simp⟩

theorem noMutRel_ghV1 (α : Type) (tag : GHCall) (r : GHResult α) (st : St)
    (h : tag ∉ branchFileWorkflowMutations) :
    NoMutRel st (ghCallV1 tag r st).st := ⟨[tag], by simp, by simpa using h⟩

theorem noMutRel_ghV2 (α : Type) (tag : GHCall) (r : GHResult α) (st : St)
    (h : tag ∉ branchFileWorkflowMutations) :
    NoMutRel st (ghCallV2 tag r st).st := ⟨[tag], by simp, by simpa using h⟩

theorem stepBranch_collision (env : DeployEnv) (depId : Nat) (branch : String)
    (st : St) (r : RefInfo) (hr : env.branchGet = .ok r) :
    ∃ st', stepBranch env depId branch st =
      .thrown ("Branch '" ++ branch ++
        "' already exists. Please choose a different name.") st' ∧
      st'.trace = st.trace ++ [.getBranchRef] := by
  unfold stepBranch
  dsimp only
  rw [hr]
  exact ⟨_, rfl, rfl⟩

theorem stepBranchV2_collision (env : DeployEnv) (depId : Nat) (branch : String)
    (st : St) (r : RefInfo) (hr : env.branchGet = .ok r) :
    ∃ st', stepBranchV2 env depId branch st =
      .thrown ("Branch '" ++ branch ++
        "' already exists. Please choose a different name.") st' ∧
      st'.trace = st.trace ++ [.getBranchRef] := by
  unfold stepBranchV2
  dsimp only
  rw [hr]
  exact ⟨_, rfl, rfl⟩

theorem notMut_of_mem {tag : GHCall} {l : List GHCall}
    (hl : ∀ x ∈ l, x ∉ branchFileWorkflowMutations) (h : tag ∈ l) :
    tag ∉ branchFileWorkflowMutations := hl tag h

/-- On a branch-name collision the first-variant body always throws and never
issues a branch-, file-, workflow- or dispatch-mutating call. -/
theorem deployBodyV1_collision (env : DeployEnv) (branchReq : Option String)
    (depId : Nat) (st : St) (r : RefInfo) (hr : env.branchGet = .ok r) :
    (∃ m stf, deployBodyV1 env branchReq depId st = .thrown m stf) ∧
    NoMutRel st (deployBodyV1 env branchReq depId st).st := by
  have hInit : ∀ s, NoMutRel s (stepInit env depId s).st :=
    stepInit_rel noMutRel_trans
      (fun st step status msg _ => noMutRel_addLog depId step status msg st)
      (fun α r s => noMutRel_ghV1 α .getUser r s (by decide)) env
  have hFork : ∀ s, NoMutRel s (stepFork env depId s).st :=
    stepFork_rel noMutRel_trans
      (fun st step status msg _ => noMutRel_addLog depId step status msg st)
      (fun α tag r s htag => noMutRel_ghV1 α tag r s
        (notMut_of_mem (by decide) htag)) env
  unfold deployBodyV1
  dsimp only
  split
  next m s2 heq =>
    exact ⟨⟨m, s2, rfl⟩, rel_cast (stepInit env depId st) (hInit st) heq⟩
  next user s2 heq =>
    have h2 : NoMutRel st s2 := rel_cast (stepInit env depId st) (hInit st) heq
    split
    next m s3 heq2 =>
      exact ⟨⟨m, s3, rfl⟩, noMutRel_trans h2
        (rel_cast (stepFork env depId s2) (hFork s2) heq2)⟩
    next fork s3 heq2 =>
      have h3 : NoMutRel st s3 := noMutRel_trans h2
        (rel_cast (stepFork env depId s2) (hFork s2) heq2)
      obtain ⟨st', hcoll, htr⟩ := stepBranch_collision env depId
        (finalBranch branchReq env.randFrac) s3 r hr
      split
      · rename_i m s4 heq3
        rw [hcoll] at heq3
        have hst : st' = s4 := ((StepOut.thrown.injEq _ _ _ _).mp heq3).2
        subst hst
        exact ⟨⟨m, st', rfl⟩, noMutRel_trans h3
          ⟨[.getBranchRef], htr, by decide⟩⟩
      · rename_i v s4 heq3
        rw [hcoll] at heq3
        cases heq3

/-- On a branch-name collision the part_001 body always throws and never
issues a branch-, file-, workflow- or dispatch-mutating call (the Actions
permissions PUT is a settings write outside the claim's mutation set). -/
theorem deployBodyV2_collision (env : DeployEnv) (branchReq : Option String)
    (depId : Nat) (st : St) (r : RefInfo) (hr : env.branchGet = .ok r) :
    (∃ m stf, deployBodyV2 env branchReq depId st = .thrown m stf) ∧
    NoMutRel st (deployBodyV2 env branchReq depId st).st := by
  have hInit : ∀ s, NoMutRel s (stepInitV2 env depId s).st :=
    stepInitV2_rel noMutRel_trans
      (fun st step status msg _ => noMutRel_addLog depId step status msg st)
      (fun α r s => noMutRel_ghV2 α .getUser r s (by decide)) env
  have hFork : ∀ s, NoMutRel s (stepForkV2 env depId s).st :=
    stepForkV2_rel noMutRel_trans
      (fun st step status msg _ => noMutRel_addLog depId step status msg st)
      (fun α tag r s htag => noMutRel_ghV2 α tag r s
        (notMut_of_mem (by decide) htag)) env
  have hActions : ∀ s, NoMutRel s (stepActionsV2 env depId s).st :=
    stepActionsV2_rel noMutRel_trans
      (fun st step status msg _ => noMutRel_addLog depId step status msg st)
      (fun α tag r s htag => noMutRel_ghV2 α tag r s
        (notMut_of_mem (by decide) htag)) env
  unfold deployBodyV2
  dsimp only
  split
  next m s2 heq =>
    exact ⟨⟨m, s2, rfl⟩, rel_cast (stepInitV2 env depId st) (hInit st) heq⟩
  next user s2 heq =>
    have h2 : NoMutRel st s2 := rel_cast (stepInitV2 env depId st) (hInit st) heq
    split
    next m s3 heq2 =>
      exact ⟨⟨m, s3, rfl⟩, noMutRel_trans h2
        (rel_cast (stepForkV2 env depId s2) (hFork s2) heq2)⟩
    next fork s3 heq2 =>
      have h3 : NoMutRel st s3 := noMutRel_trans h2
        (rel_cast (stepForkV2 env depId s2) (hFork s2) heq2)
      split
      next m s3' heq2' =>
        exact ⟨⟨m, s3', rfl⟩, noMutRel_trans h3
          (rel_cast (stepActionsV2 env depId s3) (hActions s3) heq2')⟩
      next v s3' heq2' =>
        have h3' : NoMutRel st s3' := noMutRel_trans h3
          (rel_cast (stepActionsV2 env depId s3) (hActions s3) heq2')
        obtain ⟨st', hcoll, htr⟩ := stepBranchV2_collision env depId
          (finalBranch branchReq env.randFrac) s3' r hr
        split
        · rename_i m s4 heq3
          rw [hcoll] at heq3
          have hst : st' = s4 := ((StepOut.thrown.injEq _ _ _ _).mp heq3).2
          subst hst
          exact ⟨⟨m, st', rfl⟩, noMutRel_trans h3'
            ⟨[.getBranchRef], htr, by decide⟩⟩
        · rename_i v s4 heq3
          rw [hcoll] at heq3
          cases heq3

theorem deployHandlerV1_early (env : DeployEnv) (req : DeployRequest)
    (sess : SessionData) (s₀ : StorageState)
    (h : req.sessionId = "" ∨ jsStrOrNull sess.githubToken = none ∨
      jsStrOrNull sess.githubUsername = none) :
    (deployHandlerV1 env req sess s₀).ghTrace = [] ∧
    ∀ i b u, (deployHandlerV1 env req sess s₀).response ≠ .success i b u := by
  unfold deployHandlerV1
  by_cases hsid : req.sessionId = ""
  · rw [if_pos hsid]
    exact ⟨rfl, fun i b u hc => DeployResponse.noConfusion hc⟩
  · rw [if_neg hsid]
    rcases h with h | h | h
    · exact absurd h hsid
    · rw [h]
      exact ⟨rfl, fun i b u hc => DeployResponse.noConfusion hc⟩
    · cases htok : jsStrOrNull sess.githubToken with
      | none => exact ⟨rfl, fun i b u hc => DeployResponse.noConfusion hc⟩
      | some tok =>
          rw [h]
          exact ⟨rfl, fun i b u hc => DeployResponse.noConfusion hc⟩

theorem deployHandlerV2_early (env : DeployEnv) (req : DeployRequest)
    (sess : SessionData) (s₀ : StorageState)
    (h : req.sessionId = "" ∨ jsStrOrNull sess.githubToken = none ∨
      jsStrOrNull sess.githubUsername = none) :
    (deployHandlerV2 env req sess s₀).ghTrace = [] ∧
    ∀ i b u, (deployHandlerV2 env req sess s₀).response ≠ .success i b u := by
  unfold deployHandlerV2
  by_cases hsid : req.sessionId = ""
  · rw [if_pos hsid]
    exact ⟨rfl, fun i b u hc => DeployResponse.noConfusion hc⟩
  · rw [if_neg hsid]
    rcases h with h | h | h
    · exact absurd h hsid
    · rw [h]
      exact ⟨rfl, fun i b u hc => DeployResponse.noConfusion hc⟩
    · cases htok : jsStrOrNull sess.githubToken with
      | none => exact ⟨rfl, fun i b u hc => DeployResponse.noConfusion hc⟩
      | some tok =>
          rw [h]
          exact ⟨rfl, fun i b u hc => DeployResponse.noConfusion hc⟩

/-- C1 (amended by nothing — proved as stated for the enumerated mutation
set): when the requested or generated branch name already exists on the fork,
both deploy handlers fail the request and never issue a branch-creation,
file-write, workflow-write or workflow-dispatch call — neither before nor
after the existence check. -/
theorem deploy_branch_collision_safe (env : DeployEnv) (req : DeployRequest)
    (sess : SessionData) (s₀ : StorageState) (r : RefInfo)
    (hr : env.branchGet = .ok r) :
    ((∀ t ∈ (deployHandlerV1 env req sess s₀).ghTrace,
        t ∉ branchFileWorkflowMutations) ∧
     (∀ i b u, (deployHandlerV1 env req sess s₀).response ≠ .success i b u)) ∧
    ((∀ t ∈ (deployHandlerV2 env req sess s₀).ghTrace,
        t ∉ branchFileWorkflowMutations) ∧
     (∀ i b u, (deployHandlerV2 env req sess s₀).response ≠ .success i b u)) := by
  constructor
  · by_cases hsid : req.sessionId = ""
    · have he := deployHandlerV1_early env req sess s₀ (Or.inl hsid)
      exact ⟨(by rw [he.1]; intro t ht; cases ht), he.2⟩
    · cases htok : jsStrOrNull sess.githubToken with
      | none =>
          have he := deployHandlerV1_early env req sess s₀ (Or.inr (Or.inl htok))
          exact ⟨(by rw [he.1]; intro t ht; cases ht), he.2⟩
      | some tok =>
        cases husr : jsStrOrNull sess.githubUsername with
        | none =>
            have he := deployHandlerV1_early env req sess s₀
              (Or.inr (Or.inr husr))
            exact ⟨(by rw [he.1]; intro t ht; cases ht), he.2⟩
        | some usr =>
            have hq := deployHandlerV1_eq env req sess s₀ tok usr hsid htok husr
            obtain ⟨⟨m, stf, hth⟩, hnm⟩ := deployBodyV1_collision env
              req.branchName s₀.nextId (initialSt s₀ (insertOfReqV1 req usr)) r hr
            rw [hth] at hq hnm
            rw [hq]
            obtain ⟨δ, hδ, hp⟩ := hnm
            constructor
            · intro t ht
              show t ∉ _
              have hmem : t ∈ stf.trace := ht
              have hδ' : stf.trace = [] ++ δ := hδ
              rw [hδ', List.nil_append] at hmem
              exact hp t hmem
            · exact fun i b u hc => DeployResponse.noConfusion hc
  · by_cases hsid : req.sessionId = ""
    · have he := deployHandlerV2_early env req sess s₀ (Or.inl hsid)
      exact ⟨(by rw [he.1]; intro t ht; cases ht), he.2⟩
    · cases htok : jsStrOrNull sess.githubToken with
      | none =>
          have he := deployHandlerV2_early env req sess s₀ (Or.inr (Or.inl htok))
          exact ⟨(by rw [he.1]; intro t ht; cases ht), he.2⟩
      | some tok =>
        cases husr : jsStrOrNull sess.githubUsername with
        | none =>
            have he := deployHandlerV2_early env req sess s₀
              (Or.inr (Or.inr husr))
            exact ⟨(by rw [he.1]; intro t ht; cases ht), he.2⟩
        | some usr =>
            have hq := deployHandlerV2_eq env req sess s₀ tok usr hsid htok husr
            obtain ⟨⟨m, stf, hth⟩, hnm⟩ := deployBodyV2_collision env
              req.branchName s₀.nextId (initialSt s₀ (insertOfReqV2 req tok usr)) r hr
            rw [hth] at hq hnm
            rw [hq]
            obtain ⟨δ, hδ, hp⟩ := hnm
            constructor
            · intro t ht
              show t ∉ _
              have hmem : t ∈ stf.trace := ht
              have hδ' : stf.trace = [] ++ δ := hδ
              rw [hδ', List.nil_append] at hmem
              exact hp t hmem
            · exact fun i b u hc => DeployResponse.noConfusion hc

/-! ## Claim theorems: GitHub wrapper (C3) -/

/-- C3 counterexample: the part_001 `makeGitHubRequest` does not throw the
GitHub response's message verbatim when that message contains "sha" — it
wraps it in a remediation sentence. -/
theorem makeGitHubRequest_sha_counterexample :
    makeGitHubRequestV2 (α := Unit)
      (.err (some "sha mismatch") "Request failed with status code 422") ≠
      .thrown "sha mismatch" ∧
    makeGitHubRequestV2 (α := Unit)
      (.err (some "sha mismatch") "Request failed with status code 422") =
      .thrown "File update failed: sha mismatch. This usually means the file was modified since we last checked it." := by
  constructor
  · decide
  · decide

/-- C3 (amended): both wrapper variants return the body on success and null on
a 404 without throwing; on any other failure the routes.ts variant throws the
GitHub response's message when present and non-empty, otherwise the transport
error's message, and the part_001 variant additionally wraps a message
containing "sha" in a `File update failed: ...` remediation sentence. -/
theorem makeGitHubRequest_spec (α : Type) (v : α) (gh : Option String)
    (tm m : String) :
    makeGitHubRequest (.ok v) = .value (some v) ∧
    makeGitHubRequest (α := α) .notFound = .value none ∧
    makeGitHubRequest (α := α) (.err (some m) tm) =
      .thrown (if m = "" then tm else m) ∧
    makeGitHubRequest (α := α) (.err none tm) = .thrown tm ∧
    makeGitHubRequestV2 (.ok v) = .value (some v) ∧
    makeGitHubRequestV2 (α := α) .notFound = .value none ∧
    makeGitHubRequestV2 (α := α) (.err gh tm) =
      (if jsIncludes (jsErrMsg gh tm) "sha" then
        .thrown ("File update failed: " ++ jsErrMsg gh tm ++
          ". This usually means the file was modified since we last checked it.")
       else .thrown (jsErrMsg gh tm)) := by
  exact ⟨rfl, rfl, rfl, rfl, rfl, rfl, rfl⟩

/-! ## Claim theorems: getDeploymentLogs (C5) -/

/-- C5: the logs returned for a deployment id are exactly the stored rows
with that deploymentId (as a permutation of the filtered store), ordered with
non-decreasing timestamps. -/
theorem getDeploymentLogs_spec (s : StorageState) (id : Nat) :
    (getDeploymentLogs s id).Perm
      (s.deploymentLogs.filter (fun log => log.deploymentId == id)) ∧
    (getDeploymentLogs s id).Pairwise (fun a b => a.timestamp ≤ b.timestamp) ∧
    ∀ e ∈ getDeploymentLogs s id, e.deploymentId = id := by
  refine ⟨List.mergeSort_perm _ _, ?_, ?_⟩
  · have htrans : ∀ (a b c : DeploymentLog), logLe a b = true →
        logLe b c = true → logLe a c = true := by
      intro a b c hab hbc
      simp only [logLe, decide_eq_true_eq] at *
      omega
    have htotal : ∀ (a b : DeploymentLog), (logLe a b || logLe b a) = true := by
      intro a b
      simp only [logLe, Bool.or_eq_true, decide_eq_true_eq]
      omega
    have h := List.sorted_mergeSort htrans htotal
      (s.deploymentLogs.filter (fun log => log.deploymentId == id))
    exact h.imp (fun hab => by simpa [logLe] using hab)
  · intro e he
    have hmem := (List.mergeSort_perm
      (s.deploymentLogs.filter (fun log => log.deploymentId == id)) logLe).subset he
    have := List.of_mem_filter hmem
    simpa using this

/-! ## Claim theorems: updateDeployment (C10) -/

/-- C10: updating an absent id returns undefined and leaves the store
untouched; updating a present id returns the updated record, replaces only
that record (other records and the insertion order survive), preserves id and
createdAt, stamps updatedAt with the call time, and applies exactly the given
update fields. -/
theorem updateDeployment_spec (s : StorageState) (id : Nat)
    (u : DeploymentUpdates) :
    (getDeployment s id = none → updateDeployment s id u = (none, s)) ∧
    (∀ d, getDeployment s id = some d →
      (updateDeployment s id u).1 = some (applyUpdates d u s.now) ∧
      getDeployment (updateDeployment s id u).2 id =
        some (applyUpdates d u s.now) ∧
      (applyUpdates d u s.now).id = d.id ∧
      (applyUpdates d u s.now).createdAt = d.createdAt ∧
      (applyUpdates d u s.now).updatedAt = s.now ∧
      (applyUpdates d u s.now).status = u.status.getD d.status ∧
      (applyUpdates d u s.now).message = u.message.getD d.message ∧
      (applyUpdates d u s.now).branchName = u.branchName.getD d.branchName ∧
      (applyUpdates d u s.now).workflowUrl = u.workflowUrl.getD d.workflowUrl ∧
      (applyUpdates d u s.now).sessionId = u.sessionId.getD d.sessionId ∧
      (applyUpdates d u s.now).githubUsername =
        u.githubUsername.getD d.githubUsername ∧
      (applyUpdates d u s.now).repositoryName =
        u.repositoryName.getD d.repositoryName ∧
      (applyUpdates d u s.now).githubToken = u.githubToken.getD d.githubToken ∧
      (updateDeployment s id u).2.deploymentLogs = s.deploymentLogs ∧
      (updateDeployment s id u).2.nextId = s.nextId ∧
      (∀ e ∈ s.deployments, e.id ≠ id →
        e ∈ (updateDeployment s id u).2.deployments) ∧
      (updateDeployment s id u).2.deployments.map (fun d => d.id) =
        s.deployments.map (fun d => d.id)) := by
  constructor
  · intro h
    unfold getDeployment at h
    unfold updateDeployment
    rw [h]
  · intro d hf
    have hf' : s.deployments.find? (fun e => e.id == id) = some d := hf
    obtain ⟨h1, h2⟩ := getDeployment_update s id u d hf
    refine ⟨h1, h2, rfl, rfl, rfl, rfl, rfl, rfl, rfl, rfl, rfl, rfl, rfl,
      updateDeployment_logs s id u, ?_, ?_, updateDeployment_ids s id u⟩
    · unfold updateDeployment
      rw [hf']
    · intro e he hne
      unfold updateDeployment
      rw [hf']
      dsimp only
      refine List.mem_map.mpr ⟨e, he, ?_⟩
      simp [hne]

/-! ## Claim theorems: per-user isolation (C9) -/

/-- State extension by another user's records: one additional deployment and
any log rows belonging to it.  Used only to express independence. -/
def addForeign (s : StorageState) (d' : Deployment)
    (newLogs : List DeploymentLog) : StorageState :=
  { s with deployments := s.deployments ++ [d'],
           deploymentLogs := s.deploymentLogs ++ newLogs }

/-- C9: a deployment owned by a different user yields the same 404
`Deployment not found` as a missing deployment on both read endpoints, and
consequently adding another user's deployment (with its logs) to the store
changes no response observable by this session's user. -/
theorem endpoint_user_isolation (s : StorageState) (u : String) (id : Nat) :
    (∀ d, getDeployment s id = some d → u ≠ "" → d.githubUsername ≠ u →
      getDeploymentEndpoint s (some u) id = .notFoundErr ∧
      getDeploymentLogsEndpoint s (some u) id = .notFoundErr) ∧
    (getDeployment s id = none → u ≠ "" →
      getDeploymentEndpoint s (some u) id = .notFoundErr ∧
      getDeploymentLogsEndpoint s (some u) id = .notFoundErr) ∧
    (∀ d' newLogs, d'.githubUsername ≠ u →
      (∀ e ∈ s.deployments, e.id ≠ d'.id) →
      (∀ e ∈ newLogs, e.deploymentId = d'.id) →
      ∀ x, getDeploymentEndpoint (addForeign s d' newLogs) (some u) x =
             getDeploymentEndpoint s (some u) x ∧
           getDeploymentLogsEndpoint (addForeign s d' newLogs) (some u) x =
             getDeploymentLogsEndpoint s (some u) x) := by
  refine ⟨?_, ?_, ?_⟩
  · intro d hf hu hown
    unfold getDeploymentEndpoint getDeploymentLogsEndpoint
    rw [show jsStrOrNull (some u) = some u by simp [jsStrOrNull, hu]]
    rw [hf]
    simp [hown]
  · intro hf hu
    unfold getDeploymentEndpoint getDeploymentLogsEndpoint
    rw [show jsStrOrNull (some u) = some u by simp [jsStrOrNull, hu]]
    rw [hf]
    simp
  · intro d' newLogs hown hfresh hlogs x
    have hfind : getDeployment (addForeign s d' newLogs) x =
        (getDeployment s x).or ([d'].find? (fun e => e.id == x)) := by
      unfold getDeployment addForeign
      dsimp only
      rw [List.find?_append]
    by_cases hu : u = ""
    · subst hu
      unfold getDeploymentEndpoint getDeploymentLogsEndpoint
      rw [show jsStrOrNull (some "") = none from rfl]
      exact ⟨rfl, rfl⟩
    · have hsu : jsStrOrNull (some u) = some u := by simp [jsStrOrNull, hu]
      cases hx : getDeployment s x with
      | some d =>
          have hxid : d.id = x := by
            unfold getDeployment at hx
            exact find?_id_eq hx
          have hxd : x ≠ d'.id := by
            have hd : d ∈ s.deployments := by
              unfold getDeployment at hx
              exact List.mem_of_find?_eq_some hx
            rw [← hxid]
            exact hfresh d hd
          have hfind2 : getDeployment (addForeign s d' newLogs) x = some d := by
            rw [hfind, hx]
            rfl
          have hfilter : (addForeign s d' newLogs).deploymentLogs.filter
              (fun log => log.deploymentId == x) =
              s.deploymentLogs.filter (fun log => log.deploymentId == x) := by
            unfold addForeign
            dsimp only
            rw [List.filter_append]
            have : newLogs.filter (fun log => log.deploymentId == x) = [] := by
              rw [List.filter_eq_nil_iff]
              intro e he
              simp [hlogs e he, Ne.symm hxd]
            rw [this, List.append_nil]
          constructor
          · unfold getDeploymentEndpoint
            rw [hsu, hfind2, hx]
          · unfold getDeploymentLogsEndpoint
            rw [hsu, hfind2, hx]
            by_cases hod : d.githubUsername ≠ u
            · simp [hod]
            · simp only [hod, if_neg hod]
              unfold getDeploymentLogs
              rw [show (addForeign s d' newLogs).deploymentLogs.filter
                  (fun log => log.deploymentId == x) =
                  s.deploymentLogs.filter (fun log => log.deploymentId == x)
                from hfilter]
      | none =>
          have hfind2 : getDeployment (addForeign s d' newLogs) x =
              [d'].find? (fun e => e.id == x) := by
            rw [hfind, hx]
            rfl
          by_cases hdx : d'.id = x
          · have : getDeployment (addForeign s d' newLogs) x = some d' := by
              rw [hfind2]
              simp [hdx]
            constructor
            · unfold getDeploymentEndpoint
              rw [hsu, this, hx]
              simp [hown]
            · unfold getDeploymentLogsEndpoint
              rw [hsu, this, hx]
              simp [hown]
          · have : getDeployment (addForeign s d' newLogs) x = none := by
              rw [hfind2]
              simp [hdx]
            constructor
            · unfold getDeploymentEndpoint
              rw [hsu, this, hx]
            · unfold getDeploymentLogsEndpoint
              rw [hsu, this, hx]

/-! ## Claim theorems: log relay (C6) -/

/-- A finished deployment, used as a concrete counterexample input. -/
def finishedDeployment : Deployment :=
  { id := 1
    sessionId := "abc123"
    branchName := some "xylo-ab12cd"
    githubUsername := "alice"
    repositoryName := "XYLO-MD"
    githubToken := none
    status := "success"
    message := some "Deployment completed"
    workflowUrl := some "https://github.com/alice/XYLO-MD/actions"
    createdAt := 0
    updatedAt := 5 }

/-- C6 counterexample: when the streaming body throws, the loop re-arms after
5000 ms for a deployment whose status is `success`, i.e. it does not stop on
all error paths while the status is terminal. -/
theorem streamIter_error_path_counterexample :
    streamIter (some finishedDeployment) true (some [7]) = .after5000 ∧
    streamIter (some finishedDeployment) true (some [7]) ≠ .stop ∧
    (finishedDeployment.status = "running" ∨
      finishedDeployment.status = "pending") = False := by
  refine ⟨by decide, by decide, by simp [finishedDeployment]⟩

@[simp] theorem streamIter_none (bt : Bool) (subs : Option (List Nat)) :
    streamIter none bt subs = .stop := rfl

theorem streamIter_some_true (d : Deployment) (subs : Option (List Nat)) :
    streamIter (some d) true subs =
      (if subsNonempty subs then .after5000 else .stop) := rfl

theorem streamIter_some_false (d : Deployment) (subs : Option (List Nat)) :
    streamIter (some d) false subs =
      (if (d.status == "running" || d.status == "pending") && subsNonempty subs
       then .after3000 else .stop) := rfl

/-- C6 (amended): the normal path re-arms (after 3000 ms) exactly while the
status is running/pending and a subscriber remains; the error path re-arms
(after 5000 ms) exactly while a subscriber remains, regardless of status;
closing a socket removes it from every subscriber set, deletes sets that
become empty, and keeps every other subscriber subscribed. -/
theorem streamRelay_spec :
    (∀ dep bt subs, streamIter dep bt subs = .after3000 ↔
       (∃ d, dep = some d ∧ bt = false ∧
         (d.status = "running" ∨ d.status = "pending") ∧
         subsNonempty subs = true)) ∧
    (∀ dep bt subs, streamIter dep bt subs = .after5000 ↔
       (dep.isSome = true ∧ bt = true ∧ subsNonempty subs = true)) ∧
    (∀ streams ws, ∀ e ∈ closeSocket streams ws, ws ∉ e.2 ∧ e.2 ≠ []) ∧
    (∀ streams ws idd x cl, (idd, cl) ∈ streams → x ∈ cl → x ≠ ws →
       ∃ cl', (idd, cl') ∈ closeSocket streams ws ∧ x ∈ cl') := by
  refine ⟨?_, ?_, ?_, ?_⟩
  · intro dep bt subs
    cases dep with
    | none =>
        simp only [streamIter_none]
        constructor
        · intro h
          cases h
        · rintro ⟨d', hd', _⟩
          cases hd'
    | some d =>
        cases bt with
        | true =>
            rw [streamIter_some_true]
            constructor
            · intro h
              split at h <;> cases h
            · rintro ⟨d', _, hbt, _⟩
              cases hbt
        | false =>
            rw [streamIter_some_false]
            by_cases hs : ((d.status == "running" || d.status == "pending") &&
                subsNonempty subs) = true
            · rw [if_pos hs]
              simp only [Bool.and_eq_true, Bool.or_eq_true, beq_iff_eq] at hs
              exact ⟨fun _ => ⟨d, rfl, rfl, hs.1, hs.2⟩, fun _ => rfl⟩
            · rw [if_neg hs]
              constructor
              · intro h
                cases h
              · rintro ⟨d', hd', _, hst, hsub⟩
                cases hd'
                apply absurd _ hs
                simp only [Bool.and_eq_true, Bool.or_eq_true, beq_iff_eq]
                exact ⟨hst, hsub⟩
  · intro dep bt subs
    cases dep with
    | none =>
        simp only [streamIter_none]
        constructor
        · intro h
          cases h
        · rintro ⟨hd, _⟩
          simp at hd
    | some d =>
        cases bt with
        | true =>
            rw [streamIter_some_true]
            by_cases hsb : subsNonempty subs = true
            · rw [if_pos hsb]
              exact ⟨fun _ => ⟨rfl, rfl, hsb⟩, fun _ => rfl⟩
            · rw [if_neg hsb]
              constructor
              · intro h
                cases h
              · rintro ⟨_, _, hsub⟩
                exact absurd hsub hsb
        | false =>
            rw [streamIter_some_false]
            constructor
            · intro h
              split at h <;> cases h
            · rintro ⟨_, hbt, _⟩
              cases hbt
  · intro streams ws e he
    unfold closeSocket at he
    obtain ⟨hmem, hne⟩ := List.mem_filter.mp he
    obtain ⟨e0, he0, heq⟩ := List.mem_map.mp hmem
    constructor
    · intro hw
      rw [← heq] at hw
      have := List.mem_filter.mp hw
      simp at this
    · intro hnil
      rw [hnil] at hne
      simp at hne
  · intro streams ws idd x cl hmem hx hne
    refine ⟨cl.filter (fun w => w != ws), ?_, ?_⟩
    · unfold closeSocket
      refine List.mem_filter.mpr ⟨List.mem_map.mpr ⟨(idd, cl), hmem, rfl⟩, ?_⟩
      have hxf : x ∈ cl.filter (fun w => w != ws) :=
        List.mem_filter.mpr ⟨hx, by simp [hne]⟩
      simp only [Bool.not_eq_eq_eq_not, Bool.not_false]
      exact (List.isEmpty_eq_false).mpr (List.ne_nil_of_mem hxf)
    · exact List.mem_filter.mpr ⟨hx, by simp [hne]⟩

/-! ## Log-status bookkeeping: status sets and per-step terminal closure -/

/-- Statuses terminal for a step, per the spec's terminal set. -/
def terminalStatus (s : String) : Bool :=
  s == "success" || s == "failed" || s == "warning"

/-- Row `p` resolves an earlier `running` row of step `step`: either a
terminal row of the same step, or the catch block's `error`/`failed` row. -/
def closesStep (step : String) (p : String × String) : Bool :=
  (p.1 == step && terminalStatus p.2) || (p.1 == "error" && p.2 == "failed")

/-- Every `running` row is followed by a row resolving it. -/
def stepsClosed : List (String × String) → Bool
  | [] => true
  | p :: rest =>
      (!(p.2 == "running") || rest.any (closesStep p.1)) && stepsClosed rest

/-- As `stepsClosed`, but only a terminal row of the same step resolves a
`running` row — the literal per-step terminal reading. -/
def stepsClosedStrict : List (String × String) → Bool
  | [] => true
  | p :: rest =>
      (!(p.2 == "running") ||
        rest.any (fun q => q.1 == p.1 && terminalStatus q.2)) &&
      stepsClosedStrict rest

/-- (step, status) projection of a log list. -/
def pairsOf (l : List DeploymentLog) : List (String × String) :=
  l.map (fun e => (e.step, e.status))

/-- The five statuses named by the log-status claim. -/
def claimedStatuses : List String :=
  ["pending", "running", "success", "failed", "warning"]

/-- The underlying HTTP request came back with a response (2xx or 404). -/
def GHResult.came : GHResult α → Bool
  | .err _ _ => false
  | _ => true

/-- Every HTTP call of the environment comes back with a response. -/
def DeployEnv.allReturn (env : DeployEnv) : Bool :=
  env.userResp.came && env.forkGet.came && env.forkPost.came &&
  env.actionsGet1.came && env.actionsGet2.came && env.actionsPut.came &&
  env.branchGet.came && env.mainRefGet.came && env.refsPost.came &&
  env.configGet.came && env.configPut.came && env.envGet.came &&
  env.envPut.came && env.workflowShaGet.came && env.workflowPut.came &&
  env.repoInfoGet.came && env.actionsGet3.came && env.dispatchPost.came &&
  env.workflowCheckGet.came && env.dispatchRetryPost.came

theorem pairsOf_append (a b : List DeploymentLog) :
    pairsOf (a ++ b) = pairsOf a ++ pairsOf b :=
  List.map_append _ a b

theorem stepsClosed_append {a b : List (String × String)}
    (ha : stepsClosed a = true) (hb : stepsClosed b = true) :
    stepsClosed (a ++ b) = true := by
  induction a with
  | nil => simpa using hb
  | cons p rest ih =>
      rw [stepsClosed, Bool.and_eq_true] at ha
      rw [List.cons_append, stepsClosed, Bool.and_eq_true]
      refine ⟨?_, ih ha.2⟩
      have h1 := ha.1
      rw [List.any_append]
      cases hq : !(p.2 == "running") with
      | false =>
          rw [hq, Bool.false_or] at h1
          rw [Bool.false_or, h1, Bool.true_or]
      | true => rw [Bool.true_or]

theorem stepsClosed_with_error (ps : List (String × String)) :
    stepsClosed (ps ++ [("error", "failed")]) = true := by
  induction ps with
  | nil => decide
  | cons p rest ih =>
      rw [List.cons_append, stepsClosed, Bool.and_eq_true]
      refine ⟨?_, ih⟩
      have hc : closesStep p.1 ("error", "failed") = true := by
        unfold closesStep
        have h2 : ((("error" : String) == "error") &&
            (("failed" : String) == "failed")) = true := by decide
        rw [h2, Bool.or_true]
      rw [List.any_append, List.any_cons, List.any_nil, hc, Bool.true_or,
        Bool.or_true, Bool.or_true]

/-- (step, status) projection of the log store. -/
def logPairs (st : St) : List (String × String) :=
  pairsOf st.store.deploymentLogs

/-- Between two states, only rows forming a closed (step, status) run were
appended. -/
def PairsClosed (st st' : St) : Prop :=
  ∃ δ, logPairs st' = logPairs st ++ δ ∧ stepsClosed δ = true

theorem pairsClosed_trans {a b c : St} (h₁ : PairsClosed a b)
    (h₂ : PairsClosed b c) : PairsClosed a c := by
  obtain ⟨δ₁, e₁, p₁⟩ := h₁
  obtain ⟨δ₂, e₂, p₂⟩ := h₂
  exact ⟨δ₁ ++ δ₂, by rw [e₂, e₁, List.append_assoc],
    stepsClosed_append p₁ p₂⟩

@[simp] theorem logPairs_addLog (depId : Nat) (step status message : String)
    (st : St) :
    logPairs (addLog depId step status message st) =
      logPairs st ++ [(step, status)] := by
  simp [logPairs, pairsOf, addLog, createDeploymentLog]

@[simp] theorem logPairs_updDep (depId : Nat) (u : DeploymentUpdates)
    (st : St) : logPairs (updDep depId u st) = logPairs st := by
  unfold logPairs updDep
  rw [updateDeployment_logs]

theorem logPairs_ghV1_of_eq {tag : GHCall} {r : GHResult α} {st : St}
    {out : StepOut (Option α)} (h : ghCallV1 tag r st = out) :
    logPairs out.st = logPairs st := by
  rw [← h]
  unfold logPairs
  rw [ghCallV1_st_store]

theorem logPairs_lookupFork_of_eq {env : DeployEnv} {st : St}
    {fork : Option RepoInfo} {st' : St} (h : lookupFork env st = (fork, st')) :
    logPairs st' = logPairs st := by
  have h2 := lookupFork_snd env st
  rw [h] at h2
  simp only at h2
  rw [h2]
  unfold logPairs
  rw [ghCallV1_st_store]

theorem stepInit_ok_closed {env : DeployEnv} {depId : Nat} {st : St}
    {u : GHUser} {st' : St} (h : stepInit env depId st = .ok u st') :
    PairsClosed st st' := by
  unfold stepInit at h
  dsimp only at h
  split at h
  next m2 s2 heq2 => cases h
  next s2 heq2 => cases h
  next u2 s2 heq2 =>
    cases h
    refine ⟨[("init", "running"), ("init", "success")], ?_, by decide⟩
    have h2 : logPairs s2 = logPairs st ++ [("init", "running")] := by
      have h3 := logPairs_ghV1_of_eq heq2
      simpa using h3
    rw [logPairs_addLog, h2, List.append_assoc]
    rfl

theorem stepFork_ok_closed {env : DeployEnv} {depId : Nat} {st : St}
    {f : Option RepoInfo} {st' : St} (h : stepFork env depId st = .ok f st') :
    PairsClosed st st' := by
  unfold stepFork at h
  dsimp only at h
  split at h
  next f2 s2 heq2 =>
    cases h
    refine ⟨[("fork", "running"), ("fork", "success")], ?_, by decide⟩
    have h2 : logPairs s2 = logPairs st ++ [("fork", "running")] := by
      have h3 := logPairs_lookupFork_of_eq heq2
      simpa using h3
    rw [logPairs_addLog, h2, List.append_assoc]
    rfl
  next s2 heq2 =>
    have h2 : logPairs s2 = logPairs st ++ [("fork", "running")] := by
      have h3 := logPairs_lookupFork_of_eq heq2
      simpa using h3
    split at h
    next m3 s3 heq3 => cases h
    next v3 s3 heq3 =>
      cases h
      refine ⟨[("fork", "running"), ("fork", "running"), ("fork", "success")],
        ?_, by decide⟩
      have h4 : logPairs s3 =
          logPairs st ++ [("fork", "running"), ("fork", "running")] := by
        have h5 := logPairs_ghV1_of_eq heq3
        simp only [StepOut.st_ok] at h5
        rw [h5, logPairs_addLog, h2, List.append_assoc]
        rfl
      rw [logPairs_addLog, h4, List.append_assoc]
      rfl

theorem stepBranch_ok_closed {env : DeployEnv} {depId : Nat} {branch : String}
    {st : St} {v : Unit} {st' : St}
    (h : stepBranch env depId branch st = .ok v st') :
    PairsClosed st st' := by
  unfold stepBranch at h
  dsimp only at h
  split at h
  next m2 s2 heq2 => cases h
  next r s2 heq2 => cases h
  next s2 heq2 =>
    have h2 : logPairs s2 = logPairs st ++ [("branch", "running")] := by
      have h3 := logPairs_ghV1_of_eq heq2
      simpa using h3
    split at h
    next m3 s3 heq3 => cases h
    next s3 heq3 => cases h
    next r3 s3 heq3 =>
      have h4 : logPairs s3 = logPairs st ++ [("branch", "running")] := by
        have h5 := logPairs_ghV1_of_eq heq3
        simp only [StepOut.st_ok] at h5
        rw [h5, h2]
      split at h
      next m4 s4 heq4 => cases h
      next v4 s4 heq4 =>
        cases h
        refine ⟨[("branch", "running"), ("branch", "success")], ?_, by decide⟩
        have h6 : logPairs s4 = logPairs st ++ [("branch", "running")] := by
          have h7 := logPairs_ghV1_of_eq heq4
          simp only [StepOut.st_ok] at h7
          rw [h7, h4]
        rw [logPairs_addLog, h6, List.append_assoc]
        rfl

theorem stepConfig_ok_closed {env : DeployEnv} {depId : Nat} {st : St}
    {v : Unit} {st' : St} (h : stepConfig env depId st = .ok v st') :
    PairsClosed st st' := by
  unfold stepConfig at h
  dsimp only at h
  split at h
  next m2 s2 heq2 => cases h
  next v2 s2 heq2 =>
    cases h
    refine ⟨[("config", "running"), ("config", "success")], ?_, by decide⟩
    have h2 : logPairs s2 = logPairs st ++ [("config", "running")] := by
      have h3 := logPairs_ghV1_of_eq heq2
      simp only [StepOut.st_ok] at h3
      rw [h3]
      unfold logPairs
      rw [ghCallV1_st_store]
      exact logPairs_addLog depId "config" "running"
        "Updating configuration file..." st
    rw [logPairs_addLog]
    unfold logPairs
    rw [ghCallV1_st_store, ghCallV1_st_store]
    have h8 : pairsOf s2.store.deploymentLogs = logPairs s2 := rfl
    rw [h8, h2, List.append_assoc]
    rfl

theorem stepWorkflow_ok_closed {env : DeployEnv} {depId : Nat} {st : St}
    {v : Unit} {st' : St} (h : stepWorkflow env depId st = .ok v st') :
    PairsClosed st st' := by
  unfold stepWorkflow at h
  dsimp only at h
  split at h
  next m2 s2 heq2 => cases h
  next v2 s2 heq2 =>
    cases h
    refine ⟨[("workflow", "running"), ("workflow", "success")], ?_, by decide⟩
    have h2 : logPairs s2 = logPairs st ++ [("workflow", "running")] := by
      have h3 := logPairs_ghV1_of_eq heq2
      simpa using h3
    rw [logPairs_addLog, h2, List.append_assoc]
    rfl

theorem stepDispatch_ok_closed {env : DeployEnv} {depId : Nat} {st : St}
    {v : Unit} {st' : St} (h : stepDispatch env depId st = .ok v st') :
    PairsClosed st st' := by
  unfold stepDispatch at h
  dsimp only at h
  split at h
  next v2 s2 heq2 =>
    cases h
    refine ⟨[("deploy", "running"), ("deploy", "success")], ?_, by decide⟩
    have h2 : logPairs s2 = logPairs st ++ [("deploy", "running")] := by
      have h3 := logPairs_ghV1_of_eq heq2
      simpa using h3
    rw [logPairs_addLog, logPairs_updDep, h2, List.append_assoc]
    rfl
  next dm s2 heq2 =>
    have h2 : logPairs s2 = logPairs st ++ [("deploy", "running")] := by
      have h3 := logPairs_ghV1_of_eq heq2
      simpa using h3
    split at h
    next m3 s3 heq3 => cases h
    next s3 heq3 =>
      cases h
      refine ⟨[("deploy", "running"), ("deploy", "failed")], ?_, by decide⟩
      have h4 := logPairs_ghV1_of_eq heq3
      simp only [StepOut.st_ok] at h4
      rw [h4, logPairs_addLog, h2, List.append_assoc]
      rfl
    next r3 s3 heq3 =>
      have h4 : logPairs s3 =
          logPairs st ++ [("deploy", "running"), ("deploy", "failed")] := by
        have h5 := logPairs_ghV1_of_eq heq3
        simp only [StepOut.st_ok] at h5
        rw [h5, logPairs_addLog, h2, List.append_assoc]
        rfl
      split at h
      next m4 s4 heq4 => cases h
      next v4 s4 heq4 =>
        cases h
        refine ⟨[("deploy", "running"), ("deploy", "failed"),
          ("deploy", "success")], ?_, by decide⟩
        have h6 : logPairs s4 =
            logPairs st ++ [("deploy", "running"), ("deploy", "failed")] := by
          have h7 := logPairs_ghV1_of_eq heq4
          simp only [StepOut.st_ok] at h7
          rw [h7, h4]
        rw [logPairs_addLog, logPairs_updDep, h6, List.append_assoc]
        rfl

/-- A first-variant body run that completes without throwing leaves every
`running` row resolved by a later terminal row of the same step. -/
theorem deployBodyV1_ok_closed {env : DeployEnv} {branchReq : Option String}
    {depId : Nat} {st : St} {resp : DeployResponse} {st' : St}
    (h : deployBodyV1 env branchReq depId st = .ok resp st') :
    PairsClosed st st' := by
  unfold deployBodyV1 at h
  dsimp only at h
  split at h
  next m2 s2 heq2 => cases h
  next user s2 heq2 =>
    split at h
    next m3 s3 heq3 => cases h
    next fork s3 heq3 =>
      split at h
      next m4 s4 heq4 => cases h
      next v4 s4 heq4 =>
        split at h
        next m5 s5 heq5 => cases h
        next v5 s5 heq5 =>
          split at h
          next m6 s6 heq6 => cases h
          next v6 s6 heq6 =>
            split at h
            next m7 s7 heq7 => cases h
            next v7 s7 heq7 =>
              cases h
              refine pairsClosed_trans (stepInit_ok_closed heq2)
                (pairsClosed_trans (stepFork_ok_closed heq3)
                  (pairsClosed_trans (stepBranch_ok_closed heq4)
                    (pairsClosed_trans (stepConfig_ok_closed heq5)
                      (pairsClosed_trans (stepWorkflow_ok_closed heq6)
                        (pairsClosed_trans (stepDispatch_ok_closed heq7) ?_)))))
              exact ⟨[], by rw [logPairs_updDep, List.append_nil], by decide⟩

/-- C4 (amended): every log row a POST /api/deploy request appends belongs to
the fresh deployment and has a status from the variant's set — `running`,
`success`, `failed` in the routes.ts variant, additionally `warning` and
`info` in the part_001 variant — and in the routes.ts variant every `running`
row is resolved by a later terminal (`success`/`failed`/`warning`) row of the
same step or by the catch block's `error`/`failed` row. -/
theorem deploy_log_statuses (env : DeployEnv) (req : DeployRequest)
    (sess : SessionData) (s₀ : StorageState) :
    (∃ δ, (deployHandlerV1 env req sess s₀).store.deploymentLogs =
        s₀.deploymentLogs ++ δ ∧
      (∀ e ∈ δ, e.deploymentId = s₀.nextId ∧ e.status ∈ statusesV1) ∧
      stepsClosed (pairsOf δ) = true) ∧
    (∃ δ, (deployHandlerV2 env req sess s₀).store.deploymentLogs =
        s₀.deploymentLogs ++ δ ∧
      ∀ e ∈ δ, e.deploymentId = s₀.nextId ∧ e.status ∈ statusesV2) := by
  refine ⟨?_, (deployHandlerV2_frame env req sess s₀).1⟩
  unfold deployHandlerV1
  by_cases hsid : req.sessionId = ""
  · rw [if_pos hsid]
    exact ⟨[], by simp, by simp, by decide⟩
  · rw [if_neg hsid]
    cases htok : jsStrOrNull sess.githubToken with
    | none => exact ⟨[], by simp, by simp, by decide⟩
    | some tok =>
      cases husr : jsStrOrNull sess.githubUsername with
      | none => exact ⟨[], by simp, by simp, by decide⟩
      | some usr =>
        dsimp only
        split
        next resp stf heq =>
          have hb' := rel_cast _ (deployBodyV1_frame env req.branchName _ _) heq
          obtain ⟨δ, h1, h2⟩ := hb'.1
          simp only [StepOut.st_ok, createDeployment_logs,
            createDeployment_fst_id] at h1 h2
          obtain ⟨δp, hp1, hp2⟩ := deployBodyV1_ok_closed heq
          simp only [logPairs, createDeployment_logs] at hp1
          rw [h1, pairsOf_append] at hp1
          have hδp : pairsOf δ = δp := List.append_cancel_left hp1
          exact ⟨δ, h1, h2, by rw [hδp]; exact hp2⟩
        next m stf heq =>
          have hb' := rel_cast _ (deployBodyV1_frame env req.branchName _ _) heq
          obtain ⟨δ, h1, h2⟩ := hb'.1
          simp only [StepOut.st_thrown, createDeployment_logs,
            createDeployment_fst_id] at h1 h2
          have hc := deployCatch_frame s₀.nextId m stf s₀ δ h1
          refine ⟨δ ++ [_], hc.1, ?_, ?_⟩
          · intro e he
            rcases List.mem_append.mp he with h | h
            · exact ⟨(h2 e h).1, (h2 e h).2⟩
            · rw [List.mem_singleton] at h
              subst h
              exact ⟨rfl, by simp [statusesV1, createDeploymentLog]⟩
          · rw [pairsOf_append]
            exact stepsClosed_with_error (pairsOf δ)

/-! ## Concrete runs for the log-status claim -/

/-- Environment in which every HTTP call comes back (2xx or 404) and the
main-branch ref lookup is a 404, so the `branch` step dereferences a null
body. -/
def envBranchNull : DeployEnv :=
  { userResp := .ok ⟨"alice"⟩
    forkGet := .ok ⟨true, "XYLO-MD/XYLO-MD"⟩
    forkPost := .ok ⟨true, "XYLO-MD/XYLO-MD"⟩
    actionsGet1 := .ok ⟨true⟩
    actionsGet2 := .ok ⟨true⟩
    actionsPut := .ok ()
    branchGet := .notFound
    mainRefGet := .notFound
    refsPost := .ok ()
    configGet := .notFound
    configPut := .ok ()
    envGet := .notFound
    envPut := .ok ()
    workflowShaGet := .notFound
    workflowPut := .ok ()
    repoInfoGet := .ok ⟨true, "XYLO-MD/XYLO-MD"⟩
    actionsGet3 := .ok ⟨true⟩
    dispatchPost := .ok ()
    workflowCheckGet := .ok ⟨"s", "c"⟩
    dispatchRetryPost := .ok ()
    randFrac := ['0', '.', 'a', 'b', 'c', '1', '2', '3'] }

/-- Environment in which every call succeeds against an existing fork, so the
part_001 run completes and logs the `fork-info`/`info` row. -/
def envForkInfo : DeployEnv :=
  { envBranchNull with mainRefGet := .ok ⟨"mainsha"⟩ }

/-- Deploy request with no branch name. -/
def reqPlain : DeployRequest := { sessionId := "abc123", branchName := none }

/-- Authenticated session. -/
def sessAuth : SessionData :=
  { githubToken := some "tok", githubUsername := some "alice" }

/-- Empty starting store. -/
def storeEmpty : StorageState :=
  { deployments := [], deploymentLogs := [], nextId := 0, now := 0 }

/-- C4 (counterexample): in an environment where every HTTP call comes back,
the routes.ts run leaves the `branch` step's `running` row with no later
terminal row of the same step (the null main-ref body throws a TypeError, and
only the generic `error`/`failed` row follows), refuting the per-step
terminal property; and the part_001 run appends a `fork-info` row with status
`info`, outside the claimed status set. -/
theorem deploy_log_status_counterexample :
    envBranchNull.allReturn = true ∧
    stepsClosedStrict (pairsOf
      (deployHandlerV1 envBranchNull reqPlain sessAuth
        storeEmpty).store.deploymentLogs) = false ∧
    (pairsOf (deployHandlerV1 envBranchNull reqPlain sessAuth
        storeEmpty).store.deploymentLogs).contains ("branch", "running") = true ∧
    ((deployHandlerV2 envForkInfo reqPlain sessAuth
        storeEmpty).store.deploymentLogs.any
      (fun e => e.status == "info")) = true ∧
    "info" ∉ claimedStatuses := by
  refine ⟨by decide, by decide, by decide, by decide, by decide⟩

/-! ## Generated branch names and the dispatch-success deployment row -/

/-- Lowercase base-36 digit, the alphabet of `Number.toString(36)`. -/
def base36Char (c : Char) : Bool :=
  ('a' ≤ c && c ≤ 'z') || ('0' ≤ c && c ≤ '9')

/-- The pattern xylo-[a-z0-9]{6}: the prefix followed by exactly six
lowercase base-36 characters. -/
def xyloPattern (s : String) : Bool :=
  match s.data with
  | 'x' :: 'y' :: 'l' :: 'o' :: '-' :: rest =>
      (rest.length == 6) && rest.all base36Char
  | _ => false

theorem jsGenBranch_data (randFrac : List Char) :
    (jsGenBranch randFrac).data =
      'x' :: 'y' :: 'l' :: 'o' :: '-' :: ((randFrac.drop 2).take 6) := rfl

theorem jsGenBranch_suffix_le (randFrac : List Char) :
    ((randFrac.drop 2).take 6).length ≤ 6 := by
  rw [List.length_take]
  exact min_le_left 6 _

theorem jsGenBranch_suffix_len (randFrac : List Char)
    (h : 8 ≤ randFrac.length) : ((randFrac.drop 2).take 6).length = 6 := by
  rw [List.length_take, List.length_drop]
  omega

theorem xyloPattern_cons (rest : List Char) :
    xyloPattern (String.mk ('x' :: 'y' :: 'l' :: 'o' :: '-' :: rest)) =
      ((rest.length == 6) && rest.all base36Char) := rfl

theorem jsGenBranch_pattern (randFrac : List Char)
    (hlen : 8 ≤ randFrac.length)
    (hdig : ∀ c ∈ randFrac.drop 2, base36Char c = true) :
    xyloPattern (jsGenBranch randFrac) = true := by
  unfold jsGenBranch
  rw [xyloPattern_cons]
  rw [Bool.and_eq_true]
  constructor
  · rw [beq_iff_eq]
    exact jsGenBranch_suffix_len randFrac hlen
  · rw [List.all_eq_true]
    intro c hc
    exact hdig c (List.take_subset 6 _ hc)

/-- With no requested name (or a whitespace-only one), the final branch is
the generated one. -/
theorem finalBranch_generated (branchName : Option String)
    (randFrac : List Char)
    (h : branchName = none ∨ ∃ b, branchName = some b ∧ b.trim = "") :
    finalBranch branchName randFrac = jsGenBranch randFrac := by
  rcases h with h | ⟨b, hb, ht⟩
  · rw [h]; rfl
  · rw [hb]
    show (if b.trim = "" then jsGenBranch randFrac else b.trim) =
      jsGenBranch randFrac
    rw [if_pos ht]

/-- The deployment list itself is untouched (stronger than id preservation). -/
def DepsEq : St → St → Prop := fun st st' =>
  st'.store.deployments = st.store.deployments

theorem depsEq_trans : Transitive DepsEq := by
  intro a b c h1 h2
  exact h2.trans h1

theorem depsEq_addLog (depId : Nat) (step status msg : String) (st : St) :
    DepsEq st (addLog depId step status msg st) :=
  addLog_deployments depId step status msg st

theorem depsEq_ghV1 (α : Type) (tag : GHCall) (r : GHResult α) (st : St) :
    DepsEq st (ghCallV1 tag r st).st :=
  congrArg StorageState.deployments (ghCallV1_st_store tag r st)

theorem getDeployment_congr {s s' : StorageState}
    (h : s'.deployments = s.deployments) (id : Nat) :
    getDeployment s' id = getDeployment s id := by
  unfold getDeployment
  rw [h]

/-- Steps 1-5 of the routes.ts body leave the deployment list untouched. -/
theorem stepInit_depsEq (env : DeployEnv) (depId : Nat) (st : St) :
    DepsEq st (stepInit env depId st).st :=
  stepInit_rel depsEq_trans
    (fun st step status msg _ => depsEq_addLog depId step status msg st)
    (fun α r st => depsEq_ghV1 α .getUser r st) env st

theorem stepFork_depsEq (env : DeployEnv) (depId : Nat) (st : St) :
    DepsEq st (stepFork env depId st).st :=
  stepFork_rel depsEq_trans
    (fun st step status msg _ => depsEq_addLog depId step status msg st)
    (fun α tag r st _ => depsEq_ghV1 α tag r st) env st

theorem stepBranch_depsEq (env : DeployEnv) (depId : Nat) (branch : String)
    (st : St) : DepsEq st (stepBranch env depId branch st).st :=
  stepBranch_rel depsEq_trans
    (fun st step status msg _ => depsEq_addLog depId step status msg st)
    (fun α tag r st _ => depsEq_ghV1 α tag r st) env branch st

theorem stepConfig_depsEq (env : DeployEnv) (depId : Nat) (st : St) :
    DepsEq st (stepConfig env depId st).st :=
  stepConfig_rel depsEq_trans
    (fun st step status msg _ => depsEq_addLog depId step status msg st)
    (fun α tag r st _ => depsEq_ghV1 α tag r st) env st

theorem stepWorkflow_depsEq (env : DeployEnv) (depId : Nat) (st : St) :
    DepsEq st (stepWorkflow env depId st).st :=
  stepWorkflow_rel depsEq_trans
    (fun st step status msg _ => depsEq_addLog depId step status msg st)
    (fun α r st => depsEq_ghV1 α .putWorkflow r st) env st

/-- A successful init step reveals the user response. -/
theorem stepInit_ok_inv {env : DeployEnv} {depId : Nat} {st : St}
    {u : GHUser} {st' : St} (h : stepInit env depId st = .ok u st') :
    env.userResp = .ok u := by
  unfold stepInit at h
  dsimp only at h
  split at h
  next m2 s2 heq2 => cases h
  next s2 heq2 => cases h
  next u2 s2 heq2 =>
    cases h
    cases henv : env.userResp with
    | ok v =>
        rw [henv] at heq2
        unfold ghCallV1 makeGitHubRequest at heq2
        dsimp only at heq2
        cases heq2
        rfl
    | notFound =>
        rw [henv] at heq2
        unfold ghCallV1 makeGitHubRequest at heq2
        dsimp only at heq2
        cases heq2
    | err gh tm =>
        rw [henv] at heq2
        unfold ghCallV1 makeGitHubRequest at heq2
        dsimp only at heq2
        cases heq2

theorem getDeployment_addLog (depId2 : Nat) (step status msg : String)
    (st : St) (id : Nat) :
    getDeployment (addLog depId2 step status msg st).store id =
      getDeployment st.store id :=
  getDeployment_congr (addLog_deployments depId2 step status msg st) id

/-- A dispatch step that completes normally leaves the deployment `running`:
either the dispatch (or its retry) succeeded and wrote status `running`, or
the null workflow re-check fell through leaving the row untouched. -/
theorem stepDispatch_ok_running {env : DeployEnv} {depId : Nat} {st : St}
    {v : Unit} {st' : St} (h : stepDispatch env depId st = .ok v st')
    {d : Deployment} (hd : getDeployment st.store depId = some d)
    (hs : d.status = "running") :
    ∃ d', getDeployment st'.store depId = some d' ∧ d'.status = "running" := by
  unfold stepDispatch at h
  dsimp only at h
  split at h
  next v2 s2 heq2 =>
    cases h
    have hst2 := (ghCallV1_out_st heq2).2
    simp only [StepOut.st_ok] at hst2
    have h2 : getDeployment s2.store depId = some d := by
      rw [hst2, getDeployment_addLog]
      exact hd
    have h3 := (getDeployment_update s2.store depId updRunning d h2).2
    refine ⟨applyUpdates d updRunning s2.store.now, ?_, rfl⟩
    rw [getDeployment_addLog]
    exact h3
  next dm s2 heq2 =>
    have hst2 := (ghCallV1_out_st heq2).2
    simp only [StepOut.st_thrown] at hst2
    have h2 : getDeployment s2.store depId = some d := by
      rw [hst2, getDeployment_addLog]
      exact hd
    split at h
    next m3 s3 heq3 => cases h
    next s3 heq3 =>
      cases h
      refine ⟨d, ?_, hs⟩
      have hst3 := (ghCallV1_out_st heq3).2
      simp only [StepOut.st_ok] at hst3
      rw [hst3, getDeployment_addLog]
      exact h2
    next r3 s3 heq3 =>
      have hst3 := (ghCallV1_out_st heq3).2
      simp only [StepOut.st_ok] at hst3
      have h4 : getDeployment s3.store depId = some d := by
        rw [hst3, getDeployment_addLog]
        exact h2
      split at h
      next m4 s4 heq4 => cases h
      next v4 s4 heq4 =>
        cases h
        have hst4 := (ghCallV1_out_st heq4).2
        simp only [StepOut.st_ok] at hst4
        have h5 : getDeployment s4.store depId = some d := by
          rw [hst4]
          exact h4
        have h6 := (getDeployment_update s4.store depId updRunningRetry d h5).2
        refine ⟨applyUpdates d updRunningRetry s4.store.now, ?_, rfl⟩
        rw [getDeployment_addLog]
        exact h6

/-- A routes.ts body run that completes without throwing answers the success
response for the computed branch, and leaves the deployment row `running`
with that branch name and the actions workflowUrl recorded. -/
theorem deployBodyV1_ok_running {env : DeployEnv} {branchReq : Option String}
    {depId : Nat} {st : St} {resp : DeployResponse} {st' : St}
    (h : deployBodyV1 env branchReq depId st = .ok resp st')
    {d : Deployment} (hd : getDeployment st.store depId = some d)
    (hs : d.status = "running") :
    ∃ u : GHUser, env.userResp = .ok u ∧
      resp = .success depId (finalBranch branchReq env.randFrac)
        ("https://github.com/" ++ u.login ++ "/" ++ REPO_NAME ++ "/actions") ∧
      ∃ d', getDeployment st'.store depId = some d' ∧
        d'.status = "running" ∧
        d'.branchName = some (finalBranch branchReq env.randFrac) ∧
        d'.workflowUrl = some ("https://github.com/" ++ u.login ++ "/" ++
          REPO_NAME ++ "/actions") := by
  unfold deployBodyV1 at h
  dsimp only at h
  split at h
  next m2 s2 heq2 => cases h
  next user s2 heq2 =>
    have hd2 : getDeployment s2.store depId = some d := by
      have hD : DepsEq st s2 := rel_cast _ (stepInit_depsEq env depId st) heq2
      rw [getDeployment_congr hD]
      exact hd
    split at h
    next m3 s3 heq3 => cases h
    next fork s3 heq3 =>
      have hd3 : getDeployment s3.store depId = some d := by
        have hD : DepsEq s2 s3 := rel_cast _ (stepFork_depsEq env depId s2) heq3
        rw [getDeployment_congr hD]
        exact hd2
      split at h
      next m4 s4 heq4 => cases h
      next v4 s4 heq4 =>
        have hd4 : getDeployment s4.store depId = some d := by
          have hD : DepsEq s3 s4 :=
            rel_cast _ (stepBranch_depsEq env depId _ s3) heq4
          rw [getDeployment_congr hD]
          exact hd3
        split at h
        next m5 s5 heq5 => cases h
        next v5 s5 heq5 =>
          have hd5 : getDeployment s5.store depId = some d := by
            have hD : DepsEq s4 s5 :=
              rel_cast _ (stepConfig_depsEq env depId s4) heq5
            rw [getDeployment_congr hD]
            exact hd4
          split at h
          next m6 s6 heq6 => cases h
          next v6 s6 heq6 =>
            have hd6 : getDeployment s6.store depId = some d := by
              have hD : DepsEq s5 s6 :=
                rel_cast _ (stepWorkflow_depsEq env depId s5) heq6
              rw [getDeployment_congr hD]
              exact hd5
            split at h
            next m7 s7 heq7 => cases h
            next v7 s7 heq7 =>
              obtain ⟨d7, hd7, hs7⟩ :=
                stepDispatch_ok_running heq7 hd6 hs
              cases h
              refine ⟨user, stepInit_ok_inv heq2, rfl, ?_⟩
              have h8 := (getDeployment_update s7.store depId
                (updFinal (finalBranch branchReq env.randFrac)
                  ("https://github.com/" ++ user.login ++ "/" ++ REPO_NAME ++
                    "/actions")) d7 hd7).2
              refine ⟨_, h8, ?_, rfl, rfl⟩
              show Option.getD none d7.status = "running"
              simpa using hs7

theorem getDeployment_create (s₀ : StorageState) (ins : InsertDeployment)
    (hfresh : ∀ d ∈ s₀.deployments, d.id ≠ s₀.nextId) :
    getDeployment (createDeployment s₀ ins).2 s₀.nextId =
      some (createDeployment s₀ ins).1 := by
  unfold getDeployment
  rw [createDeployment_deployments, List.find?_append]
  have h1 : s₀.deployments.find? (fun d => d.id == s₀.nextId) = none := by
    rw [List.find?_eq_none]
    intro d hd
    simpa using hfresh d hd
  rw [h1, Option.none_or]
  rw [List.find?_cons_of_pos _ (by simp)]

/-- C7 (amended): with a non-empty sessionId, an authenticated session and no
(or whitespace-only) requested branch name, a successful deploy response
carries the generated branch `xylo-` followed by the first six characters of
the random fraction — at most six characters, and exactly six matching
xylo-[a-z0-9]\x7b6\x7d only when `Math.random().toString(36)` produced at
least eight characters of base-36 fraction — and the deployment row ends
with status `running`, the generated branch name, and the actions
workflowUrl. -/
theorem deploy_generated_branch (env : DeployEnv) (req : DeployRequest)
    (sess : SessionData) (s₀ : StorageState) (tok usr : String)
    (depId : Nat) (branch url : String)
    (hsid : ¬req.sessionId = "")
    (htok : jsStrOrNull sess.githubToken = some tok)
    (husr : jsStrOrNull sess.githubUsername = some usr)
    (hbr : req.branchName = none ∨ ∃ b, req.branchName = some b ∧ b.trim = "")
    (hfresh : ∀ d ∈ s₀.deployments, d.id ≠ s₀.nextId)
    (hok : (deployHandlerV1 env req sess s₀).response =
      .success depId branch url) :
    branch = jsGenBranch env.randFrac ∧
    branch.data = 'x' :: 'y' :: 'l' :: 'o' :: '-' ::
      ((env.randFrac.drop 2).take 6) ∧
    ((env.randFrac.drop 2).take 6).length ≤ 6 ∧
    ((8 ≤ env.randFrac.length ∧
        ∀ c ∈ env.randFrac.drop 2, base36Char c = true) →
      xyloPattern branch = true) ∧
    (∃ login, url = "https://github.com/" ++ login ++ "/" ++ REPO_NAME ++
      "/actions") ∧
    ∃ d', getDeployment (deployHandlerV1 env req sess s₀).store depId =
        some d' ∧
      d'.status = "running" ∧ d'.branchName = some branch ∧
      d'.workflowUrl = some url := by
  have hrw := deployHandlerV1_eq env req sess s₀ tok usr hsid htok husr
  cases hbody : deployBodyV1 env req.branchName s₀.nextId
      (initialSt s₀ (insertOfReqV1 req usr)) with
  | thrown m stf =>
      rw [hbody] at hrw
      rw [hrw] at hok
      have hcontra : DeployResponse.failure m =
          DeployResponse.success depId branch url := hok
      cases hcontra
  | ok resp stf =>
      rw [hbody] at hrw
      rw [hrw] at hok
      have hre : resp = .success depId branch url := hok
      have hd0 : getDeployment
          (initialSt s₀ (insertOfReqV1 req usr)).store s₀.nextId =
          some (createDeployment s₀ (insertOfReqV1 req usr)).1 :=
        getDeployment_create s₀ (insertOfReqV1 req usr) hfresh
      have hst0 : (createDeployment s₀ (insertOfReqV1 req usr)).1.status =
          "running" := by
        show jsOrDefault (some "running") "pending" = "running"
        decide
      obtain ⟨u, huser, hresp, d', hd', hs', hb', hw'⟩ :=
        deployBodyV1_ok_running hbody hd0 hst0
      rw [hre] at hresp
      cases hresp
      have hgen : finalBranch req.branchName env.randFrac =
          jsGenBranch env.randFrac := finalBranch_generated _ _ hbr
      refine ⟨hgen, ?_, jsGenBranch_suffix_le env.randFrac, ?_, ⟨u.login, ?_⟩, ?_⟩
      · rw [hgen, jsGenBranch_data]
      · intro ⟨hlen, hdig⟩
        rw [hgen]
        exact jsGenBranch_pattern env.randFrac hlen hdig
      · rfl
      · rw [hrw]
        exact ⟨d', hd', hs', hb', hw'⟩

/-- Environment identical to `envForkInfo` except that `Math.random()` came
out as 0.5, whose base-36 rendering is the three-character string "0.i". -/
def envShortRand : DeployEnv := { envForkInfo with randFrac := ['0', '.', 'i'] }

/-- C7 (counterexample): with `Math.random() = 0.5`,
`Math.random().toString(36).substring(2, 8)` is just "i", so the success
response's generated branch is `xylo-i`, which does not match
xylo-[a-z0-9]\x7b6\x7d. -/
theorem generated_branch_counterexample :
    (deployHandlerV1 envShortRand reqPlain sessAuth storeEmpty).response =
      .success 0 "xylo-i" "https://github.com/alice/XYLO-MD/actions" ∧
    xyloPattern "xylo-i" = false := by
  exact ⟨by decide, by decide⟩

/-- Witness: the amended generated-branch theorem applied to a concrete run
whose random fraction has eight characters. -/
theorem deploy_generated_branch_witness :
    ((deployHandlerV1 envForkInfo reqPlain sessAuth storeEmpty).response =
      .success 0 "xylo-abc123" "https://github.com/alice/XYLO-MD/actions") ∧
    ("xylo-abc123" = jsGenBranch envForkInfo.randFrac ∧
     ("xylo-abc123" : String).data = 'x' :: 'y' :: 'l' :: 'o' :: '-' ::
       ((envForkInfo.randFrac.drop 2).take 6) ∧
     ((envForkInfo.randFrac.drop 2).take 6).length ≤ 6 ∧
     ((8 ≤ envForkInfo.randFrac.length ∧
         ∀ c ∈ envForkInfo.randFrac.drop 2, base36Char c = true) →
       xyloPattern "xylo-abc123" = true) ∧
     (∃ login, "https://github.com/alice/XYLO-MD/actions" =
       "https://github.com/" ++ login ++ "/" ++ REPO_NAME ++ "/actions") ∧
     ∃ d', getDeployment (deployHandlerV1 envForkInfo reqPlain sessAuth
         storeEmpty).store 0 = some d' ∧
       d'.status = "running" ∧ d'.branchName = some "xylo-abc123" ∧
       d'.workflowUrl = some "https://github.com/alice/XYLO-MD/actions") :=
  ⟨by decide,
   deploy_generated_branch envForkInfo reqPlain sessAuth storeEmpty
     "tok" "alice" 0 "xylo-abc123" "https://github.com/alice/XYLO-MD/actions"
     (by decide) (by decide) (by decide) (Or.inl rfl)
     (by intro d hd; cases hd) (by decide)⟩

/-! ## Referential integrity of the record store -/

/-- Every log row references a deployment present in the store. -/
def StoreInv (s : StorageState) : Prop :=
  ∀ e ∈ s.deploymentLogs, ∃ d ∈ s.deployments, d.id = e.deploymentId

theorem mem_map_of_eq {l l' : List Deployment} {extra : List Nat}
    (h : l'.map (fun d => d.id) = l.map (fun d => d.id) ++ extra)
    {x : Nat} (hx : ∃ d ∈ l, d.id = x) : ∃ d' ∈ l', d'.id = x := by
  obtain ⟨d, hd, hid⟩ := hx
  have hmem : x ∈ l'.map (fun d => d.id) := by
    rw [h]
    exact List.mem_append.mpr (Or.inl (List.mem_map.mpr ⟨d, hd, hid⟩))
  obtain ⟨d', hd', hid'⟩ := List.mem_map.mp hmem
  exact ⟨d', hd', hid'⟩

/-- Either the request was rejected before touching the store, or the store
gained exactly the fresh deployment id. -/
theorem deployHandlerV1_store_cases (env : DeployEnv) (req : DeployRequest)
    (sess : SessionData) (s₀ : StorageState) :
    (deployHandlerV1 env req sess s₀).store = s₀ ∨
    (deployHandlerV1 env req sess s₀).store.deployments.map (fun d => d.id) =
      s₀.deployments.map (fun d => d.id) ++ [s₀.nextId] := by
  unfold deployHandlerV1
  by_cases hsid : req.sessionId = ""
  · rw [if_pos hsid]
    exact Or.inl rfl
  · rw [if_neg hsid]
    cases htok : jsStrOrNull sess.githubToken with
    | none => exact Or.inl rfl
    | some tok =>
      cases husr : jsStrOrNull sess.githubUsername with
      | none => exact Or.inl rfl
      | some usr =>
        dsimp only
        split
        next resp stf heq =>
          have hb' := rel_cast _ (deployBodyV1_frame env req.branchName _ _) heq
          have hbI := hb'.2
          simp only [StepOut.st_ok, createDeployment_deployments,
            createDeployment_fst_id, List.map_append, List.map_cons,
            List.map_nil] at hbI
          exact Or.inr hbI
        next m stf heq =>
          have hb' := rel_cast _ (deployBodyV1_frame env req.branchName _ _) heq
          have hbI := hb'.2
          obtain ⟨δ, h1, h2⟩ := hb'.1
          simp only [StepOut.st_thrown, createDeployment_deployments,
            createDeployment_fst_id, createDeployment_logs, List.map_append,
            List.map_cons, List.map_nil] at hbI h1
          have hc := deployCatch_frame s₀.nextId m stf s₀ δ h1
          exact Or.inr (by simp only [createDeployment_fst_id]; rw [hc.2, hbI])

theorem deployHandlerV2_store_cases (env : DeployEnv) (req : DeployRequest)
    (sess : SessionData) (s₀ : StorageState) :
    (deployHandlerV2 env req sess s₀).store = s₀ ∨
    (deployHandlerV2 env req sess s₀).store.deployments.map (fun d => d.id) =
      s₀.deployments.map (fun d => d.id) ++ [s₀.nextId] := by
  unfold deployHandlerV2
  by_cases hsid : req.sessionId = ""
  · rw [if_pos hsid]
    exact Or.inl rfl
  · rw [if_neg hsid]
    cases htok : jsStrOrNull sess.githubToken with
    | none => exact Or.inl rfl
    | some tok =>
      cases husr : jsStrOrNull sess.githubUsername with
      | none => exact Or.inl rfl
      | some usr =>
        dsimp only
        split
        next resp stf heq =>
          have hb' := rel_cast _ (deployBodyV2_frame env req.branchName _ _) heq
          have hbI := hb'.2
          simp only [StepOut.st_ok, createDeployment_deployments,
            createDeployment_fst_id, List.map_append, List.map_cons,
            List.map_nil] at hbI
          exact Or.inr hbI
        next m stf heq =>
          have hb' := rel_cast _ (deployBodyV2_frame env req.branchName _ _) heq
          have hbI := hb'.2
          obtain ⟨δ, h1, h2⟩ := hb'.1
          simp only [StepOut.st_thrown, createDeployment_deployments,
            createDeployment_fst_id, createDeployment_logs, List.map_append,
            List.map_cons, List.map_nil] at hbI h1
          have hc := deployCatch_frame s₀.nextId m stf s₀ δ h1
          exact Or.inr (by simp only [createDeployment_fst_id]; rw [hc.2, hbI])

theorem storeInv_of_frame {out : HandlerOut} {s₀ : StorageState}
    (hinv : StoreInv s₀)
    (hlog : ∃ δ, out.store.deploymentLogs = s₀.deploymentLogs ++ δ ∧
      ∀ e ∈ δ, e.deploymentId = s₀.nextId)
    (hcase : out.store = s₀ ∨
      out.store.deployments.map (fun d => d.id) =
        s₀.deployments.map (fun d => d.id) ++ [s₀.nextId]) :
    StoreInv out.store := by
  rcases hcase with h | h
  · rw [h]
    exact hinv
  · obtain ⟨δ, hlogs, hdep⟩ := hlog
    intro e he
    rw [hlogs] at he
    rcases List.mem_append.mp he with he | he
    · exact mem_map_of_eq h (hinv e he)
    · have hmem : s₀.nextId ∈ out.store.deployments.map (fun d => d.id) := by
        rw [h]
        exact List.mem_append.mpr (Or.inr (List.mem_singleton.mpr rfl))
      obtain ⟨d', hd', hid'⟩ := List.mem_map.mp hmem
      refine ⟨d', hd', ?_⟩
      rw [hid', hdep e he]

/-- C8: the storage operations only append — createDeployment appends one
deployment and leaves the logs alone, updateDeployment rewrites one row in
place keeping every deployment id and every log row, createDeploymentLog
appends one log row and leaves the deployments alone — and a POST
/api/deploy request (either variant) preserves referential integrity: in the
resulting store every log row still references an existing deployment, and
no deployment id is ever removed. -/
theorem store_invariants (s : StorageState) (ins : InsertDeployment)
    (insl : InsertDeploymentLog) (id : Nat) (u : DeploymentUpdates)
    (env : DeployEnv) (req : DeployRequest) (sess : SessionData)
    (s₀ : StorageState) (hinv : StoreInv s₀) :
    ((createDeployment s ins).2.deploymentLogs = s.deploymentLogs ∧
     (createDeployment s ins).2.deployments =
       s.deployments ++ [(createDeployment s ins).1]) ∧
    ((updateDeployment s id u).2.deploymentLogs = s.deploymentLogs ∧
     (updateDeployment s id u).2.deployments.map (fun d => d.id) =
       s.deployments.map (fun d => d.id)) ∧
    ((createDeploymentLog s insl).2.deployments = s.deployments ∧
     (createDeploymentLog s insl).2.deploymentLogs =
       s.deploymentLogs ++ [(createDeploymentLog s insl).1]) ∧
    StoreInv (deployHandlerV1 env req sess s₀).store ∧
    StoreInv (deployHandlerV2 env req sess s₀).store ∧
    ((deployHandlerV1 env req sess s₀).store.deployments.map (fun d => d.id) =
        s₀.deployments.map (fun d => d.id) ∨
     (deployHandlerV1 env req sess s₀).store.deployments.map (fun d => d.id) =
        s₀.deployments.map (fun d => d.id) ++ [s₀.nextId]) ∧
    ((deployHandlerV2 env req sess s₀).store.deployments.map (fun d => d.id) =
        s₀.deployments.map (fun d => d.id) ∨
     (deployHandlerV2 env req sess s₀).store.deployments.map (fun d => d.id) =
        s₀.deployments.map (fun d => d.id) ++ [s₀.nextId]) := by
  refine ⟨⟨rfl, rfl⟩, ⟨updateDeployment_logs s id u, updateDeployment_ids s id u⟩,
    ⟨rfl, rfl⟩, ?_, ?_, (deployHandlerV1_frame env req sess s₀).2,
    (deployHandlerV2_frame env req sess s₀).2⟩
  · refine storeInv_of_frame hinv ?_ (deployHandlerV1_store_cases env req sess s₀)
    obtain ⟨δ, h1, h2⟩ := (deployHandlerV1_frame env req sess s₀).1
    exact ⟨δ, h1, fun e he => (h2 e he).1⟩
  · refine storeInv_of_frame hinv ?_ (deployHandlerV2_store_cases env req sess s₀)
    obtain ⟨δ, h1, h2⟩ := (deployHandlerV2_frame env req sess s₀).1
    exact ⟨δ, h1, fun e he => (h2 e he).1⟩

/-- Witness: the store-invariants theorem applied to an empty store and a
concrete successful deploy run. -/
theorem store_invariants_witness :
    StoreInv storeEmpty ∧
    (((createDeployment storeEmpty
          (insertOfReqV1 reqPlain "alice")).2.deploymentLogs =
        storeEmpty.deploymentLogs ∧
      (createDeployment storeEmpty
          (insertOfReqV1 reqPlain "alice")).2.deployments =
        storeEmpty.deployments ++
          [(createDeployment storeEmpty (insertOfReqV1 reqPlain "alice")).1]) ∧
     ((updateDeployment storeEmpty 0 updRunning).2.deploymentLogs =
        storeEmpty.deploymentLogs ∧
      (updateDeployment storeEmpty 0 updRunning).2.deployments.map
          (fun d => d.id) =
        storeEmpty.deployments.map (fun d => d.id)) ∧
     ((createDeploymentLog storeEmpty
          ⟨0, "init", "running", "m"⟩).2.deployments =
        storeEmpty.deployments ∧
      (createDeploymentLog storeEmpty
          ⟨0, "init", "running", "m"⟩).2.deploymentLogs =
        storeEmpty.deploymentLogs ++
          [(createDeploymentLog storeEmpty ⟨0, "init", "running", "m"⟩).1]) ∧
     StoreInv (deployHandlerV1 envForkInfo reqPlain sessAuth storeEmpty).store ∧
     StoreInv (deployHandlerV2 envForkInfo reqPlain sessAuth storeEmpty).store ∧
     ((deployHandlerV1 envForkInfo reqPlain sessAuth
          storeEmpty).store.deployments.map (fun d => d.id) =
         storeEmpty.deployments.map (fun d => d.id) ∨
      (deployHandlerV1 envForkInfo reqPlain sessAuth
          storeEmpty).store.deployments.map (fun d => d.id) =
         storeEmpty.deployments.map (fun d => d.id) ++ [storeEmpty.nextId]) ∧
     ((deployHandlerV2 envForkInfo reqPlain sessAuth
          storeEmpty).store.deployments.map (fun d => d.id) =
         storeEmpty.deployments.map (fun d => d.id) ∨
      (deployHandlerV2 envForkInfo reqPlain sessAuth
          storeEmpty).store.deployments.map (fun d => d.id) =
         storeEmpty.deployments.map (fun d => d.id) ++ [storeEmpty.nextId])) :=
  ⟨(by intro e he; cases he),
   store_invariants storeEmpty (insertOfReqV1 reqPlain "alice")
     ⟨0, "init", "running", "m"⟩ 0 updRunning envForkInfo reqPlain sessAuth
     storeEmpty (by intro e he; cases he)⟩

/-- Environment in which the requested branch already exists on the fork. -/
def envCollision : DeployEnv := { envForkInfo with branchGet := .ok ⟨"oldsha"⟩ }

/-- Witness: the branch-collision theorem applied to a concrete colliding
run. -/
theorem deploy_branch_collision_safe_witness :
    envCollision.branchGet = .ok (⟨"oldsha"⟩ : RefInfo) ∧
    (((∀ t ∈ (deployHandlerV1 envCollision reqPlain sessAuth
          storeEmpty).ghTrace, t ∉ branchFileWorkflowMutations) ∧
      (∀ i b u, (deployHandlerV1 envCollision reqPlain sessAuth
          storeEmpty).response ≠ .success i b u)) ∧
     ((∀ t ∈ (deployHandlerV2 envCollision reqPlain sessAuth
          storeEmpty).ghTrace, t ∉ branchFileWorkflowMutations) ∧
      (∀ i b u, (deployHandlerV2 envCollision reqPlain sessAuth
          storeEmpty).response ≠ .success i b u))) :=
  ⟨rfl, deploy_branch_collision_safe envCollision reqPlain sessAuth storeEmpty
    ⟨"oldsha"⟩ rfl⟩

/-- Witness: the throw-marks-failed theorem applied to a concrete
environment whose main-ref lookup 404s, so the body throws a TypeError. -/
theorem deploy_throw_marks_failed_witness :
    reqPlain.sessionId ≠ "" ∧
    ((∀ m stf, deployBodyV1 envBranchNull reqPlain.branchName storeEmpty.nextId
        (initialSt storeEmpty (insertOfReqV1 reqPlain "alice")) =
          .thrown m stf →
      m ≠ "" ∧
      (deployHandlerV1 envBranchNull reqPlain sessAuth storeEmpty).response =
        .failure m ∧
      (∃ d', getDeployment (deployHandlerV1 envBranchNull reqPlain sessAuth
          storeEmpty).store storeEmpty.nextId = some d' ∧
        d'.status = "failed" ∧ d'.message = some m) ∧
      (∃ e, (deployHandlerV1 envBranchNull reqPlain sessAuth
          storeEmpty).store.deploymentLogs.getLast? = some e ∧
        e.deploymentId = storeEmpty.nextId ∧ e.step = "error" ∧
        e.status = "failed" ∧ e.message = m)) ∧
     (∀ m stf, deployBodyV2 envBranchNull reqPlain.branchName storeEmpty.nextId
        (initialSt storeEmpty (insertOfReqV2 reqPlain "tok" "alice")) =
          .thrown m stf →
      m ≠ "" ∧
      (deployHandlerV2 envBranchNull reqPlain sessAuth storeEmpty).response =
        .failure m ∧
      (∃ d', getDeployment (deployHandlerV2 envBranchNull reqPlain sessAuth
          storeEmpty).store storeEmpty.nextId = some d' ∧
        d'.status = "failed" ∧ d'.message = some m) ∧
      (∃ e, (deployHandlerV2 envBranchNull reqPlain sessAuth
          storeEmpty).store.deploymentLogs.getLast? = some e ∧
        e.deploymentId = storeEmpty.nextId ∧ e.step = "error" ∧
        e.status = "failed" ∧ e.message = m))) :=
  ⟨by decide,
   deploy_throw_marks_failed envBranchNull reqPlain sessAuth storeEmpty
     "tok" "alice" (by decide) (by decide) (by decide)
     ⟨by decide, by decide, by decide, by decide, by decide, by decide,
      by decide, by decide⟩⟩
